import Mathlib

/-!
# vmime POP3 folder / message: a shallow embedding

The POP3 part of vmime keeps three kinds of objects that point at each other:
the store (owner of the socket and of the list of its folders), the folders
(`POP3Folder`, each with a map of the message objects it handed out) and the
messages (`POP3Message`, each with a pointer back to its folder).

The embedding keeps all objects of one store session in a single `World`
value.  Objects are referred to by their index in the world (the analogue of
their address); the member functions of the source become functions that take
the world and the index of `this` and give back the result (a value or the
exception thrown) together with the world after the call.

The socket is represented by two lists: `sent`, the command lines written so
far, and `pending`, the responses the server is going to deliver, in order.
-/

namespace vmime

/-! ## Exceptions -/

/-- The exception classes thrown by the messaging code.  `connection_error`
stands for any failure of the transport while a response is awaited, and
`invalid_reference` is raised by the embedding when a call goes through an
index that designates no live object (in the source: undefined behaviour). -/
inductive exception where
  | illegal_state (what : String)
  | folder_not_found
  | message_not_found
  | operation_not_supported
  | invalid_argument
  | command_error (command : String) (response : String)
  | invalid_response (command : String) (response : String)
  | partial_fetch_not_supported
  | unfetched_object
  | connection_error
  | invalid_reference
  deriving DecidableEq, Repr

/-! ## Constants of the folder and message interfaces -/

/-- Modelled from the spec: the access modes of `folder` (declared in a header
that is not among the sources); read-only is the first enumerator. -/
def MODE_READ_ONLY : Int := 0

/-- Modelled from the spec: the second access mode of `folder`. -/
def MODE_READ_WRITE : Int := 1

/-- Modelled from the spec: folder type "contains sub-mailboxes". -/
def TYPE_CONTAINS_FOLDERS : Int := 1

/-- Modelled from the spec: folder type "contains messages". -/
def TYPE_CONTAINS_MESSAGES : Int := 2

/-- Modelled from the spec: fetch option bit for the envelope. -/
def FETCH_ENVELOPE : Nat := 1
/-- Modelled from the spec: fetch option bit for the MIME structure. -/
def FETCH_STRUCTURE : Nat := 2
/-- Modelled from the spec: fetch option bit for content-type information. -/
def FETCH_CONTENT_INFO : Nat := 4
/-- Modelled from the spec: fetch option bit for the server-side flags. -/
def FETCH_FLAGS : Nat := 8
/-- Modelled from the spec: fetch option bit for the size. -/
def FETCH_SIZE : Nat := 16
/-- Modelled from the spec: fetch option bit for the full header. -/
def FETCH_FULL_HEADER : Nat := 32
/-- Modelled from the spec: fetch option bit for the unique identifier. -/
def FETCH_UID : Nat := 64
/-- Modelled from the spec: fetch option bit for the importance. -/
def FETCH_IMPORTANCE : Nat := 128

/-- Modelled from the spec: message flag "recent". -/
def FLAG_RECENT : Nat := 2
/-- Modelled from the spec: message flag "deleted". -/
def FLAG_DELETED : Nat := 8

/-- Modelled from the spec: the kind of a message-count event ("added"). -/
def TYPE_ADDED : Nat := 0

/-- Largest value of the C++ type `int`. -/
def INT_MAX : Int := 2147483647

/-- Smallest value of the C++ type `int`. -/
def INT_MIN : Int := -2147483648

/-! ## Data model -/

/-- Modelled from the spec: one component of a folder path
(`folder::path::component`); `buffer` is its text. -/
structure component where
  buffer : String
  deriving DecidableEq, Repr

/-- Modelled from the spec: a folder path is the list of its components, the
empty list being the root. -/
abbrev path := List component

/-- Modelled from the spec: `path::last()`, the last component (an empty one
for the root). -/
def path.last (p : path) : component := p.getLastD ⟨""⟩

/-- Modelled from the spec: the event object broadcast when the number of
messages of a folder changes. -/
structure messageCountEvent where
  folder : Nat
  type : Nat
  nums : List Int
  deriving DecidableEq, Repr

/-- The members of `POP3Message`.  `m_folder` is the pointer to the owning
folder (`none` for `NULL`), `m_header` the parsed header (`none` for `NULL`;
the parser is external, the raw header block stands for its result). -/
structure POP3Message where
  m_folder : Option Nat
  m_num : Int
  m_uid : String
  m_size : Int
  m_deleted : Bool
  m_header : Option String
  deriving DecidableEq, Repr

/-- The members of `POP3Folder`.  `m_store` is the pointer to the store:
`true` while it refers to the store of the world, `false` for `NULL`.
`m_messages` is the `MessageMap` (message object to number).  `m_events` is the
list of events handed to `notifyMessageCount` on this folder, oldest first. -/
structure POP3Folder where
  m_store : Bool
  m_path : path
  m_name : component
  m_mode : Int
  m_open : Bool
  m_messageCount : Int
  m_messages : List (Nat × Int)
  m_events : List messageCountEvent
  deriving DecidableEq, Repr

/-- One store session: the folder objects, the message objects (`none` once
destroyed), the store's list `m_folders` of registered folders, the command
lines sent, the responses still to come, and what the streaming read was
given: the size hints and the data written to the output stream. -/
structure World where
  folders : List POP3Folder
  messages : List (Option POP3Message)
  m_folders : List Nat
  sent : List String
  pending : List String
  hints : List Int
  output : List String
  deriving DecidableEq, Repr

/-- The result of a member function: the value returned or the exception
thrown, and the world as the call left it. -/
structure Outcome (α : Type) where
  result : Except exception α
  world : World

/-! ## `std::map` -/

namespace map

/-- `std::map::find`: the value stored under key `k`, if any. -/
def find {κ ν : Type} [DecidableEq κ] : List (κ × ν) → κ → Option ν
  | [], _ => none
  | (k', v) :: rest, k => if k' = k then some v else find rest k

/-- `std::map::insert`: adds the pair unless the key is already present. -/
def insert {κ ν : Type} [DecidableEq κ] (m : List (κ × ν)) (k : κ) (v : ν) : List (κ × ν) :=
  match find m k with
  | some _ => m
  | none => m ++ [(k, v)]

/-- `std::map::erase` by key. -/
def erase {κ ν : Type} [DecidableEq κ] (m : List (κ × ν)) (k : κ) : List (κ × ν) :=
  m.filter (fun e => decide (e.1 ≠ k))

end map

/-! ## The store's protocol helpers -/

/-- Modelled from the spec: `POP3Store::sendRequest` writes one command line
to the transport. -/
def sendRequest (w : World) (buffer : String) : World :=
  { w with sent := w.sent ++ [buffer] }

/-- Modelled from the spec: `POP3Store::readResponse(string&, multiLine)`
reads one complete response; a transport failure (here: nothing left to
read) surfaces as a connection error. -/
def readResponse (w : World) : Option String × World :=
  match w.pending with
  | [] => (none, w)
  | r :: rest => (some r, { w with pending := rest })

/-- Modelled from the spec: `POP3Store::isSuccessResponse` is true iff the
response begins with the positive status marker. -/
def isSuccessResponse (buffer : String) : Bool :=
  buffer.data.take 3 == ['+', 'O', 'K']

/-- Characters up to and including the first space or tab are dropped. -/
def dropThroughBlank : List Char → Option (List Char)
  | [] => none
  | c :: cs => if c == ' ' || c == '\t' then some cs else dropThroughBlank cs

/-- Modelled from the spec: `POP3Store::stripResponseCode` removes the
leading status marker, i.e. everything up to the first blank; a response
without a blank is returned as it is. -/
def stripResponseCode (buffer : String) : String :=
  match dropThroughBlank buffer.data with
  | some rest => ⟨rest⟩
  | none => buffer

/-- Characters up to and including the first line feed are dropped. -/
def dropThroughNewline : List Char → Option (List Char)
  | [] => none
  | c :: cs => if c == '\n' then some cs else dropThroughNewline cs

/-- Modelled from the spec: `POP3Store::stripFirstLine` removes the status
line of a multi-line response and leaves the body. -/
def stripFirstLine (buffer : String) : String :=
  match dropThroughNewline buffer.data with
  | some rest => ⟨rest⟩
  | none => buffer

/-! ## Formatted input and output of `int` -/

/-- `operator<<(ostream&, int)`: the decimal text of an `int`. -/
def showInt (n : Int) : String := toString n

/-- The character class `isspace` of the C locale. -/
def isspace (c : Char) : Bool :=
  c == ' ' || c == '\t' || c == '\n' || c == '\x0b' || c == '\x0c' || c == '\r'

/-- Decimal digit test, `c >= '0' && c <= '9'`. -/
def isdigit (c : Char) : Bool := decide ('0' ≤ c) && decide (c ≤ '9')

/-- The value of a run of decimal digits, most significant first. -/
def digitsValue (ds : List Char) : Nat :=
  ds.foldl (fun acc c => acc * 10 + (c.toNat - '0'.toNat)) 0

/-- `operator>>(istream&, int&)` on a fresh `istringstream`: leading white
space is skipped, then an optional sign and a run of digits are read.  The
result is the value stored in the target and the stream's fail bit; without
digits the value stored is `0`, out of range it is the nearest bound. -/
def extractInt (s : String) : Int × Bool :=
  let cs := s.data.dropWhile isspace
  let signed : Bool × List Char :=
    match cs with
    | [] => (false, [])
    | c :: rest =>
      if c == '-' then (true, rest) else if c == '+' then (false, rest) else (false, c :: rest)
  let ds := signed.2.takeWhile isdigit
  if ds.isEmpty then (0, true)
  else
    let v : Int := if signed.1 then -(digitsValue ds : Int) else (digitsValue ds : Int)
    if v > INT_MAX then (INT_MAX, true)
    else if v < INT_MIN then (INT_MIN, true)
    else (v, false)

/-- Two's-complement wrap-around of an `int` computation. -/
def wrapInt (x : Int) : Int := (x + 2147483648) % 4294967296 - 2147483648

/-! ## `std::vector <int>` -/

/-- A `std::vector <int>`: the allocated slots (`capacity()` of them) and the
number `size` of elements; the elements of the vector are the first `size`
slots. -/
structure vector where
  storage : List Int
  size : Nat
  deriving DecidableEq, Repr

namespace vector

/-- The default constructor: no storage, no elements. -/
def empty : vector := ⟨[], 0⟩

/-- `reserve(n)` grows the storage to at least `n` slots; the size is not
changed. -/
def reserve (v : vector) (n : Nat) : vector :=
  if v.storage.length < n then
    { v with storage := v.storage ++ List.replicate (n - v.storage.length) 0 }
  else v

/-- `v[j] = x` through the unchecked `operator[]`: the slot is written, the
size is not changed. -/
def assign (v : vector) (j : Nat) (x : Int) : vector :=
  { v with storage := v.storage.set j x }

/-- The elements `begin() .. end()`, which is what a copy of the vector
holds. -/
def toList (v : vector) : List Int := v.storage.take v.size

end vector

/-! ## Access to the objects of the world -/

/-- Replaces the folder object at index `i`. -/
def setFolder (w : World) (i : Nat) (fo : POP3Folder) : World :=
  { w with folders := w.folders.set i fo }

/-- Replaces the message object at index `i`. -/
def setMessage (w : World) (i : Nat) (m : Option POP3Message) : World :=
  { w with messages := w.messages.set i m }

/-- The live message object at index `i`, if there is one. -/
def getMessageObject (w : World) (i : Nat) : Option POP3Message :=
  (w.messages[i]?).join

/-- Test `m_path.size() == 1 && m_path[0].buffer() == "INBOX"`. -/
def isINBOX (p : path) : Bool :=
  p.length == 1 && (p.head?.map component.buffer == some "INBOX")

/-! ## `POP3Folder` and `POP3Message`: construction and registration -/

/-- `POP3Folder::registerMessage`: `m_messages.insert(msg, msg->number())`. -/
def registerMessage (w : World) (this : Nat) (msg : Nat) : World :=
  match w.folders[this]?, getMessageObject w msg with
  | some fo, some m =>
      setFolder w this { fo with m_messages := map.insert fo.m_messages msg m.m_num }
  | _, _ => w

/-- `POP3Folder::unregisterMessage`: `m_messages.erase(msg)`. -/
def unregisterMessage (w : World) (this : Nat) (msg : Nat) : World :=
  match w.folders[this]? with
  | some fo => setFolder w this { fo with m_messages := map.erase fo.m_messages msg }
  | none => w

/-- The members of a `POP3Message` as the initialiser list of the constructor
sets them: `m_folder(folder), m_num(num), m_size(-1), m_deleted(false)`, the
unique identifier empty and no header. -/
def initialMessage (folder : Nat) (num : Int) : POP3Message :=
  { m_folder := some folder, m_num := num, m_uid := "", m_size := -1,
    m_deleted := false, m_header := none }

/-- `new POP3Message(folder, num)`: the object is allocated at a fresh index,
its members are initialised and it registers itself with the folder. -/
def newPOP3Message (w : World) (folder : Nat) (num : Int) : Nat × World :=
  let msg := w.messages.length
  let w1 := { w with messages := w.messages ++ [some (initialMessage folder num)] }
  (msg, registerMessage w1 folder msg)

/-- `delete msg`: the destructor unregisters the message from its folder when
`m_folder` is not `NULL`; then the object is gone. -/
def deletePOP3Message (w : World) (msg : Nat) : World :=
  match getMessageObject w msg with
  | none => w
  | some m =>
      let w1 := match m.m_folder with
        | some f => unregisterMessage w f msg
        | none => w
      setMessage w1 msg none

/-- Modelled from the spec: `POP3Store::registerFolder` appends the folder to
the store's list of folders. -/
def registerFolder (w : World) (folder : Nat) : World :=
  { w with m_folders := w.m_folders ++ [folder] }

/-- `new POP3Folder(path, store)`: the members are initialised as in the
constructor and the folder registers itself with the store.  The constructor
leaves `m_messageCount` uninitialised; `count0` is the value it happens to
hold. -/
def newPOP3Folder (w : World) (p : path) (count0 : Int) : Nat × World :=
  let folder := w.folders.length
  let w1 := { w with folders := w.folders ++
    [{ m_store := true, m_path := p, m_name := path.last p, m_mode := -1, m_open := false,
       m_messageCount := count0, m_messages := [], m_events := [] }] }
  (folder, registerFolder w1 folder)

/-! ## `POP3Message` member functions -/

/-- Modelled from the spec: `POP3Store::readResponse(os, progress,
predictedSize)`, the streaming read used for message bodies.  The size hint
it is given is recorded; a negative status is thrown as a command error, and
the body of a positive response is written to the output stream. -/
def readResponseStream (w : World) (predictedSize : Int) : Except exception Unit × World :=
  let w0 := { w with hints := w.hints ++ [predictedSize] }
  match w0.pending with
  | [] => (.error .connection_error, w0)
  | r :: rest =>
    if !isSuccessResponse r then
      (.error (.command_error "" r), { w0 with pending := rest })
    else
      (.ok (), { w0 with pending := rest, output := w0.output ++ [stripFirstLine r] })

namespace POP3Message

/-- The options for which `fetch` has to retrieve the header. -/
def optionsRequiringHeader : Nat :=
  FETCH_ENVELOPE ||| FETCH_CONTENT_INFO ||| FETCH_FULL_HEADER ||| FETCH_IMPORTANCE

/-- `POP3Message::extract`. -/
def extract (w : World) (this : Nat) (start : Int) (length : Int) (_peek : Bool) :
    Outcome Unit :=
  match getMessageObject w this with
  | none => ⟨.error .invalid_reference, w⟩
  | some m =>
    match m.m_folder with
    | none => ⟨.error (.illegal_state "Folder closed"), w⟩
    | some f =>
      match w.folders[f]? with
      | none => ⟨.error .invalid_reference, w⟩
      | some fo =>
        if !fo.m_store then ⟨.error (.illegal_state "Store disconnected"), w⟩
        else if start ≠ 0 ∧ length ≠ -1 then ⟨.error .partial_fetch_not_supported, w⟩
        else
          let w1 := sendRequest w ("RETR " ++ showInt m.m_num)
          let totalSize : Int :=
            match map.find fo.m_messages this with
            | some second => second
            | none => 0
          match readResponseStream w1 totalSize with
          | (.error (.command_error _ response), w2) =>
              ⟨.error (.command_error "RETR" response), w2⟩
          | (.error e, w2) => ⟨.error e, w2⟩
          | (.ok _, w2) => ⟨.ok (), w2⟩

/-- `POP3Message::fetch`.  The header parser is external: the raw header block
read from the server stands for the parsed header. -/
def fetch (w : World) (this : Nat) (folder : Nat) (options : Nat) : Outcome Unit :=
  match getMessageObject w this with
  | none => ⟨.error .invalid_reference, w⟩
  | some m =>
    if m.m_folder ≠ some folder then ⟨.error .folder_not_found, w⟩
    else if options &&& (FETCH_STRUCTURE ||| FETCH_FLAGS) ≠ 0 then
      ⟨.error .operation_not_supported, w⟩
    else if options &&& optionsRequiringHeader = 0 then ⟨.ok (), w⟩
    else
      match w.folders[folder]? with
      | none => ⟨.error .invalid_reference, w⟩
      | some fo =>
        if !fo.m_store then ⟨.error .invalid_reference, w⟩
        else
          match readResponse (sendRequest w ("TOP " ++ showInt m.m_num ++ " 0")) with
          | (none, w1) => ⟨.error .connection_error, w1⟩
          | (some buffer, w1) =>
              ⟨.ok (), setMessage w1 this (some { m with m_header := some buffer })⟩

end POP3Message

/-! ## The UIDL listing -/

/-- Test `*it == ' ' || *it == '\t'`. -/
def isBlank (c : Char) : Bool := c == ' ' || c == '\t'

/-- The lines `std::getline` delivers one after the other: the text is cut at
every line feed, and a last piece without line feed is a line if it is not
empty.  The second argument is the line being collected. -/
def getlines : List Char → List Char → List (List Char)
  | [], line => if line.isEmpty then [] else [line]
  | c :: cs, line => if c == '\n' then line :: getlines cs [] else getlines cs (line ++ [c])

/-- The digit loop of the listing parser:
`number = (number * 10) + (*it - '0')` while `*it` is a digit.  It gives the
number and the rest of the line. -/
def uidlNumber : List Char → Int → Int × List Char
  | [], number => (number, [])
  | c :: cs, number =>
    if isdigit c then
      uidlNumber cs (wrapInt (number * 10 + ((c.toNat - '0'.toNat : Nat) : Int)))
    else (number, c :: cs)

/-- The body of the `while (std::getline(iss, line))` loop for one line: the
pair inserted into `ids`, if the line yields one. -/
def uidlLine (line : List Char) : Option (Int × String) :=
  let it := line.dropWhile isBlank
  if it.isEmpty then none
  else
    let r := uidlNumber it 0
    let it := r.2.dropWhile (fun c => !isBlank c)
    let it := it.dropWhile isBlank
    if it.isEmpty then none else some (r.1, String.mk it)

/-- The map `ids` after all lines have been processed. -/
def uidlIds : List (List Char) → List (Int × String) → List (Int × String)
  | [], ids => ids
  | line :: rest, ids =>
    match uidlLine line with
    | some e => uidlIds rest (map.insert ids e.1 e.2)
    | none => uidlIds rest ids

/-! ## `POP3Folder` member functions -/

namespace POP3Folder

/-- `POP3Folder::open`. -/
def open_ (w : World) (this : Nat) (mode : Int) (failIfModeIsNotAvailable : Bool) :
    Outcome Unit :=
  match w.folders[this]? with
  | none => ⟨.error .invalid_reference, w⟩
  | some fo =>
    if !fo.m_store then ⟨.error (.illegal_state "Store disconnected"), w⟩
    else if fo.m_path.isEmpty then
      if mode ≠ MODE_READ_ONLY ∧ failIfModeIsNotAvailable = true then
        ⟨.error .operation_not_supported, w⟩
      else
        ⟨.ok (), setFolder w this { fo with m_open := true, m_mode := mode, m_messageCount := 0 }⟩
    else if isINBOX fo.m_path then
      match readResponse (sendRequest w "STAT") with
      | (none, w1) => ⟨.error .connection_error, w1⟩
      | (some response, w1) =>
        if !isSuccessResponse response then
          ⟨.error (.command_error "STAT" response), w1⟩
        else
          let response := stripResponseCode response
          let r := extractInt response
          if r.2 then
            ⟨.error (.invalid_response "STAT" response),
              setFolder w1 this { fo with m_messageCount := r.1 }⟩
          else
            ⟨.ok (), setFolder w1 this
              { fo with m_messageCount := r.1, m_open := true, m_mode := mode }⟩
    else ⟨.error .folder_not_found, w⟩

/-- `POP3Folder::getMessage`. -/
def getMessage (w : World) (this : Nat) (num : Int) : Outcome Nat :=
  match w.folders[this]? with
  | none => ⟨.error .invalid_reference, w⟩
  | some fo =>
    if !fo.m_store then ⟨.error (.illegal_state "Store disconnected"), w⟩
    else if !fo.m_open then ⟨.error (.illegal_state "Folder not open"), w⟩
    else if num < 1 ∨ num > fo.m_messageCount then ⟨.error .message_not_found, w⟩
    else
      let r := newPOP3Message w this num
      ⟨.ok r.1, r.2⟩

/-- The loop of `getMessages(nums)` inside the `try` block.  Besides the
exception (if any) and the world it gives back the vector `v` of the objects
created so far, which the handler of the source walks through. -/
def getMessagesLoop (this : Nat) :
    List Int → List Nat → World → Except exception Unit × List Nat × World
  | [], v, w => (.ok (), v, w)
  | num :: rest, v, w =>
    match w.folders[this]? with
    | none => (.error .invalid_reference, v, w)
    | some fo =>
      if num < 1 ∨ num > fo.m_messageCount then (.error .message_not_found, v, w)
      else
        let r := newPOP3Message w this num
        getMessagesLoop this rest (v ++ [r.1]) r.2

/-- `POP3Folder::getMessages(const std::vector <int>&)`: on an exception every
object created so far is deleted and the exception is thrown again. -/
def getMessages (w : World) (this : Nat) (nums : List Int) : Outcome (List Nat) :=
  match w.folders[this]? with
  | none => ⟨.error .invalid_reference, w⟩
  | some fo =>
    if !fo.m_store then ⟨.error (.illegal_state "Store disconnected"), w⟩
    else if !fo.m_open then ⟨.error (.illegal_state "Folder not open"), w⟩
    else
      match getMessagesLoop this nums [] w with
      | (.ok _, v, w1) => ⟨.ok v, w1⟩
      | (.error e, v, w1) => ⟨.error e, v.foldl deletePOP3Message w1⟩

/-- The loop of `getMessages(from, to)`: `for (i = from ; i <= to ; ++i)`.  The
first argument bounds the number of iterations; the caller passes the length
of the range. -/
def getMessagesRangeLoop (this : Nat) (to_ : Int) : Nat → Int → List Nat → World → List Nat × World
  | 0, _, v, w => (v, w)
  | fuel + 1, i, v, w =>
    if i ≤ to_ then
      let r := newPOP3Message w this i
      getMessagesRangeLoop this to_ fuel (i + 1) (v ++ [r.1]) r.2
    else (v, w)

/-- `POP3Folder::getMessages(const int from, const int to)`. -/
def getMessagesRange (w : World) (this : Nat) (from_ to_ : Int) : Outcome (List Nat) :=
  match w.folders[this]? with
  | none => ⟨.error .invalid_reference, w⟩
  | some fo =>
    if !fo.m_store then ⟨.error (.illegal_state "Store disconnected"), w⟩
    else if !fo.m_open then ⟨.error (.illegal_state "Folder not open"), w⟩
    else if to_ < from_ ∨ from_ < 1 ∨ to_ < 1 ∨ from_ > fo.m_messageCount
        ∨ to_ > fo.m_messageCount then
      ⟨.error .message_not_found, w⟩
    else
      let r := getMessagesRangeLoop this to_ (to_ + 1 - from_).toNat from_ [] w
      ⟨.ok r.1, r.2⟩

/-- `getMessageCount`. -/
def getMessageCount (w : World) (this : Nat) : Outcome Int :=
  match w.folders[this]? with
  | none => ⟨.error .invalid_reference, w⟩
  | some fo =>
    if !fo.m_store then ⟨.error (.illegal_state "Store disconnected"), w⟩
    else if !fo.m_open then ⟨.error (.illegal_state "Folder not open"), w⟩
    else ⟨.ok fo.m_messageCount, w⟩

/-- The loop of `status` that fills `nums`:
`for (int i = oldCount + 1, j = 0 ; i <= count ; ++i, ++j) nums[j] = i;`.
The first argument bounds the number of iterations; the caller passes
`count - oldCount`, the number of values of `i` that pass the test. -/
def statusFill (count : Int) : Nat → Int → Nat → vector → vector
  | 0, _, _, nums => nums
  | fuel + 1, i, j, nums =>
    if i ≤ count then statusFill count fuel (i + 1) (j + 1) (nums.assign j i)
    else nums

/-- The vector `nums` built by `status` for the "added" event:
it is default-constructed, `reserve(count - oldCount)` is called on it and
the loop assigns `nums[j]`. -/
def statusNums (oldCount count : Int) : vector :=
  statusFill count (count - oldCount).toNat (oldCount + 1) 0
    (vector.empty.reserve (count - oldCount).toNat)

/-- The loop of `status` over `m_store->m_folders`: a folder whose full path
equals `m_path` gets the new count and is notified of the event. -/
def statusNotify (m_path : path) (count : Int) (event : messageCountEvent) :
    List Nat → World → World
  | [], w => w
  | it :: rest, w =>
    match w.folders[it]? with
    | none => statusNotify m_path count event rest w
    | some fo =>
      if fo.m_path = m_path then
        statusNotify m_path count event rest
          (setFolder w it { fo with m_messageCount := count,
                                    m_events := fo.m_events ++ [event] })
      else statusNotify m_path count event rest w

/-- `POP3Folder::status`; the value returned is the pair of the output
parameters `(count, unseen)`. -/
def status (w : World) (this : Nat) : Outcome (Int × Int) :=
  match w.folders[this]? with
  | none => ⟨.error .invalid_reference, w⟩
  | some fo =>
    if !fo.m_store then ⟨.error (.illegal_state "Store disconnected"), w⟩
    else if !fo.m_open then ⟨.error (.illegal_state "Folder not open"), w⟩
    else
      match readResponse (sendRequest w "STAT") with
      | (none, w1) => ⟨.error .connection_error, w1⟩
      | (some response, w1) =>
        if !isSuccessResponse response then
          ⟨.error (.command_error "STAT" response), w1⟩
        else
          let count := (extractInt (stripResponseCode response)).1
          let unseen := count
          if fo.m_messageCount ≠ count then
            let oldCount := fo.m_messageCount
            let w2 := setFolder w1 this { fo with m_messageCount := count }
            if count > oldCount then
              let nums := statusNums oldCount count
              let event : messageCountEvent := ⟨this, TYPE_ADDED, nums.toList⟩
              ⟨.ok (count, unseen), statusNotify fo.m_path count event w2.m_folders w2⟩
            else ⟨.ok (count, unseen), w2⟩
          else ⟨.ok (count, unseen), w1⟩

/-- The first loop of `fetchMessages`: `fetch(this, options)` on every message,
in order; an exception ends the loop. -/
def fetchMessagesLoop (this : Nat) (options : Nat) : List Nat → World → Outcome Unit
  | [], w => ⟨.ok (), w⟩
  | it :: rest, w =>
    match POP3Message.fetch w it this options with
    | ⟨.error e, w1⟩ => ⟨.error e, w1⟩
    | ⟨.ok _, w1⟩ => fetchMessagesLoop this options rest w1

/-- The last loop of `fetchMessages`: a message whose number is a key of `ids`
gets the unique identifier stored there. -/
def assignUids (ids : List (Int × String)) : List Nat → World → World
  | [], w => w
  | it :: rest, w =>
    match getMessageObject w it with
    | none => assignUids ids rest w
    | some m =>
      match map.find ids m.m_num with
      | some second => assignUids ids rest (setMessage w it (some { m with m_uid := second }))
      | none => assignUids ids rest w

/-- `POP3Folder::fetchMessages`, called without a progression listener
(`progress == NULL`). -/
def fetchMessages (w : World) (this : Nat) (msg : List Nat) (options : Nat) : Outcome Unit :=
  match w.folders[this]? with
  | none => ⟨.error .invalid_reference, w⟩
  | some fo =>
    if !fo.m_store then ⟨.error (.illegal_state "Store disconnected"), w⟩
    else if !fo.m_open then ⟨.error (.illegal_state "Folder not open"), w⟩
    else
      match fetchMessagesLoop this options msg w with
      | ⟨.error e, w1⟩ => ⟨.error e, w1⟩
      | ⟨.ok _, w1⟩ =>
        if options &&& FETCH_UID ≠ 0 then
          match readResponse (sendRequest w1 "UIDL") with
          | (none, w2) => ⟨.error .connection_error, w2⟩
          | (some response, w2) =>
            if isSuccessResponse response then
              let ids := uidlIds (getlines (stripFirstLine response).data []) []
              ⟨.ok (), assignUids ids msg w2⟩
            else ⟨.ok (), w2⟩
        else ⟨.ok (), w1⟩

/-- `POP3Folder::deleteMessage`. -/
def deleteMessage (w : World) (this : Nat) (num : Int) : Outcome Unit :=
  match w.folders[this]? with
  | none => ⟨.error .invalid_reference, w⟩
  | some fo =>
    if !fo.m_store then ⟨.error (.illegal_state "Store disconnected"), w⟩
    else if !fo.m_open then ⟨.error (.illegal_state "Folder not open"), w⟩
    else
      match readResponse (sendRequest w ("DELE " ++ showInt num)) with
      | (none, w1) => ⟨.error .connection_error, w1⟩
      | (some response, w1) =>
        if !isSuccessResponse response then
          ⟨.error (.command_error "DELE" response), w1⟩
        else ⟨.ok (), w1⟩

/-- The loop of `deleteMessages(from, to)`: `for (int i = from ; i < to ; ++i)`.
The first argument bounds the number of iterations; the caller passes
`to - from`, the number of values of `i` that pass the test. -/
def deleteMessagesRangeLoop (to_ : Int) : Nat → Int → World → Outcome Unit
  | 0, _, w => ⟨.ok (), w⟩
  | fuel + 1, i, w =>
    if i < to_ then
      match readResponse (sendRequest w ("DELE " ++ showInt i)) with
      | (none, w1) => ⟨.error .connection_error, w1⟩
      | (some response, w1) =>
        if !isSuccessResponse response then
          ⟨.error (.command_error "DELE" response), w1⟩
        else deleteMessagesRangeLoop to_ fuel (i + 1) w1
    else ⟨.ok (), w⟩

/-- `POP3Folder::deleteMessages(const int from, const int to)`. -/
def deleteMessagesRange (w : World) (this : Nat) (from_ to_ : Int) : Outcome Unit :=
  if from_ < 1 ∨ (to_ < from_ ∧ to_ ≠ -1) then ⟨.error .invalid_argument, w⟩
  else
    match w.folders[this]? with
    | none => ⟨.error .invalid_reference, w⟩
    | some fo =>
      if !fo.m_store then ⟨.error (.illegal_state "Store disconnected"), w⟩
      else if !fo.m_open then ⟨.error (.illegal_state "Folder not open"), w⟩
      else deleteMessagesRangeLoop to_ (to_ - from_).toNat from_ w

/-- The loop of `deleteMessages(nums)` over the vector. -/
def deleteMessagesLoop : List Int → World → Outcome Unit
  | [], w => ⟨.ok (), w⟩
  | num :: rest, w =>
    match readResponse (sendRequest w ("DELE " ++ showInt num)) with
    | (none, w1) => ⟨.error .connection_error, w1⟩
    | (some response, w1) =>
      if !isSuccessResponse response then
        ⟨.error (.command_error "DELE" response), w1⟩
      else deleteMessagesLoop rest w1

/-- `POP3Folder::deleteMessages(const std::vector <int>&)`. -/
def deleteMessages (w : World) (this : Nat) (nums : List Int) : Outcome Unit :=
  if nums.isEmpty then ⟨.error .invalid_argument, w⟩
  else
    match w.folders[this]? with
    | none => ⟨.error .invalid_reference, w⟩
    | some fo =>
      if !fo.m_store then ⟨.error (.illegal_state "Store disconnected"), w⟩
      else if !fo.m_open then ⟨.error (.illegal_state "Folder not open"), w⟩
      else deleteMessagesLoop nums w

end POP3Folder

open POP3Folder

/-- The world after message objects for `nums` have been created one after the
other by folder `this` (whose object is `fo`). -/
def allocated (w : World) (this : Nat) (fo : POP3Folder) (nums : List Int) : World :=
  { w with
    messages := w.messages ++ nums.map (fun n => some (initialMessage this n)),
    folders := w.folders.set this
      { fo with m_messages :=
          fo.m_messages ++ (List.range' w.messages.length nums.length).zip nums } }


/-! ## An example session -/

/-- The INBOX folder of the example session: open read-only, four messages. -/
def exampleFolder : POP3Folder :=
  { m_store := true, m_path := [⟨"INBOX"⟩], m_name := ⟨"INBOX"⟩, m_mode := 0, m_open := true,
    m_messageCount := 4, m_messages := [], m_events := [] }

/-- The example session right after the INBOX has been opened. -/
def exampleWorld : World :=
  { folders := [exampleFolder], messages := [], m_folders := [0], sent := ["STAT"],
    pending := [], hints := [], output := [] }

/-- The INBOX folder of the example session before it is opened. -/
def exampleClosedFolder : POP3Folder :=
  { m_store := true, m_path := [⟨"INBOX"⟩], m_name := ⟨"INBOX"⟩, m_mode := -1, m_open := false,
    m_messageCount := 0, m_messages := [], m_events := [] }

/-- The example session before the INBOX is opened, with the responses
`replies` still to come. -/
def exampleClosedWorld (replies : List String) : World :=
  { folders := [exampleClosedFolder], messages := [], m_folders := [0], sent := [],
    pending := replies, hints := [], output := [] }

/-- The root folder of the example session, closed. -/
def exampleRootFolder : POP3Folder :=
  { m_store := true, m_path := [], m_name := ⟨""⟩, m_mode := -1, m_open := false,
    m_messageCount := 0, m_messages := [], m_events := [] }

/-- The example session with a second folder object for the INBOX (open, with
an older count) and one for the root; the server is about to report six
messages. -/
def exampleAliasWorld : World :=
  { folders := [exampleFolder, { exampleFolder with m_messageCount := 3 }, exampleRootFolder],
    messages := [], m_folders := [0, 1, 2], sent := ["STAT"],
    pending := ["+OK 6 320"], hints := [], output := [] }

/-- The example session after message objects for the numbers 1, 2 and 3 have
been handed out. -/
def exampleMessageWorld : World :=
  { folders := [{ exampleFolder with m_messages := [(0, 1), (1, 2), (2, 3)] }],
    messages := [some (initialMessage 0 1), some (initialMessage 0 2), some (initialMessage 0 3)],
    m_folders := [0], sent := ["STAT"], pending := [], hints := [], output := [] }

/-! ## The text of a UIDL listing -/

/-- The body of a UIDL listing as the server sends it: one line
`<number> <uid>` per entry, each ended by a line feed, then the terminator
line `.`. -/
def uidlBody : List (Nat × String) → List Char
  | [] => ['.']
  | e :: rest => (Nat.repr e.1).data ++ ' ' :: (e.2.data ++ '\n' :: uidlBody rest)

/-- A unique identifier as it can stand in a listing line: not empty, not
starting with a blank, and without line feed. -/
def validUid (uid : String) : Bool :=
  match uid.data with
  | [] => false
  | c :: cs => !isBlank c && !(c :: cs).contains '\n'

/-- The message `m` after the last loop of `fetchMessages` has looked its
number up in `ids`. -/
def withUid (ids : List (Int × String)) (m : POP3Message) : POP3Message :=
  match map.find ids m.m_num with
  | some second => { m with m_uid := second }
  | none => m

/-- The example session with three message objects, the server about to
answer `UIDL` with the listing `1 abc`, `2 def`. -/
def exampleUidlWorld : World :=
  { exampleMessageWorld with pending := ["+OK\n1 abc\n2 def\n."] }

/-! ## Further member functions -/

/-- `POP3Message::onFolderClosed`: `m_folder = NULL`. -/
def onFolderClosed (w : World) (msg : Nat) : World :=
  match getMessageObject w msg with
  | some m => setMessage w msg (some { m with m_folder := none })
  | none => w

/-- `POP3Message::getFlags`. -/
def POP3Message.getFlags (m : POP3Message) : Nat :=
  if m.m_deleted then FLAG_RECENT ||| FLAG_DELETED else FLAG_RECENT

/-- Modelled from the spec: `path / component`, the path extended by one
component. -/
def path.child (p : path) (name : component) : path := p ++ [name]

namespace POP3Folder

/-- `POP3Folder::type`. -/
def type (w : World) (this : Nat) : Outcome Int :=
  match w.folders[this]? with
  | none => ⟨.error .invalid_reference, w⟩
  | some fo =>
    if !fo.m_open then ⟨.error (.illegal_state "Folder not open"), w⟩
    else if fo.m_path.isEmpty then ⟨.ok TYPE_CONTAINS_FOLDERS, w⟩
    else if isINBOX fo.m_path then ⟨.ok TYPE_CONTAINS_MESSAGES, w⟩
    else ⟨.error .folder_not_found, w⟩

/-- `POP3Folder::onClose`: every message of `m_messages` is told that the
folder is closed, then the map is cleared. -/
def onClose (w : World) (this : Nat) : World :=
  match w.folders[this]? with
  | none => w
  | some fo =>
    let w1 := fo.m_messages.foldl (fun acc it => onFolderClosed acc it.1) w
    match w1.folders[this]? with
    | none => w1
    | some fo1 => setFolder w1 this { fo1 with m_messages := [] }

/-- `POP3Folder::close`. -/
def close (w : World) (this : Nat) (expunge : Bool) : Outcome Unit :=
  match w.folders[this]? with
  | none => ⟨.error .invalid_reference, w⟩
  | some fo =>
    if !fo.m_store then ⟨.error (.illegal_state "Store disconnected"), w⟩
    else if !fo.m_open then ⟨.error (.illegal_state "Folder not open"), w⟩
    else if !expunge then
      match readResponse (sendRequest w "RSET") with
      | (none, w1) => ⟨.error .connection_error, w1⟩
      | (some _, w1) =>
        ⟨.ok (), onClose (setFolder w1 this { fo with m_open := false, m_mode := -1 }) this⟩
    else
      ⟨.ok (), onClose (setFolder w this { fo with m_open := false, m_mode := -1 }) this⟩

/-- `POP3Folder::exists`. -/
def exists_ (w : World) (this : Nat) : Outcome Bool :=
  match w.folders[this]? with
  | none => ⟨.error .invalid_reference, w⟩
  | some fo =>
    if !fo.m_store then ⟨.error (.illegal_state "Store disconnected"), w⟩
    else ⟨.ok (fo.m_path.isEmpty || isINBOX fo.m_path), w⟩

/-- `POP3Folder::getFolder`: a new folder object for the path `m_path / name`;
`count0` is the value its uninitialised `m_messageCount` happens to hold. -/
def getFolder (w : World) (this : Nat) (name : component) (count0 : Int) : Outcome Nat :=
  match w.folders[this]? with
  | none => ⟨.error .invalid_reference, w⟩
  | some fo =>
    if !fo.m_store then ⟨.error (.illegal_state "Store disconnected"), w⟩
    else
      let r := newPOP3Folder w (path.child fo.m_path name) count0
      ⟨.ok r.1, r.2⟩

/-- `POP3Folder::getFolders`; `count0` is the value the uninitialised
`m_messageCount` of a new folder object happens to hold. -/
def getFolders (w : World) (this : Nat) (_recursive : Bool) (count0 : Int) :
    Outcome (List Nat) :=
  match w.folders[this]? with
  | none => ⟨.error .invalid_reference, w⟩
  | some fo =>
    if !fo.m_store then ⟨.error (.illegal_state "Store disconnected"), w⟩
    else if fo.m_path.isEmpty then
      let r := newPOP3Folder w [⟨"INBOX"⟩] count0
      ⟨.ok [r.1], r.2⟩
    else ⟨.ok [], w⟩

/-- `POP3Folder::fetchMessage`. -/
def fetchMessage (w : World) (this : Nat) (msg : Nat) (options : Nat) : Outcome Unit :=
  match w.folders[this]? with
  | none => ⟨.error .invalid_reference, w⟩
  | some fo =>
    if !fo.m_store then ⟨.error (.illegal_state "Store disconnected"), w⟩
    else if !fo.m_open then ⟨.error (.illegal_state "Folder not open"), w⟩
    else
      match POP3Message.fetch w msg this options with
      | ⟨.error e, w1⟩ => ⟨.error e, w1⟩
      | ⟨.ok _, w1⟩ =>
        if options &&& FETCH_UID ≠ 0 then
          match readResponse (sendRequest w1 "UIDL") with
          | (none, w2) => ⟨.error .connection_error, w2⟩
          | (some response, w2) =>
            if isSuccessResponse response then
              let it := (stripResponseCode response).data.dropWhile isBlank
              let it := it.dropWhile (fun c => !isBlank c)
              let it := it.dropWhile isBlank
              if it.isEmpty then ⟨.ok (), w2⟩
              else
                match getMessageObject w2 msg with
                | none => ⟨.error .invalid_reference, w2⟩
                | some m => ⟨.ok (), setMessage w2 msg (some { m with m_uid := String.mk it })⟩
            else ⟨.ok (), w2⟩
        else ⟨.ok (), w1⟩

/-- `POP3Folder::onStoreDisconnected`: `m_store = NULL`. -/
def onStoreDisconnected (w : World) (this : Nat) : World :=
  match w.folders[this]? with
  | none => w
  | some fo => setFolder w this { fo with m_store := false }

end POP3Folder

/-- The example session after the INBOX, with three message objects handed
out, has been closed and opened again. -/
def exampleReopenedWorld : World :=
  (open_ { (close { exampleMessageWorld with pending := ["+OK"] } 0 false).world with
            pending := ["+OK 4 320"] } 0 MODE_READ_ONLY false).world

/-- The integers `i, i + 1, ...`, `n` of them. -/
def intsFrom : Int → Nat → List Int
  | _, 0 => []
  | i, n + 1 => i :: intsFrom (i + 1) n

/-! ## `mediaType` -/

/-- The upper-case letters of the C locale with their lower-case forms. -/
def lowerTable : List (Char × Char) :=
  [('A', 'a'), ('B', 'b'), ('C', 'c'), ('D', 'd'), ('E', 'e'), ('F', 'f'), ('G', 'g'),
   ('H', 'h'), ('I', 'i'), ('J', 'j'), ('K', 'k'), ('L', 'l'), ('M', 'm'), ('N', 'n'),
   ('O', 'o'), ('P', 'p'), ('Q', 'q'), ('R', 'r'), ('S', 's'), ('T', 't'), ('U', 'u'),
   ('V', 'v'), ('W', 'w'), ('X', 'x'), ('Y', 'y'), ('Z', 'z')]

/-- `std::tolower` in the C locale: an upper-case letter becomes the
lower-case one, every other character is left as it is. -/
def tolower (c : Char) : Char := (lowerTable.lookup c).getD c

/-- Modelled from the spec: the string helper `toLower` (defined outside the
sources at hand) lower-cases every character of the string. -/
def toLower (s : String) : String := String.mk (s.data.map tolower)

/-- The members of `mediaType`. -/
structure mediaType where
  m_type : String
  m_subType : String
  deriving DecidableEq, Repr

namespace mediaType

/-- `mediaType::parse(buffer, position, end, newPosition)`: the object after
the call and the value stored in `*newPosition`.  `region` is the text
between `position` and `end`; the pointer `p` of the source runs over its
longest prefix without `/`, which is `typePart`. -/
def parse (this : mediaType) (buffer : String) (position : Nat) (end_ : Nat) :
    mediaType × Nat :=
  let region := (buffer.data.drop position).take (end_ - position)
  let typePart := region.takeWhile (fun c => c != '/')
  let m_type := toLower (String.mk typePart)
  if typePart.length < region.length then
    ({ m_type := m_type,
       m_subType := toLower (String.mk (region.drop (typePart.length + 1))) }, end_)
  else
    ({ m_type := m_type, m_subType := this.m_subType }, end_)

/-- `mediaType::generate(os, maxLineLength, curLinePos, newLinePos)`: the text
written to `os` and the value stored in `*newLinePos`.  The line-folding
constants `NEW_LINE_SEQUENCE` and `NEW_LINE_SEQUENCE_LENGTH` are declared
outside the sources at hand and are taken as parameters. -/
def generate (this : mediaType) (NEW_LINE_SEQUENCE : String) (NEW_LINE_SEQUENCE_LENGTH : Nat)
    (maxLineLength : Nat) (curLinePos : Nat) : String × Nat :=
  let value := toLower this.m_type ++ "/" ++ toLower this.m_subType
  if curLinePos + value.length > maxLineLength then
    (NEW_LINE_SEQUENCE ++ value, NEW_LINE_SEQUENCE_LENGTH + value.length)
  else
    (value, curLinePos + value.length)

end mediaType

/-! ## Consistency of the maps of messages -/

/-- The maps of messages agree with the message objects: in every folder the
keys of `m_messages` are pairwise distinct, a folder that is not open has an
empty map, and `(h, n)` is an entry of the map of folder `f` exactly when
`h` is a live message object whose owner pointer is `f` and whose number is
`n`. -/
def RegistryConsistent (w : World) : Prop :=
  ∀ (f : Nat) (fo : POP3Folder), w.folders[f]? = some fo →
    (fo.m_messages.map Prod.fst).Nodup ∧
    (fo.m_open = false → fo.m_messages = []) ∧
    ∀ (h : Nat) (n : Int), (h, n) ∈ fo.m_messages ↔
      ∃ m : POP3Message, getMessageObject w h = some m ∧ m.m_folder = some f ∧ m.m_num = n

/-- One step of the life of message objects: a message object is asked for
(`getMessage`, both forms of `getMessages`), a message object is deleted, or
a folder is closed. -/
inductive RegistryStep : World → World → Prop
  | getMessage (w : World) (this : Nat) (num : Int) :
      RegistryStep w (POP3Folder.getMessage w this num).world
  | getMessages (w : World) (this : Nat) (nums : List Int) :
      RegistryStep w (POP3Folder.getMessages w this nums).world
  | getMessagesRange (w : World) (this : Nat) (from_ to_ : Int) :
      RegistryStep w (POP3Folder.getMessagesRange w this from_ to_).world
  | destroy (w : World) (msg : Nat) :
      RegistryStep w (deletePOP3Message w msg)
  | close (w : World) (this : Nat) (expunge : Bool) :
      RegistryStep w (POP3Folder.close w this expunge).world

/-! ## Lemmas on lists and maps -/

theorem map.find_eq_none {κ ν : Type} [DecidableEq κ] (m : List (κ × ν)) (k : κ)
    (h : ∀ e ∈ m, e.1 ≠ k) : map.find m k = none := by
  induction m with
  | nil => rfl
  | cons e rest ih =>
    obtain ⟨k', v⟩ := e
    have hk : k' ≠ k := h (k', v) (by simp)
    simp only [map.find, hk, if_false]
    exact ih (fun e he => h e (List.mem_cons_of_mem _ he))

theorem map.find_append_single {κ ν : Type} [DecidableEq κ] (m : List (κ × ν)) (k : κ) (v : ν)
    (h : ∀ e ∈ m, e.1 ≠ k) : map.find (m ++ [(k, v)]) k = some v := by
  induction m with
  | nil => simp [map.find]
  | cons e rest ih =>
    obtain ⟨k', v'⟩ := e
    have hk : k' ≠ k := h (k', v') (by simp)
    simp only [List.cons_append, map.find, hk, if_false]
    exact ih (fun e he => h e (List.mem_cons_of_mem _ he))

theorem map.insert_fresh {κ ν : Type} [DecidableEq κ] (m : List (κ × ν)) (k : κ) (v : ν)
    (h : ∀ e ∈ m, e.1 ≠ k) : map.insert m k v = m ++ [(k, v)] := by
  simp [map.insert, map.find_eq_none m k h]

theorem map.erase_absent {κ ν : Type} [DecidableEq κ] (m : List (κ × ν)) (k : κ)
    (h : ∀ e ∈ m, e.1 ≠ k) : map.erase m k = m := by
  unfold map.erase
  rw [List.filter_eq_self]
  intro e he
  simpa using h e he

theorem map.erase_append {κ ν : Type} [DecidableEq κ] (m m' : List (κ × ν)) (k : κ) :
    map.erase (m ++ m') k = map.erase m k ++ map.erase m' k := by
  simp [map.erase]


theorem newPOP3Message_eq (w : World) (this : Nat) (fo : POP3Folder) (n : Int)
    (hfo : w.folders[this]? = some fo)
    (hreg : ∀ e ∈ fo.m_messages, e.1 < w.messages.length) :
    newPOP3Message w this n = (w.messages.length, allocated w this fo [n]) := by
  have hfresh : ∀ e ∈ fo.m_messages, e.1 ≠ w.messages.length :=
    fun e he => Nat.ne_of_lt (hreg e he)
  simp [newPOP3Message, registerMessage, getMessageObject, hfo, setFolder, allocated,
    map.insert_fresh _ _ _ hfresh, initialMessage]

theorem allocated_folder (w : World) (this : Nat) (fo : POP3Folder) (nums : List Int)
    (hfo : w.folders[this]? = some fo) :
    (allocated w this fo nums).folders[this]? = some
      { fo with m_messages :=
          fo.m_messages ++ (List.range' w.messages.length nums.length).zip nums } := by
  have hlt : this < w.folders.length := by
    rcases List.getElem?_eq_some_iff.mp hfo with ⟨h, _⟩
    exact h
  simp [allocated, List.getElem?_set, hlt]

theorem allocated_allocated (w : World) (this : Nat) (fo : POP3Folder) (n : Int) (nums : List Int) :
    allocated (allocated w this fo [n]) this
      { fo with m_messages := fo.m_messages ++ [(w.messages.length, n)] } nums
    = allocated w this fo (n :: nums) := by
  simp [allocated, List.range'_succ]
  
theorem set_of_getElem? {α : Type} (l : List α) (i : Nat) (a : α)
    (h : l[i]? = some a) : l.set i a = l := by
  induction l generalizing i with
  | nil => rfl
  | cons b l ih =>
    cases i with
    | zero => simp at h; simp [h]
    | succ i => simp at h; simp [ih i h]

theorem allocated_nil (w : World) (this : Nat) (fo : POP3Folder)
    (hfo : w.folders[this]? = some fo) : allocated w this fo [] = w := by
  cases w
  simp only [allocated, List.map_nil, List.append_nil, List.length_nil, List.range'_zero,
    List.zip_nil_left]
  congr
  exact set_of_getElem? _ _ _ hfo

theorem getMessagesLoop_append (this : Nat) (pre rest : List Int) :
    ∀ (w : World) (fo : POP3Folder) (v : List Nat),
      w.folders[this]? = some fo →
      (∀ e ∈ fo.m_messages, e.1 < w.messages.length) →
      (∀ n ∈ pre, 1 ≤ n ∧ n ≤ fo.m_messageCount) →
      getMessagesLoop this (pre ++ rest) v w
        = getMessagesLoop this rest (v ++ List.range' w.messages.length pre.length)
            (allocated w this fo pre) := by
  induction pre with
  | nil =>
    intro w fo v hfo _ _
    simp [allocated_nil w this fo hfo]
  | cons n pre ih =>
    intro w fo v hfo hreg hval
    have hn := hval n (by simp)
    have hc : ¬ (n < 1 ∨ n > fo.m_messageCount) := by omega
    rw [List.cons_append, getMessagesLoop]
    simp only [hfo, hc, if_false, newPOP3Message_eq w this fo n hfo hreg]
    have hfo1 := allocated_folder w this fo [n] hfo
    simp only [List.length_singleton, List.range'_one, List.zip_cons_cons, List.zip_nil_right] at hfo1
    rw [ih (allocated w this fo [n]) _ _ hfo1]
    · rw [allocated_allocated]
      simp [allocated, List.range'_succ]
    · intro e he
      simp at he
      simp [allocated]
      rcases he with he | he
      · have := hreg e he
        omega
      · subst he
        simp
    · intro m hm
      exact hval m (by simp [hm])

theorem set_at_length {α : Type} (M : List α) (a b : α) (rest : List α) :
    (M ++ a :: rest).set M.length b = M ++ b :: rest := by
  induction M with
  | nil => rfl
  | cons x M ih => simp [ih]

theorem getElem?_at_length {α : Type} (M : List α) (a : α) (rest : List α) :
    (M ++ a :: rest)[M.length]? = some a := by
  induction M with
  | nil => simp
  | cons x M ih => simpa using ih

theorem deleteAll_allocated (this : Nat) (ns : List Int) :
    ∀ (M : List (Option POP3Message)) (base : List (Nat × Int)) (W : World) (F : POP3Folder),
      W.folders[this]? = some F →
      F.m_messages = base ++ (List.range' M.length ns.length).zip ns →
      (∀ e ∈ base, e.1 < M.length) →
      W.messages = M ++ ns.map (fun n => some (initialMessage this n)) →
      (List.range' M.length ns.length).foldl deletePOP3Message W
        = { W with messages := M ++ List.replicate ns.length none,
                   folders := W.folders.set this { F with m_messages := base } } := by
  induction ns with
  | nil =>
    intro M base W F hF hreg _ hmsg
    simp at hreg hmsg
    cases W
    simp at hmsg hF ⊢
    refine ⟨?_, hmsg⟩
    symm
    apply set_of_getElem?
    rw [hF, ← hreg]
  | cons n ns ih =>
    intro M base W F hF hreg hbase hmsg
    have hlt : this < W.folders.length := (List.getElem?_eq_some_iff.mp hF).1
    have hobj : getMessageObject W M.length = some (initialMessage this n) := by
      rw [getMessageObject, hmsg, List.map_cons, getElem?_at_length]
      rfl
    have herase : map.erase F.m_messages M.length
        = base ++ (List.range' (M.length + 1) ns.length).zip ns := by
      rw [hreg, List.length_cons, List.range'_succ, List.zip_cons_cons, map.erase_append]
      rw [map.erase_absent base _ (fun e he => Nat.ne_of_lt (hbase e he))]
      congr 1
      have : map.erase ((M.length, n) :: (List.range' (M.length + 1) ns.length).zip ns) M.length
          = map.erase ((List.range' (M.length + 1) ns.length).zip ns) M.length := by
        simp [map.erase]
      rw [this]
      apply map.erase_absent
      intro e he
      obtain ⟨k, v⟩ := e
      have := (List.of_mem_zip he).1
      simp [List.mem_range'] at this
      simp
      omega
    have hstep : deletePOP3Message W M.length
        = { W with messages := (M ++ [none]) ++ ns.map (fun n => some (initialMessage this n)),
                   folders := W.folders.set this
                     { F with m_messages := base ++ (List.range' (M.length + 1) ns.length).zip ns } } := by
      simp only [deletePOP3Message, hobj, initialMessage, unregisterMessage, hF, setFolder,
        setMessage, herase]
      congr 1
      rw [hmsg, List.map_cons, set_at_length]
      simp
      intros
      rfl
    rw [List.length_cons, List.range'_succ, List.foldl_cons, hstep]
    have hM : (M ++ [none]).length = M.length + 1 := by simp
    rw [← hM]
    rw [ih (M ++ [none]) base _ { F with m_messages := base ++ (List.range' (M.length + 1) ns.length).zip ns }]
    · simp [List.replicate_succ]
    · simp [List.getElem?_set, hlt]
    · simp
    · intro e he
      have := hbase e he
      simp
      omega
    · rfl

theorem exists_first_failing {α : Type} (P : α → Prop) [DecidablePred P] (l : List α)
    (h : ∃ x ∈ l, ¬ P x) :
    ∃ pre bad post, l = pre ++ bad :: post ∧ (∀ x ∈ pre, P x) ∧ ¬ P bad := by
  induction l with
  | nil => simp at h
  | cons a l ih =>
    by_cases ha : P a
    · have h' : ∃ x ∈ l, ¬ P x := by
        obtain ⟨x, hx, hpx⟩ := h
        rcases List.mem_cons.mp hx with rfl | hx
        · exact absurd ha hpx
        · exact ⟨x, hx, hpx⟩
      obtain ⟨pre, bad, post, hl, hpre, hbad⟩ := ih h'
      refine ⟨a :: pre, bad, post, by simp [hl], ?_, hbad⟩
      intro x hx
      rcases List.mem_cons.mp hx with rfl | hx
      · exact ha
      · exact hpre x hx
    · exact ⟨[], a, l, rfl, by simp, ha⟩

theorem map.find_append_absent {κ ν : Type} [DecidableEq κ] (m m' : List (κ × ν)) (k : κ)
    (h : ∀ e ∈ m, e.1 ≠ k) : map.find (m ++ m') k = map.find m' k := by
  induction m with
  | nil => rfl
  | cons e rest ih =>
    obtain ⟨k', v⟩ := e
    have hk : k' ≠ k := h (k', v) (by simp)
    simp only [List.cons_append, map.find, hk, if_false]
    exact ih (fun e he => h e (List.mem_cons_of_mem _ he))

theorem map.find_zip_range (ns : List Int) :
    ∀ (a i : Nat), map.find ((List.range' a ns.length).zip ns) (a + i) = ns[i]? := by
  induction ns with
  | nil => intro a i; simp [map.find]
  | cons n ns ih =>
    intro a i
    rw [List.length_cons, List.range'_succ, List.zip_cons_cons]
    cases i with
    | zero => simp [map.find]
    | succ i =>
      have : a ≠ a + (i + 1) := by omega
      simp only [map.find, this, if_false]
      have := ih (a + 1) i
      rw [show a + 1 + i = a + (i + 1) by omega] at this
      simpa using this

theorem getMessages_eq_loop (w : World) (this : Nat) (fo : POP3Folder) (nums : List Int)
    (hfo : w.folders[this]? = some fo) (hst : fo.m_store = true) (ho : fo.m_open = true) :
    getMessages w this nums =
      match getMessagesLoop this nums [] w with
      | (.ok _, v, w1) => ⟨.ok v, w1⟩
      | (.error e, v, w1) => ⟨.error e, v.foldl deletePOP3Message w1⟩ := by
  simp [getMessages, hfo, hst, ho]

/-! ## Decimal numerals -/

theorem isdigit_digitChar (d : Nat) (h : d < 10) : isdigit (Nat.digitChar d) = true := by
  interval_cases d <;> decide

theorem digitChar_value (d : Nat) (h : d < 10) : (Nat.digitChar d).toNat - '0'.toNat = d := by
  interval_cases d <;> decide

theorem toDigitsCore_all_digits (fuel : Nat) :
    ∀ (n : Nat) (ds : List Char), (∀ c ∈ ds, isdigit c = true) →
      ∀ c ∈ Nat.toDigitsCore 10 fuel n ds, isdigit c = true := by
  induction fuel with
  | zero => intro n ds h; simpa [Nat.toDigitsCore] using h
  | succ fuel ih =>
    intro n ds h
    have hd : isdigit (Nat.digitChar (n % 10)) = true :=
      isdigit_digitChar _ (Nat.mod_lt _ (by decide))
    have h' : ∀ c ∈ Nat.digitChar (n % 10) :: ds, isdigit c = true := by
      intro c hc
      rcases List.mem_cons.mp hc with rfl | hc
      · exact hd
      · exact h c hc
    simp only [Nat.toDigitsCore]
    split
    · exact h'
    · exact ih _ _ h'

theorem toDigitsCore_value (fuel : Nat) :
    ∀ (n : Nat) (ds : List Char), n < fuel →
      (Nat.toDigitsCore 10 fuel n ds).foldl (fun acc c => acc * 10 + (c.toNat - '0'.toNat)) 0
        = ds.foldl (fun acc c => acc * 10 + (c.toNat - '0'.toNat)) n := by
  induction fuel with
  | zero => intro n ds h; omega
  | succ fuel ih =>
    intro n ds h
    have hv := digitChar_value (n % 10) (Nat.mod_lt _ (by decide))
    simp only [Nat.toDigitsCore]
    split
    · rename_i h0
      have : n % 10 = n := by omega
      simp only [List.foldl_cons, hv]
      congr 1
      omega
    · rename_i h0
      rw [ih (n / 10) _ (by omega)]
      simp only [List.foldl_cons, hv]
      congr 1
      omega

theorem toDigitsCore_ne_nil (fuel n : Nat) (ds : List Char) :
    Nat.toDigitsCore 10 (fuel + 1) n ds ≠ [] := by
  induction fuel generalizing n ds with
  | zero => simp [Nat.toDigitsCore]
  | succ fuel ih =>
    rw [Nat.toDigitsCore]
    split
    · simp
    · exact ih _ _

/-- The decimal numeral of a natural number consists of digits only. -/
theorem repr_all_digits (n : Nat) : ∀ c ∈ (Nat.repr n).data, isdigit c = true := by
  simp only [Nat.repr, Nat.toDigits, List.asString]
  exact toDigitsCore_all_digits _ _ _ (by simp)

theorem repr_ne_nil (n : Nat) : (Nat.repr n).data ≠ [] := by
  simp only [Nat.repr, Nat.toDigits, List.asString]
  exact toDigitsCore_ne_nil _ _ _

theorem digitsValue_repr (n : Nat) : digitsValue (Nat.repr n).data = n := by
  simp only [Nat.repr, Nat.toDigits, List.asString, digitsValue]
  rw [toDigitsCore_value _ _ _ (by omega)]
  rfl


theorem isspace_not_digit (c : Char) (h : isdigit c = true) : isspace c = false := by
  cases hs : isspace c with
  | false => rfl
  | true =>
    exfalso
    simp only [isspace, Bool.or_eq_true, beq_iff_eq] at hs
    rcases hs with ((((rfl | rfl) | rfl) | rfl) | rfl) | rfl <;> revert h <;> decide

theorem isBlank_not_digit (c : Char) (h : isdigit c = true) : isBlank c = false := by
  cases hs : isBlank c with
  | false => rfl
  | true =>
    exfalso
    simp only [isBlank, Bool.or_eq_true, beq_iff_eq] at hs
    rcases hs with rfl | rfl <;> revert h <;> decide

theorem sign_not_digit (c : Char) (h : isdigit c = true) : (c == '-') = false ∧ (c == '+') = false := by
  constructor
  · cases hs : c == '-' with
    | false => rfl
    | true =>
      exfalso
      rw [beq_iff_eq] at hs
      subst hs
      revert h
      decide
  · cases hs : c == '+' with
    | false => rfl
    | true =>
      exfalso
      rw [beq_iff_eq] at hs
      subst hs
      revert h
      decide

theorem takeWhile_append_stop {α : Type} (p : α → Bool) (ds rest : List α)
    (hds : ∀ c ∈ ds, p c = true) (hrest : ∀ c, rest.head? = some c → p c = false) :
    (ds ++ rest).takeWhile p = ds := by
  induction ds with
  | nil =>
    cases rest with
    | nil => rfl
    | cons c rest => simp [List.takeWhile, hrest c rfl]
  | cons d ds ih =>
    have hd := hds d (by simp)
    rw [List.cons_append, List.takeWhile_cons, hd, if_pos rfl,
      ih (fun c hc => hds c (List.mem_cons_of_mem _ hc))]

/-- Reading an `int` from a text that starts with the decimal numeral of `n`
(followed by something that is not a digit) gives `n`, provided `n` fits. -/
theorem extractInt_numeral (n : Nat) (rest : List Char) (hn : (n : Int) ≤ INT_MAX)
    (hrest : ∀ c, rest.head? = some c → isdigit c = false) :
    extractInt (String.mk ((Nat.repr n).data ++ rest)) = ((n : Int), false) := by
  have hall := repr_all_digits n
  have hne := repr_ne_nil n
  have hval := digitsValue_repr n
  generalize (Nat.repr n).data = ds at hall hne hval
  cases ds with
  | nil => exact absurd rfl hne
  | cons d ds =>
    have hd : isdigit d = true := hall d (by simp)
    have hsp := isspace_not_digit d hd
    have hsg := sign_not_digit d hd
    have htw := takeWhile_append_stop isdigit (d :: ds) rest hall hrest
    simp only [List.cons_append] at htw
    simp only [INT_MAX, INT_MIN] at hn
    have h1 : ¬ ((n : Int) > 2147483647) := by omega
    have h2 : ¬ ((n : Int) < -2147483648) := by omega
    simp only [extractInt, List.cons_append, List.dropWhile_cons, hsp, hsg.1, hsg.2, htw, hval,
      INT_MAX, INT_MIN, List.isEmpty_cons, Bool.false_eq_true, if_false, h1, h2]

/-! ## The claims -/

theorem registerMessage_sent (w : World) (f m : Nat) :
    (registerMessage w f m).sent = w.sent := by
  unfold registerMessage
  split <;> rfl

/-- C1: on a folder whose store is connected, `getMessage(n)` on an open folder
with cached count `c` returns a new message object with number `n` when
`1 <= n <= c` and throws `message_not_found` when `n < 1` or `n > c`; on a
folder that is not open it throws `illegal_state`; in no case is a request
sent. -/
theorem getMessage_contract (w : World) (this : Nat) (fo : POP3Folder) (n : Int)
    (hfo : w.folders[this]? = some fo) (hst : fo.m_store = true) :
    (fo.m_open = true → 1 ≤ n → n ≤ fo.m_messageCount →
        (getMessage w this n).result = .ok w.messages.length ∧
        getMessageObject w w.messages.length = none ∧
        getMessageObject (getMessage w this n).world w.messages.length
          = some (initialMessage this n) ∧
        (initialMessage this n).m_num = n) ∧
    (fo.m_open = true → (n < 1 ∨ fo.m_messageCount < n) →
        getMessage w this n = ⟨.error .message_not_found, w⟩) ∧
    (fo.m_open = false →
        getMessage w this n = ⟨.error (.illegal_state "Folder not open"), w⟩) ∧
    (getMessage w this n).world.sent = w.sent := by
  refine ⟨?_, ?_, ?_, ?_⟩
  · intro ho h1 h2
    have hc : ¬ (n < 1 ∨ n > fo.m_messageCount) := by omega
    simp [getMessage, hfo, hst, ho, hc, newPOP3Message, registerMessage, getMessageObject,
      setFolder, initialMessage]
  · intro ho hc
    have hc' : (n < 1 ∨ n > fo.m_messageCount) := by omega
    simp [getMessage, hfo, hst, ho, hc']
  · intro ho
    simp [getMessage, hfo, hst, ho]
  · unfold getMessage
    simp only [hfo, hst]
    split_ifs <;> simp [newPOP3Message, registerMessage_sent]

/-- In the example session message 3 is handed out, message 5 does not exist,
and nothing is sent. -/
theorem getMessage_contract_witness :
    (getMessage exampleWorld 0 3).result = .ok 0 ∧
    getMessage exampleWorld 0 5 = ⟨.error .message_not_found, exampleWorld⟩ ∧
    (getMessage exampleWorld 0 3).world.sent = exampleWorld.sent :=
  ⟨((getMessage_contract exampleWorld 0 exampleFolder 3 (by decide) (by decide)).1
      (by decide) (by decide) (by decide)).1,
   (getMessage_contract exampleWorld 0 exampleFolder 5 (by decide) (by decide)).2.1
      (by decide) (by decide),
   (getMessage_contract exampleWorld 0 exampleFolder 3 (by decide) (by decide)).2.2.2⟩

/-- C2: on an open, connected folder with cached count `c`, `getMessages(nums)`
either succeeds, when every element lies in `1..c`, with one new message
object per element, the i-th having number `nums[i]` and being registered
with the folder, or throws `message_not_found`, when some element lies
outside `1..c`, and then every folder (its map of messages included) is
exactly as before the call and every object created by the call has been
destroyed. -/
theorem getMessages_all_or_nothing (w : World) (this : Nat) (fo : POP3Folder) (nums : List Int)
    (hfo : w.folders[this]? = some fo) (hst : fo.m_store = true) (ho : fo.m_open = true)
    (hreg : ∀ e ∈ fo.m_messages, e.1 < w.messages.length) :
    ((∀ n ∈ nums, 1 ≤ n ∧ n ≤ fo.m_messageCount) →
      ∃ v : List Nat, (getMessages w this nums).result = .ok v ∧ v.length = nums.length ∧
        ∀ (i : Nat) (n : Int), nums[i]? = some n → ∃ (h : Nat) (fo' : POP3Folder),
          v[i]? = some h ∧
          getMessageObject w h = none ∧
          getMessageObject (getMessages w this nums).world h = some (initialMessage this n) ∧
          (getMessages w this nums).world.folders[this]? = some fo' ∧
          map.find fo'.m_messages h = some n) ∧
    ((∃ n ∈ nums, n < 1 ∨ fo.m_messageCount < n) →
      (getMessages w this nums).result = .error .message_not_found ∧
      (getMessages w this nums).world.folders = w.folders ∧
      (∀ h, getMessageObject (getMessages w this nums).world h
          = if h < w.messages.length then getMessageObject w h else none) ∧
      (getMessages w this nums).world.sent = w.sent) := by
  constructor
  · intro hval
    have hloop := getMessagesLoop_append this nums [] w fo [] hfo hreg hval
    simp only [List.append_nil, List.nil_append, getMessagesLoop] at hloop
    refine ⟨List.range' w.messages.length nums.length, ?_, by simp, ?_⟩
    · simp [getMessages, hfo, hst, ho, hloop]
    · intro i n hi
      have hlt : i < nums.length := (List.getElem?_eq_some_iff.mp hi).1
      have hw : (getMessages w this nums).world = allocated w this fo nums := by
        simp [getMessages, hfo, hst, ho, hloop]
      refine ⟨w.messages.length + i, { fo with m_messages :=
          fo.m_messages ++ (List.range' w.messages.length nums.length).zip nums },
          ?_, ?_, ?_, ?_, ?_⟩
      · simp [List.getElem?_range', hlt]
      · have : w.messages[w.messages.length + i]? = none :=
          List.getElem?_eq_none (by omega)
        simp [getMessageObject, this]
      · rw [hw]
        simp [getMessageObject, allocated, List.getElem?_append_right, hi]
      · rw [hw]
        exact allocated_folder w this fo nums hfo
      · simp only
        rw [map.find_append_absent _ _ _ (fun e he => by have := hreg e he; omega),
          map.find_zip_range, hi]
  · intro hbad
    have hbad' : ∃ n ∈ nums, ¬ (1 ≤ n ∧ n ≤ fo.m_messageCount) := by
      obtain ⟨n, hn, h⟩ := hbad
      exact ⟨n, hn, by omega⟩
    obtain ⟨pre, bad, post, hnums, hpre, hb⟩ := exists_first_failing _ nums hbad'
    have hc : (bad < 1 ∨ bad > fo.m_messageCount) := by omega
    have hloop := getMessagesLoop_append this pre (bad :: post) w fo [] hfo hreg hpre
    have hfo1 := allocated_folder w this fo pre hfo
    simp only [List.nil_append, getMessagesLoop, hfo1, hc, if_true] at hloop
    have hdel := deleteAll_allocated this pre w.messages fo.m_messages
      (allocated w this fo pre) _ hfo1 rfl hreg rfl
    have hw : (getMessages w this nums).world
        = { w with messages := w.messages ++ List.replicate pre.length none } := by
      rw [getMessages_eq_loop w this fo nums hfo hst ho, hnums, hloop]
      simp only [hdel]
      simp only [allocated, List.set_set, World.mk.injEq, List.append_cancel_left_eq,
        and_true, true_and]
      exact set_of_getElem? _ _ _ hfo
    refine ⟨?_, ?_, ?_, ?_⟩
    · simp [getMessages, hfo, hst, ho, hnums, hloop]
    · rw [hw]
    · intro h
      rw [hw]
      simp only [getMessageObject]
      by_cases hlt : h < w.messages.length
      · simp [hlt, List.getElem?_append_left]
      · simp only [hlt, if_false]
        rw [List.getElem?_append_right (by omega)]
        by_cases h2 : h - w.messages.length < pre.length
        · simp [List.getElem?_replicate, h2]
        · simp [List.getElem?_replicate, h2]
    · rw [hw]

/-- In the example session `[1, 2, 4]` yields three objects and `[1, 2, 5]`
fails, leaving the folder as it was. -/
theorem getMessages_all_or_nothing_witness :
    (∃ v : List Nat, (getMessages exampleWorld 0 [1, 2, 4]).result = .ok v ∧ v.length = 3) ∧
    (getMessages exampleWorld 0 [1, 2, 5]).result = .error .message_not_found ∧
    (getMessages exampleWorld 0 [1, 2, 5]).world.folders = exampleWorld.folders :=
  ⟨(((getMessages_all_or_nothing exampleWorld 0 exampleFolder [1, 2, 4]
        (by decide) (by decide) (by decide) (by decide)).1 (by decide)).imp
      (fun _ h => ⟨h.1, h.2.1⟩)),
   ((getMessages_all_or_nothing exampleWorld 0 exampleFolder [1, 2, 5]
        (by decide) (by decide) (by decide) (by decide)).2 (by decide)).1,
   ((getMessages_all_or_nothing exampleWorld 0 exampleFolder [1, 2, 5]
        (by decide) (by decide) (by decide) (by decide)).2 (by decide)).2.1⟩

theorem isINBOX_iff (p : path) : isINBOX p = true ↔ p = [⟨"INBOX"⟩] := by
  cases p with
  | nil => simp [isINBOX]
  | cons c rest =>
    cases rest with
    | nil =>
      obtain ⟨b⟩ := c
      simp [isINBOX]
    | cons d rest => simp [isINBOX]

theorem getElem?_lt {α : Type} {l : List α} {i : Nat} {a : α} (h : l[i]? = some a) :
    i < l.length := (List.getElem?_eq_some_iff.mp h).1

/-- C3: for a connected folder whose path is exactly `["INBOX"]`, `open` sends
exactly one request, `STAT`; when the reply is positive and the text after the
status marker starts with the decimal numeral of `n`, the folder becomes open
with the given mode and cached count `n`; when the reply is negative it throws
`command_error` naming `STAT` and carrying the raw reply; when the reply is
positive but no integer can be read it throws `invalid_response`; in both
failure cases the open flag and the mode are as before. -/
theorem open_inbox (w : World) (this : Nat) (fo : POP3Folder) (mode : Int)
    (failIfModeIsNotAvailable : Bool) (reply : String) (rest : List String)
    (hfo : w.folders[this]? = some fo) (hst : fo.m_store = true)
    (hpath : fo.m_path = [⟨"INBOX"⟩]) (hpend : w.pending = reply :: rest) :
    (open_ w this mode failIfModeIsNotAvailable).world.sent = w.sent ++ ["STAT"] ∧
    (∀ (n : Nat) (tail : List Char),
        reply = String.mk (['+', 'O', 'K', ' '] ++ (Nat.repr n).data ++ tail) →
        (n : Int) ≤ INT_MAX → (∀ c, tail.head? = some c → isdigit c = false) →
        (open_ w this mode failIfModeIsNotAvailable).result = .ok () ∧
        (open_ w this mode failIfModeIsNotAvailable).world.folders[this]?
          = some { fo with m_open := true, m_mode := mode, m_messageCount := n }) ∧
    (∀ n : Int, isSuccessResponse reply = true →
        extractInt (stripResponseCode reply) = (n, false) →
        (open_ w this mode failIfModeIsNotAvailable).result = .ok () ∧
        (open_ w this mode failIfModeIsNotAvailable).world.folders[this]?
          = some { fo with m_open := true, m_mode := mode, m_messageCount := n }) ∧
    (isSuccessResponse reply = false →
        (open_ w this mode failIfModeIsNotAvailable).result
          = .error (.command_error "STAT" reply) ∧
        (open_ w this mode failIfModeIsNotAvailable).world.folders = w.folders) ∧
    (isSuccessResponse reply = true → (extractInt (stripResponseCode reply)).2 = true →
        (open_ w this mode failIfModeIsNotAvailable).result
          = .error (.invalid_response "STAT" (stripResponseCode reply)) ∧
        ∃ fo', (open_ w this mode failIfModeIsNotAvailable).world.folders[this]? = some fo' ∧
          fo'.m_open = fo.m_open ∧ fo'.m_mode = fo.m_mode) := by
  have hlt := getElem?_lt hfo
  have hin : isINBOX fo.m_path = true := (isINBOX_iff _).2 hpath
  have hemp : fo.m_path.isEmpty = false := by rw [hpath]; rfl
  have hgen : ∀ n : Int, isSuccessResponse reply = true →
      extractInt (stripResponseCode reply) = (n, false) →
      (open_ w this mode failIfModeIsNotAvailable).result = .ok () ∧
      (open_ w this mode failIfModeIsNotAvailable).world.folders[this]?
        = some { fo with m_open := true, m_mode := mode, m_messageCount := n } := by
    intro n hok hex
    simp [open_, hfo, hst, hemp, hin, readResponse, sendRequest, hpend, hok, hex, setFolder,
      List.getElem?_set, hlt]
  refine ⟨?_, ?_, hgen, ?_, ?_⟩
  · unfold open_
    simp only [hfo, hst, hemp, hin, readResponse, sendRequest, hpend]
    simp only [Bool.not_true, Bool.false_eq_true, if_false, if_true]
    split_ifs <;> simp [setFolder]
  · intro n tail hreply hn htail
    apply hgen
    · rw [hreply]; rfl
    · have : stripResponseCode reply = String.mk ((Nat.repr n).data ++ tail) := by
        rw [hreply]; rfl
      rw [this]
      exact extractInt_numeral n tail hn htail
  · intro hbad
    simp [open_, hfo, hst, hemp, hin, readResponse, sendRequest, hpend, hbad]
  · intro hok hfail
    refine ⟨?_, { fo with m_messageCount := (extractInt (stripResponseCode reply)).1 }, ?_, rfl, rfl⟩
    · simp [open_, hfo, hst, hemp, hin, readResponse, sendRequest, hpend, hok, hfail]
    · simp [open_, hfo, hst, hemp, hin, readResponse, sendRequest, hpend, hok, hfail, setFolder,
        List.getElem?_set, hlt]

/-- With reply `+OK 4` the example INBOX opens with count 4; `-ERR no mailbox`
gives a command error; `+OK abc` gives an invalid-response error. -/
theorem open_inbox_witness :
    ((open_ (exampleClosedWorld ["+OK 4"]) 0 MODE_READ_ONLY false).result = .ok () ∧
      (open_ (exampleClosedWorld ["+OK 4"]) 0 MODE_READ_ONLY false).world.folders[0]?
        = some { exampleClosedFolder with
                  m_open := true, m_mode := MODE_READ_ONLY, m_messageCount := 4 }) ∧
    (open_ (exampleClosedWorld ["-ERR no mailbox"]) 0 MODE_READ_ONLY false).result
      = .error (.command_error "STAT" "-ERR no mailbox") ∧
    (open_ (exampleClosedWorld ["+OK abc"]) 0 MODE_READ_ONLY false).result
      = .error (.invalid_response "STAT" "abc") :=
  ⟨(open_inbox (exampleClosedWorld ["+OK 4"]) 0 exampleClosedFolder MODE_READ_ONLY false
      "+OK 4" [] (by decide) (by decide) (by decide) (by decide)).2.1 4 [] (by decide)
      (by decide) (by simp),
   ((open_inbox (exampleClosedWorld ["-ERR no mailbox"]) 0 exampleClosedFolder MODE_READ_ONLY
      false "-ERR no mailbox" [] (by decide) (by decide) (by decide) (by decide)).2.2.2.1
      (by decide)).1,
   ((open_inbox (exampleClosedWorld ["+OK abc"]) 0 exampleClosedFolder MODE_READ_ONLY
      false "+OK abc" [] (by decide) (by decide) (by decide) (by decide)).2.2.2.2
      (by decide) (by decide)).1⟩

/-- C4: for a connected folder whose path is neither empty nor the single
component `INBOX` (compared exactly), `open` throws `folder_not_found` for
every mode and flag, sends no request and changes nothing, so a closed folder
stays closed. -/
theorem open_unknown_path (w : World) (this : Nat) (fo : POP3Folder) (mode : Int)
    (failIfModeIsNotAvailable : Bool)
    (hfo : w.folders[this]? = some fo) (hst : fo.m_store = true)
    (hroot : fo.m_path ≠ []) (hinbox : fo.m_path ≠ [⟨"INBOX"⟩]) :
    open_ w this mode failIfModeIsNotAvailable = ⟨.error .folder_not_found, w⟩ ∧
    (open_ w this mode failIfModeIsNotAvailable).world.sent = w.sent ∧
    (open_ w this mode failIfModeIsNotAvailable).world.folders[this]? = some fo ∧
    (fo.m_open = false →
      ∀ fo', (open_ w this mode failIfModeIsNotAvailable).world.folders[this]? = some fo' →
        fo'.m_open = false) := by
  have hin : isINBOX fo.m_path = false := by
    cases h : isINBOX fo.m_path with
    | false => rfl
    | true => exact absurd ((isINBOX_iff _).1 h) hinbox
  have hemp : fo.m_path.isEmpty = false := by
    cases h : fo.m_path with
    | nil => exact absurd h hroot
    | cons c r => rfl
  have heq : open_ w this mode failIfModeIsNotAvailable = ⟨.error .folder_not_found, w⟩ := by
    simp [open_, hfo, hst, hemp, hin]
  refine ⟨heq, by rw [heq], by rw [heq]; exact hfo, ?_⟩
  intro hclosed fo' hfo'
  rw [heq] at hfo'
  simp only at hfo'
  rw [hfo] at hfo'
  cases hfo'
  exact hclosed

/-- Folders with paths `inbox` and `INBOX/x` cannot be opened. -/
theorem open_unknown_path_witness :
    (open_ { exampleClosedWorld [] with
              folders := [{ exampleClosedFolder with m_path := [⟨"inbox"⟩] }] }
        0 MODE_READ_ONLY false).result = .error .folder_not_found ∧
    (open_ { exampleClosedWorld [] with
              folders := [{ exampleClosedFolder with m_path := [⟨"INBOX"⟩, ⟨"x"⟩] }] }
        0 MODE_READ_WRITE true).result = .error .folder_not_found :=
  ⟨congrArg Outcome.result
      (open_unknown_path _ 0 { exampleClosedFolder with m_path := [⟨"inbox"⟩] }
        MODE_READ_ONLY false (by decide) (by decide) (by decide) (by decide)).1,
   congrArg Outcome.result
      (open_unknown_path _ 0 { exampleClosedFolder with m_path := [⟨"INBOX"⟩, ⟨"x"⟩] }
        MODE_READ_WRITE true (by decide) (by decide) (by decide) (by decide)).1⟩
theorem statusFill_size (count : Int) (fuel : Nat) :
    ∀ (i : Int) (j : Nat) (nums : vector), (statusFill count fuel i j nums).size = nums.size := by
  induction fuel with
  | zero => intro i j nums; rfl
  | succ fuel ih =>
    intro i j nums
    simp only [statusFill]
    split
    · rw [ih]; rfl
    · rfl

/-- C5: the vector `nums` that `status` hands to the "added" event is built by
`reserve` followed by assignments through `operator[]`, so its size stays 0:
for every old and new count the event carries no message number at all, and
for growth from 4 to 6 in the example session the event delivered carries
the empty list, not `[5, 6]`. -/
theorem status_event_numbers_empty :
    (∀ oldCount count : Int, (statusNums oldCount count).toList = []) ∧
    (statusNums 4 6).toList ≠ [5, 6] ∧
    ((status { exampleWorld with pending := ["+OK 6 320"] } 0).world.folders[0]?).map
        POP3Folder.m_events = some [⟨0, TYPE_ADDED, []⟩] := by
  refine ⟨?_, by decide, by decide⟩
  intro oldCount count
  have hsize : (statusNums oldCount count).size = 0 := by
    unfold statusNums
    rw [statusFill_size]
    unfold vector.reserve vector.empty
    split <;> rfl
  simp [vector.toList, hsize]
theorem statusNotify_folder (p : path) (count : Int) (event : messageCountEvent)
    (l : List Nat) (hnd : l.Nodup) :
    ∀ (W : World) (g : Nat) (fg : POP3Folder), W.folders[g]? = some fg →
      (statusNotify p count event l W).folders[g]? =
        some (if g ∈ l ∧ fg.m_path = p then
                { fg with m_messageCount := count, m_events := fg.m_events ++ [event] }
              else fg) := by
  induction l with
  | nil => intro W g fg h; simpa [statusNotify] using h
  | cons it rest ih =>
    intro W g fg h
    have hnot : it ∉ rest := (List.nodup_cons.mp hnd).1
    have hrest : rest.Nodup := (List.nodup_cons.mp hnd).2
    rw [statusNotify]
    cases hit : W.folders[it]? with
    | none =>
      have hne : g ≠ it := by
        intro e
        subst e
        rw [h] at hit
        cases hit
      simp only [ih hrest W g fg h, List.mem_cons, hne, false_or]
    | some fit =>
      simp only
      by_cases hp : fit.m_path = p
      · rw [if_pos hp]
        by_cases hg : g = it
        · subst hg
          rw [h] at hit
          cases hit
          have hlt := getElem?_lt h
          rw [ih hrest _ g { fg with m_messageCount := count, m_events := fg.m_events ++ [event] }
            (by simp [setFolder, List.getElem?_set, hlt])]
          simp [hnot, hp]
        · have hW : (setFolder W it
              { fit with m_messageCount := count, m_events := fit.m_events ++ [event] }).folders[g]?
              = some fg := by
            simp only [setFolder]
            rw [List.getElem?_set_ne (Ne.symm hg)]
            exact h
          rw [ih hrest _ g fg hW]
          simp [hg]
      · rw [if_neg hp]
        by_cases hg : g = it
        · subst hg
          rw [h] at hit
          cases hit
          rw [ih hrest W g fg h]
          simp [hnot, hp]
        · rw [ih hrest W g fg h]
          simp [hg]

/-- C6: when `status` observes growth, every folder registered with the store
whose full path equals the path of this folder (this folder included) has its
cached count set to the new count and receives the event exactly once, and
every registered folder with a different path is left as it was. -/
theorem status_growth_delivery (w : World) (this : Nat) (fo : POP3Folder)
    (reply : String) (rest : List String)
    (hfo : w.folders[this]? = some fo) (hst : fo.m_store = true) (ho : fo.m_open = true)
    (hpend : w.pending = reply :: rest) (hok : isSuccessResponse reply = true)
    (hgrow : (extractInt (stripResponseCode reply)).1 > fo.m_messageCount)
    (hnodup : w.m_folders.Nodup) :
    ∀ (g : Nat) (fg : POP3Folder), g ∈ w.m_folders → w.folders[g]? = some fg →
      (fg.m_path = fo.m_path →
        (status w this).world.folders[g]? = some
          { fg with
            m_messageCount := (extractInt (stripResponseCode reply)).1,
            m_events := fg.m_events ++
              [⟨this, TYPE_ADDED,
                (statusNums fo.m_messageCount (extractInt (stripResponseCode reply)).1).toList⟩] }) ∧
      (fg.m_path ≠ fo.m_path → (status w this).world.folders[g]? = some fg) := by
  intro g fg hg hfg
  have hlt := getElem?_lt hfo
  have hne : fo.m_messageCount ≠ (extractInt (stripResponseCode reply)).1 := by omega
  have hw : (status w this).world =
      statusNotify fo.m_path (extractInt (stripResponseCode reply)).1
        ⟨this, TYPE_ADDED,
          (statusNums fo.m_messageCount (extractInt (stripResponseCode reply)).1).toList⟩
        w.m_folders
        (setFolder { w with sent := w.sent ++ ["STAT"], pending := rest } this
          { fo with m_messageCount := (extractInt (stripResponseCode reply)).1 }) := by
    unfold status
    simp only [hfo, readResponse, sendRequest, hpend]
    rw [if_neg (by simp [hst]), if_neg (by simp [ho]), if_neg (by simp [hok]), if_pos hne,
      if_pos hgrow]
    rfl
  rw [hw]
  by_cases hgt : g = this
  · subst hgt
    rw [hfo] at hfg
    cases hfg
    rw [statusNotify_folder _ _ _ _ hnodup _ g
      { fo with m_messageCount := (extractInt (stripResponseCode reply)).1 }
      (by simp [setFolder, List.getElem?_set, hlt])]
    simp [hg]
  · have hW : (setFolder { w with sent := w.sent ++ ["STAT"], pending := rest } this
        { fo with m_messageCount := (extractInt (stripResponseCode reply)).1 }).folders[g]?
        = some fg := by
      simp only [setFolder]
      rw [List.getElem?_set_ne (Ne.symm hgt)]
      exact hfg
    rw [statusNotify_folder _ _ _ _ hnodup _ g fg hW]
    constructor
    · intro hp
      simp [hg, hp]
    · intro hp
      simp [hp]

/-- In the example session with two folder objects for the INBOX and one for
the root, `status` on the first gives both INBOX objects the count 6 and one
event each, and leaves the root object alone. -/
theorem status_growth_delivery_witness :
    ((status exampleAliasWorld 0).world.folders[0]?).map
        (fun f => (f.m_messageCount, f.m_events.length)) = some (6, 1) ∧
    ((status exampleAliasWorld 0).world.folders[1]?).map
        (fun f => (f.m_messageCount, f.m_events.length)) = some (6, 1) ∧
    (status exampleAliasWorld 0).world.folders[2]? = some exampleRootFolder :=
  ⟨congrArg (Option.map fun f => (f.m_messageCount, f.m_events.length))
      ((status_growth_delivery exampleAliasWorld 0 exampleFolder "+OK 6 320" []
        (by decide) (by decide) (by decide) (by decide) (by decide) (by decide) (by decide)
        0 exampleFolder (by decide) (by decide)).1 (by decide)),
   congrArg (Option.map fun f => (f.m_messageCount, f.m_events.length))
      ((status_growth_delivery exampleAliasWorld 0 exampleFolder "+OK 6 320" []
        (by decide) (by decide) (by decide) (by decide) (by decide) (by decide) (by decide)
        1 { exampleFolder with m_messageCount := 3 } (by decide) (by decide)).1 (by decide)),
   (status_growth_delivery exampleAliasWorld 0 exampleFolder "+OK 6 320" []
        (by decide) (by decide) (by decide) (by decide) (by decide) (by decide) (by decide)
        2 exampleRootFolder (by decide) (by decide)).2 (by decide)⟩
theorem getlines_line (line : List Char) :
    ∀ (rest cur : List Char), '\n' ∉ line →
      getlines (line ++ '\n' :: rest) cur = (cur ++ line) :: getlines rest [] := by
  induction line with
  | nil => intro rest cur _; simp [getlines]
  | cons c line ih =>
    intro rest cur h
    have hc : (c == '\n') = false := by
      cases hcc : c == '\n' with
      | false => rfl
      | true =>
        rw [beq_iff_eq] at hcc
        subst hcc
        simp at h
    have hl : '\n' ∉ line := fun hm => h (List.mem_cons_of_mem _ hm)
    rw [List.cons_append, getlines]
    simp only [hc, Bool.false_eq_true, if_false]
    rw [ih rest (cur ++ [c]) hl]
    simp

theorem newline_not_digit : isdigit '\n' = false := by decide

theorem validUid_spec (uid : String) (h : validUid uid = true) :
    ∃ c cs, uid.data = c :: cs ∧ isBlank c = false ∧ '\n' ∉ uid.data := by
  unfold validUid at h
  cases hd : uid.data with
  | nil => simp [hd] at h
  | cons c cs =>
    simp only [hd, Bool.and_eq_true, Bool.not_eq_true'] at h
    refine ⟨c, cs, rfl, h.1, ?_⟩
    intro hm
    have : (c :: cs).contains '\n' = true := by
      simpa using hm
    rw [this] at h
    exact absurd h.2 (by decide)

/-- The listing line of an entry. -/
theorem uidl_line_no_newline (n : Nat) (uid : String) (h : validUid uid = true) :
    '\n' ∉ (Nat.repr n).data ++ ' ' :: uid.data := by
  obtain ⟨c, cs, _, _, hnl⟩ := validUid_spec uid h
  intro hm
  rcases List.mem_append.mp hm with h1 | h1
  · have := repr_all_digits n _ h1
    rw [newline_not_digit] at this
    cases this
  · rcases List.mem_cons.mp h1 with h2 | h2
    · exact absurd h2 (by decide)
    · exact hnl h2

theorem getlines_uidlBody (listing : List (Nat × String))
    (hv : ∀ e ∈ listing, validUid e.2 = true) :
    getlines (uidlBody listing) [] =
      listing.map (fun e => (Nat.repr e.1).data ++ ' ' :: e.2.data) ++ [['.']] := by
  induction listing with
  | nil => rfl
  | cons e rest ih =>
    have h1 := uidl_line_no_newline e.1 e.2 (hv e (by simp))
    have : uidlBody (e :: rest)
        = ((Nat.repr e.1).data ++ ' ' :: e.2.data) ++ '\n' :: uidlBody rest := by
      simp [uidlBody]
    rw [this, getlines_line _ _ _ h1, ih (fun x hx => hv x (by simp [hx]))]
    simp

theorem wrapInt_of_fits (x : Int) (h0 : 0 ≤ x) (h1 : x ≤ INT_MAX) : wrapInt x = x := by
  unfold wrapInt
  unfold INT_MAX at h1
  omega

theorem uidlNumber_digits (ds rest : List Char) (hrest : ∀ c, rest.head? = some c → isdigit c = false) :
    ∀ (acc : Int), (∀ c ∈ ds, isdigit c = true) →
      uidlNumber (ds ++ rest) acc =
        (ds.foldl (fun a c => wrapInt (a * 10 + ((c.toNat - '0'.toNat : Nat) : Int))) acc, rest) := by
  induction ds with
  | nil =>
    intro acc _
    cases rest with
    | nil => rfl
    | cons c r => simp [uidlNumber, hrest c rfl]
  | cons d ds ih =>
    intro acc h
    have hd := h d (by simp)
    rw [List.cons_append, uidlNumber]
    simp only [hd, if_true, List.foldl_cons]
    exact ih _ (fun c hc => h c (List.mem_cons_of_mem _ hc))

theorem digitsValue_snoc (ds : List Char) (c : Char) :
    digitsValue (ds ++ [c]) = digitsValue ds * 10 + (c.toNat - '0'.toNat) := by
  unfold digitsValue
  rw [List.foldl_append]
  rfl

theorem wrapped_value (ds : List Char) :
    (digitsValue ds : Int) ≤ INT_MAX →
      ds.foldl (fun a c => wrapInt (a * 10 + ((c.toNat - '0'.toNat : Nat) : Int))) 0
        = (digitsValue ds : Int) := by
  induction ds using List.reverseRecOn with
  | nil => intro _; rfl
  | append_singleton ds c ih =>
    intro h
    rw [digitsValue_snoc] at h ⊢
    rw [List.foldl_append]
    simp only [List.foldl_cons, List.foldl_nil]
    generalize c.toNat - '0'.toNat = d at h ⊢
    generalize hv : digitsValue ds = v at h ih ⊢
    have hle : (v : Int) ≤ INT_MAX := by
      unfold INT_MAX at h ⊢
      omega
    rw [ih hle]
    have h0 : (0 : Int) ≤ (v : Int) * 10 + (d : Int) := by omega
    have h1 : (v : Int) * 10 + (d : Int) ≤ INT_MAX := by
      unfold INT_MAX at h ⊢
      omega
    rw [wrapInt_of_fits _ h0 h1]
    push_cast
    rfl

theorem uidlNumber_numeral (n : Nat) (rest : List Char) (hn : (n : Int) ≤ INT_MAX)
    (hrest : ∀ c, rest.head? = some c → isdigit c = false) :
    uidlNumber ((Nat.repr n).data ++ rest) 0 = ((n : Int), rest) := by
  rw [uidlNumber_digits _ _ hrest 0 (repr_all_digits n), wrapped_value _ (by rw [digitsValue_repr]; exact hn),
    digitsValue_repr]
theorem uidlLine_entry (n : Nat) (uid : String) (hn : (n : Int) ≤ INT_MAX)
    (hv : validUid uid = true) :
    uidlLine ((Nat.repr n).data ++ ' ' :: uid.data) = some ((n : Int), uid) := by
  obtain ⟨c, cs, hdata, hblank, _⟩ := validUid_spec uid hv
  have hall := repr_all_digits n
  have hne := repr_ne_nil n
  have hnum := uidlNumber_numeral n (' ' :: uid.data) hn (by
    intro c hc
    simp only [List.head?_cons, Option.some.injEq] at hc
    subst hc
    decide)
  generalize (Nat.repr n).data = ds at hall hne hnum
  cases ds with
  | nil => exact absurd rfl hne
  | cons d ds =>
    have hd : isBlank d = false := isBlank_not_digit d (hall d (by simp))
    have hsp : isBlank ' ' = true := by decide
    unfold uidlLine
    simp only [List.cons_append, List.dropWhile_cons, hd, Bool.false_eq_true, if_false,
      List.isEmpty_cons]
    simp only [List.cons_append, hdata] at hnum
    simp only [hdata, hnum, List.dropWhile_cons, hsp, Bool.not_true, Bool.false_eq_true,
      if_false, if_true, hblank, List.isEmpty_cons]
    congr 2
    cases uid
    simp only at hdata
    rw [hdata]

theorem uidlLine_terminator : uidlLine ['.'] = none := by decide

theorem filterMap_uidlBody_lines (listing : List (Nat × String))
    (hv : ∀ e ∈ listing, (e.1 : Int) ≤ INT_MAX ∧ validUid e.2 = true) :
    (listing.map (fun e => (Nat.repr e.1).data ++ ' ' :: e.2.data) ++ [['.']]).filterMap uidlLine
      = listing.map (fun e => ((e.1 : Int), e.2)) := by
  induction listing with
  | nil => simp [uidlLine_terminator]
  | cons e rest ih =>
    have he := hv e (by simp)
    have := ih (fun x hx => hv x (by simp [hx]))
    simp only [List.map_cons, List.cons_append, List.filterMap_cons,
      uidlLine_entry e.1 e.2 he.1 he.2, this]

theorem map.find_append {κ ν : Type} [DecidableEq κ] (m m' : List (κ × ν)) (k : κ) :
    map.find (m ++ m') k = (map.find m k).orElse (fun _ => map.find m' k) := by
  induction m with
  | nil => rfl
  | cons e rest ih =>
    obtain ⟨k', v⟩ := e
    by_cases hk : k' = k
    · simp [map.find, hk]
    · simp only [List.cons_append, map.find, hk, if_false]
      exact ih

theorem map.find_insert {κ ν : Type} [DecidableEq κ] (m : List (κ × ν)) (a : κ) (v : ν) (k : κ) :
    map.find (map.insert m a v) k = map.find (m ++ [(a, v)]) k := by
  unfold map.insert
  cases h : map.find m a with
  | none => rfl
  | some x =>
    simp only
    rw [map.find_append]
    by_cases hk : a = k
    · subst hk
      simp [h]
    · cases h2 : map.find m k with
      | none => simp [map.find, hk]
      | some y => simp

theorem find_uidlIds (lines : List (List Char)) :
    ∀ (acc : List (Int × String)) (k : Int),
      map.find (uidlIds lines acc) k = map.find (acc ++ lines.filterMap uidlLine) k := by
  induction lines with
  | nil => intro acc k; simp [uidlIds]
  | cons line rest ih =>
    intro acc k
    rw [uidlIds]
    cases h : uidlLine line with
    | none => simp only [List.filterMap_cons, h]; exact ih acc k
    | some e =>
      simp only [List.filterMap_cons, h]
      rw [ih, map.find_append, map.find_insert, map.find_append, map.find_append]
      cases h2 : map.find acc k with
      | some y => simp
      | none =>
        simp only [Option.orElse]
        by_cases hk : e.1 = k
        · simp [map.find, hk]
        · simp [map.find, hk]

theorem map.find_of_mem {κ ν : Type} [DecidableEq κ] (m : List (κ × ν)) (k : κ) (v : ν)
    (hnd : (m.map Prod.fst).Nodup) (h : (k, v) ∈ m) : map.find m k = some v := by
  induction m with
  | nil => simp at h
  | cons e rest ih =>
    obtain ⟨k', v'⟩ := e
    simp only [List.map_cons, List.nodup_cons] at hnd
    rcases List.mem_cons.mp h with heq | hmem
    · cases heq
      simp [map.find]
    · have hne : k' ≠ k := by
        intro e
        subst e
        exact hnd.1 (List.mem_map.mpr ⟨(k', v), hmem, rfl⟩)
      simp only [map.find, hne, if_false]
      exact ih hnd.2 hmem

theorem map.mem_of_find {κ ν : Type} [DecidableEq κ] (m : List (κ × ν)) (k : κ) (v : ν)
    (h : map.find m k = some v) : (k, v) ∈ m := by
  induction m with
  | nil => simp [map.find] at h
  | cons e rest ih =>
    obtain ⟨k', v'⟩ := e
    by_cases hk : k' = k
    · subst hk
      simp [map.find] at h
      simp [h]
    · simp only [map.find, hk, if_false] at h
      exact List.mem_cons_of_mem _ (ih h)

theorem map.find_perm {κ ν : Type} [DecidableEq κ] (m m' : List (κ × ν)) (k : κ)
    (hnd : (m.map Prod.fst).Nodup) (hp : m'.Perm m) : map.find m' k = map.find m k := by
  have hnd' : (m'.map Prod.fst).Nodup := (hp.map Prod.fst).nodup_iff.mpr hnd
  cases h : map.find m k with
  | some v =>
    exact map.find_of_mem m' k v hnd' (hp.mem_iff.mpr (map.mem_of_find m k v h))
  | none =>
    cases h' : map.find m' k with
    | none => rfl
    | some v =>
      have := map.find_of_mem m k v hnd (hp.mem_iff.mp (map.mem_of_find m' k v h'))
      rw [h] at this
      cases this
theorem getMessageObject_setMessage (W : World) (it : Nat) (m : POP3Message)
    (x : Option POP3Message) (hit : getMessageObject W it = some m) (h : Nat) :
    getMessageObject (setMessage W it x) h = if h = it then x else getMessageObject W h := by
  have hlt : it < W.messages.length := by
    unfold getMessageObject at hit
    cases hm : W.messages[it]? with
    | none => rw [hm] at hit; cases hit
    | some y => exact getElem?_lt hm
  unfold getMessageObject setMessage
  by_cases hh : h = it
  · subst hh
    simp [List.getElem?_set, hlt]
  · simp only [hh, if_false]
    rw [List.getElem?_set_ne (Ne.symm hh)]

theorem withUid_idem (ids : List (Int × String)) (m : POP3Message) :
    withUid ids (withUid ids m) = withUid ids m := by
  unfold withUid
  cases h : map.find ids m.m_num with
  | none => simp [h]
  | some u => simp [h]

theorem assignUids_object (ids : List (Int × String)) (msg : List Nat) :
    ∀ (W : World) (h : Nat),
      getMessageObject (assignUids ids msg W) h =
        if h ∈ msg then (getMessageObject W h).map (withUid ids) else getMessageObject W h := by
  induction msg with
  | nil => intro W h; simp [assignUids]
  | cons it rest ih =>
    intro W h
    rw [assignUids]
    cases hit : getMessageObject W it with
    | none =>
      simp only
      rw [ih]
      by_cases hh : h = it
      · subst hh
        simp [hit]
      · simp [hh]
    | some m =>
      simp only
      cases hf : map.find ids m.m_num with
      | none =>
        simp only
        rw [ih]
        have hw : withUid ids m = m := by simp [withUid, hf]
        by_cases hh : h = it
        · subst hh
          simp [hit, hw]
        · simp [hh]
      | some u =>
        simp only
        rw [ih, getMessageObject_setMessage W it m _ hit]
        have hw : withUid ids m = { m with m_uid := u } := by simp [withUid, hf]
        have hw2 : withUid ids { m with m_uid := u } = { m with m_uid := u } := by
          rw [← hw, withUid_idem]
        by_cases hh : h = it
        · subst hh
          simp [hit, hw, hw2]
        · simp [hh]

theorem assignUids_congr (ids ids' : List (Int × String))
    (hfind : ∀ k, map.find ids k = map.find ids' k) (msg : List Nat) :
    ∀ W : World, assignUids ids msg W = assignUids ids' msg W := by
  induction msg with
  | nil => intro W; rfl
  | cons it rest ih =>
    intro W
    rw [assignUids, assignUids]
    cases hit : getMessageObject W it with
    | none => exact ih W
    | some m =>
      simp only [hfind]
      cases hf : map.find ids' m.m_num with
      | none => exact ih W
      | some u => exact ih _

theorem fetch_keeps_number_and_uid (w : World) (this folder options : Nat) (h : Nat) :
    (getMessageObject (POP3Message.fetch w this folder options).world h).map
        (fun m => (m.m_num, m.m_uid))
      = (getMessageObject w h).map (fun m => (m.m_num, m.m_uid)) := by
  unfold POP3Message.fetch
  cases hm : getMessageObject w this with
  | none => rfl
  | some m =>
    simp only
    split_ifs
    · rfl
    · rfl
    · rfl
    · cases hf : w.folders[folder]? with
      | none => rfl
      | some fo =>
        simp only
        split_ifs
        · rfl
        · unfold readResponse sendRequest
          simp only
          cases hp : w.pending with
          | nil => rfl
          | cons r rest =>
            simp only
            have hm' : getMessageObject
                { w with sent := w.sent ++ ["TOP " ++ showInt m.m_num ++ " 0"], pending := rest }
                this = some m := hm
            rw [getMessageObject_setMessage _ this m _ hm']
            by_cases hh : h = this
            · subst hh
              simp only [if_true, Option.map_some']
              have : getMessageObject w h = some m := hm
              rw [this]
              rfl
            · simp only [hh, if_false]
              rfl

theorem fetchMessagesLoop_keeps_number_and_uid (this options : Nat) (msg : List Nat) :
    ∀ (w : World) (h : Nat),
      (getMessageObject (fetchMessagesLoop this options msg w).world h).map
          (fun m => (m.m_num, m.m_uid))
        = (getMessageObject w h).map (fun m => (m.m_num, m.m_uid)) := by
  induction msg with
  | nil => intro w h; rfl
  | cons it rest ih =>
    intro w h
    rw [fetchMessagesLoop]
    have hf := fetch_keeps_number_and_uid w it this options h
    cases hr : POP3Message.fetch w it this options with
    | mk result world =>
      rw [hr] at hf
      cases result with
      | error e => exact hf
      | ok u =>
        simp only
        rw [ih, ← hf]
theorem isSuccessResponse_append (s : String) (tail : List Char)
    (h : isSuccessResponse s = true) : isSuccessResponse (String.mk (s.data ++ tail)) = true := by
  unfold isSuccessResponse at h ⊢
  rcases hs : s.data with _ | ⟨a, _ | ⟨b, _ | ⟨c, t⟩⟩⟩
  · rw [hs] at h; simp at h
  · rw [hs] at h; simp at h
  · rw [hs] at h; simp at h
  · rw [hs] at h
    simpa using h

theorem dropThroughNewline_append (s body : List Char) (h : '\n' ∉ s) :
    dropThroughNewline (s ++ '\n' :: body) = some body := by
  induction s with
  | nil => simp [dropThroughNewline]
  | cons c s ih =>
    have hc : (c == '\n') = false := by
      cases hcc : c == '\n' with
      | false => rfl
      | true =>
        rw [beq_iff_eq] at hcc
        subst hcc
        simp at h
    rw [List.cons_append, dropThroughNewline]
    simp only [hc, Bool.false_eq_true, if_false]
    exact ih (fun hm => h (List.mem_cons_of_mem _ hm))

theorem stripFirstLine_append (s : String) (body : List Char) (h : '\n' ∉ s.data) :
    stripFirstLine (String.mk (s.data ++ '\n' :: body)) = String.mk body := by
  unfold stripFirstLine
  simp only [dropThroughNewline_append s.data body h]

theorem find_listing_ids (listing : List (Nat × String))
    (hwf : ∀ e ∈ listing, (e.1 : Int) ≤ INT_MAX ∧ validUid e.2 = true) (k : Int) :
    map.find (uidlIds (getlines (uidlBody listing) []) []) k
      = map.find (listing.map (fun e => ((e.1 : Int), e.2))) k := by
  rw [find_uidlIds, getlines_uidlBody listing (fun e he => (hwf e he).2),
    filterMap_uidlBody_lines listing hwf]
  rfl

theorem fetchMessages_after_loop (w w1 : World) (this : Nat) (fo : POP3Folder) (msg : List Nat)
    (options : Nat) (reply : String) (rest : List String)
    (hfo : w.folders[this]? = some fo) (hst : fo.m_store = true) (ho : fo.m_open = true)
    (huid : options &&& FETCH_UID ≠ 0)
    (hloop : fetchMessagesLoop this options msg w = ⟨.ok (), w1⟩)
    (hpend : w1.pending = reply :: rest) (hok : isSuccessResponse reply = true) :
    fetchMessages w this msg options =
      ⟨.ok (), assignUids (uidlIds (getlines (stripFirstLine reply).data []) []) msg
        { w1 with sent := w1.sent ++ ["UIDL"], pending := rest }⟩ := by
  unfold fetchMessages
  simp only [hfo, hst, ho, hloop, readResponse, sendRequest, hpend, hok]
  simp [huid]
theorem withUid_num (ids : List (Int × String)) (m : POP3Message) :
    (withUid ids m).m_num = m.m_num := by
  unfold withUid
  cases map.find ids m.m_num <;> rfl

theorem listing_keys_nodup (listing : List (Nat × String))
    (h : (listing.map Prod.fst).Nodup) :
    ((listing.map (fun e => ((e.1 : Int), e.2))).map Prod.fst).Nodup := by
  have : (listing.map (fun e => ((e.1 : Int), e.2))).map Prod.fst
      = (listing.map Prod.fst).map (fun n : Nat => (n : Int)) := by
    simp [List.map_map, Function.comp]
  rw [this]
  exact h.map (fun a b hab => by exact_mod_cast hab)

/-- C7: when `fetchMessages` is called with the UID option, the per-message
loop has gone through, and the server answers `UIDL` positively with a
listing of lines `<number> <uid>` with pairwise distinct numbers, then every
message of the list whose number is in the listing has the uid of that line,
every other message of the list keeps its uid, and a run that differs only
in the order of the listing lines ends in the same world. -/
theorem fetchMessages_assigns_uids
    (w w1 : World) (this : Nat) (fo : POP3Folder) (msg : List Nat) (options : Nat)
    (statusLine : String) (listing : List (Nat × String)) (rest : List String)
    (hfo : w.folders[this]? = some fo) (hst : fo.m_store = true) (ho : fo.m_open = true)
    (huid : options &&& FETCH_UID ≠ 0)
    (hloop : fetchMessagesLoop this options msg w = ⟨.ok (), w1⟩)
    (hpend : w1.pending = String.mk (statusLine.data ++ '\n' :: uidlBody listing) :: rest)
    (hstatus : isSuccessResponse statusLine = true) (hnl : '\n' ∉ statusLine.data)
    (hwf : ∀ e ∈ listing, (e.1 : Int) ≤ INT_MAX ∧ validUid e.2 = true)
    (hdistinct : (listing.map Prod.fst).Nodup) :
    (fetchMessages w this msg options).result = .ok () ∧
    (∀ h ∈ msg, ∀ m, getMessageObject w h = some m →
      ∃ m', getMessageObject (fetchMessages w this msg options).world h = some m' ∧
        m'.m_num = m.m_num ∧
        (∀ (n : Nat) (uid : String), (n, uid) ∈ listing → (n : Int) = m.m_num →
          m'.m_uid = uid) ∧
        ((∀ e ∈ listing, (e.1 : Int) ≠ m.m_num) → m'.m_uid = m.m_uid)) ∧
    (∀ (listing' : List (Nat × String)) (wB w1B : World) (foB : POP3Folder),
      listing'.Perm listing →
      wB.folders[this]? = some foB → foB.m_store = true → foB.m_open = true →
      fetchMessagesLoop this options msg wB = ⟨.ok (), w1B⟩ →
      w1B = { w1 with
              pending := String.mk (statusLine.data ++ '\n' :: uidlBody listing') :: rest } →
      (fetchMessages wB this msg options).world = (fetchMessages w this msg options).world) := by
  have hok := isSuccessResponse_append statusLine ('\n' :: uidlBody listing) hstatus
  have heq := fetchMessages_after_loop w w1 this fo msg options _ rest hfo hst ho huid hloop
    hpend hok
  rw [stripFirstLine_append statusLine _ hnl] at heq
  have hkeys := listing_keys_nodup listing hdistinct
  refine ⟨by rw [heq], ?_, ?_⟩
  · intro h hh m hm
    have hpres := fetchMessagesLoop_keeps_number_and_uid this options msg w h
    rw [hloop, hm] at hpres
    simp only [Option.map_some'] at hpres
    cases h1 : getMessageObject w1 h with
    | none => rw [h1] at hpres; cases hpres
    | some m1 =>
      rw [h1] at hpres
      simp only [Option.map_some', Option.some.injEq, Prod.mk.injEq] at hpres
      have hobj : getMessageObject { w1 with sent := w1.sent ++ ["UIDL"], pending := rest } h
          = some m1 := h1
      refine ⟨withUid (uidlIds (getlines (uidlBody listing) []) []) m1, ?_, ?_, ?_, ?_⟩
      · rw [heq]
        simp only
        rw [assignUids_object, if_pos hh, hobj]
        rfl
      · rw [withUid_num]; exact hpres.1
      · intro n uid hmem hn
        unfold withUid
        rw [find_listing_ids listing hwf, hpres.1, ← hn,
          map.find_of_mem _ (n : Int) uid hkeys
            (List.mem_map.mpr ⟨(n, uid), hmem, rfl⟩)]
      · intro habsent
        unfold withUid
        rw [find_listing_ids listing hwf, hpres.1, map.find_eq_none]
        · exact hpres.2
        · intro e he
          obtain ⟨x, hx, rfl⟩ := List.mem_map.mp he
          exact habsent x hx
  · intro listing' wB w1B foB hperm hfoB hstB hoB hloopB hw1B
    have hwf' : ∀ e ∈ listing', (e.1 : Int) ≤ INT_MAX ∧ validUid e.2 = true :=
      fun e he => hwf e (hperm.mem_iff.mp he)
    have hpendB : w1B.pending
        = String.mk (statusLine.data ++ '\n' :: uidlBody listing') :: rest := by
      rw [hw1B]
    have hokB := isSuccessResponse_append statusLine ('\n' :: uidlBody listing') hstatus
    have heqB := fetchMessages_after_loop wB w1B this foB msg options _ rest hfoB hstB hoB huid
      hloopB hpendB hokB
    rw [stripFirstLine_append statusLine _ hnl] at heqB
    rw [heq, heqB]
    simp only
    have hw2 : ({ w1B with sent := w1B.sent ++ ["UIDL"], pending := rest } : World)
        = { w1 with sent := w1.sent ++ ["UIDL"], pending := rest } := by
      rw [hw1B]
    rw [hw2]
    apply assignUids_congr
    intro k
    rw [find_listing_ids listing' hwf', find_listing_ids listing hwf]
    exact map.find_perm _ _ k hkeys (hperm.map _)

/-- In the example session the listing `1 abc`, `2 def` gives message 1 the uid
`abc`, message 2 the uid `def`, and leaves message 3 without uid. -/
theorem fetchMessages_assigns_uids_witness :
    (fetchMessages exampleUidlWorld 0 [0, 1, 2] FETCH_UID).result = .ok () ∧
    (∃ m', getMessageObject (fetchMessages exampleUidlWorld 0 [0, 1, 2] FETCH_UID).world 0
        = some m' ∧ m'.m_uid = "abc") ∧
    (∃ m', getMessageObject (fetchMessages exampleUidlWorld 0 [0, 1, 2] FETCH_UID).world 1
        = some m' ∧ m'.m_uid = "def") ∧
    (∃ m', getMessageObject (fetchMessages exampleUidlWorld 0 [0, 1, 2] FETCH_UID).world 2
        = some m' ∧ m'.m_uid = "") :=
  have T := fetchMessages_assigns_uids exampleUidlWorld exampleUidlWorld 0
    { exampleFolder with m_messages := [(0, 1), (1, 2), (2, 3)] } [0, 1, 2] FETCH_UID
    "+OK" [(1, "abc"), (2, "def")] [] (by decide) (by decide) (by decide) (by decide) rfl
    (by decide) (by decide) (by decide) (by decide) (by decide)
  ⟨T.1,
   (T.2.1 0 (by decide) (initialMessage 0 1) rfl).imp
      (fun _ h => ⟨h.1, h.2.2.1 1 "abc" (by decide) rfl⟩),
   (T.2.1 1 (by decide) (initialMessage 0 2) rfl).imp
      (fun _ h => ⟨h.1, h.2.2.1 2 "def" (by decide) rfl⟩),
   (T.2.1 2 (by decide) (initialMessage 0 3) rfl).imp
      (fun _ h => ⟨h.1, h.2.2.2 (by decide)⟩)⟩
/-- C8: `extract` rejects a request only when both `start != 0` and
`length != -1`.  In the example session `extract(start=10, length=5)` throws
`partial_fetch_not_supported` and sends nothing, and `extract(start=0,
length=-1)` sends `RETR 2`; but the sub-range requests `extract(start=0,
length=5)` and `extract(start=10, length=-1)` are not rejected: `RETR 2` is
sent and the whole message is delivered. -/
theorem extract_subrange_not_rejected :
    (POP3Message.extract { exampleMessageWorld with pending := ["+OK\nbody"] } 1 10 5 false).result
      = .error .partial_fetch_not_supported ∧
    (POP3Message.extract { exampleMessageWorld with pending := ["+OK\nbody"] } 1 10 5 false).world.sent
      = ["STAT"] ∧
    (POP3Message.extract { exampleMessageWorld with pending := ["+OK\nbody"] } 1 0 (-1) false).world.sent
      = ["STAT", "RETR 2"] ∧
    (POP3Message.extract { exampleMessageWorld with pending := ["+OK\nbody"] } 1 0 5 false).result
      = .ok () ∧
    (POP3Message.extract { exampleMessageWorld with pending := ["+OK\nbody"] } 1 0 5 false).world.sent
      = ["STAT", "RETR 2"] ∧
    (POP3Message.extract { exampleMessageWorld with pending := ["+OK\nbody"] } 1 0 5 false).world.output
      = ["body"] ∧
    (POP3Message.extract { exampleMessageWorld with pending := ["+OK\nbody"] } 1 10 (-1) false).result
      = .ok () ∧
    (POP3Message.extract { exampleMessageWorld with pending := ["+OK\nbody"] } 1 10 (-1) false).world.sent
      = ["STAT", "RETR 2"] :=
  ⟨rfl, rfl, rfl, rfl, rfl, rfl, rfl, rfl⟩

theorem deleteMessagesLoop_all_positive (nums : List Int) :
    ∀ (w : World) (replies rest : List String),
      w.pending = replies ++ rest → replies.length = nums.length →
      (∀ r ∈ replies, isSuccessResponse r = true) →
      deleteMessagesLoop nums w =
        ⟨.ok (), { w with sent := w.sent ++ nums.map (fun n => "DELE " ++ showInt n),
                          pending := rest }⟩ := by
  induction nums with
  | nil =>
    intro w replies rest hp hl _
    have : replies = [] := List.length_eq_zero.mp hl
    subst this
    simp only [List.nil_append] at hp
    simp [deleteMessagesLoop, ← hp]
  | cons n nums ih =>
    intro w replies rest hp hl hpos
    cases replies with
    | nil => simp at hl
    | cons r replies =>
      have hr : isSuccessResponse r = true := hpos r (by simp)
      simp only [deleteMessagesLoop, readResponse, sendRequest, hp, List.cons_append, hr,
        Bool.not_true, Bool.false_eq_true, if_false]
      rw [ih _ replies rest rfl (by simpa using hl) (fun x hx => hpos x (by simp [hx]))]
      simp

theorem deleteMessagesLoop_first_negative (nums : List Int) :
    ∀ (w : World) (good : List String) (bad : String) (rest : List String),
      w.pending = good ++ bad :: rest → good.length < nums.length →
      (∀ r ∈ good, isSuccessResponse r = true) → isSuccessResponse bad = false →
      deleteMessagesLoop nums w =
        ⟨.error (.command_error "DELE" bad),
          { w with sent := w.sent ++ (nums.take (good.length + 1)).map
                             (fun n => "DELE " ++ showInt n),
                   pending := rest }⟩ := by
  induction nums with
  | nil => intro w good bad rest _ hl; simp at hl
  | cons n nums ih =>
    intro w good bad rest hp hl hpos hbad
    cases good with
    | nil =>
      simp only [List.nil_append] at hp
      simp [deleteMessagesLoop, readResponse, sendRequest, hp, hbad]
    | cons r good =>
      have hr : isSuccessResponse r = true := hpos r (by simp)
      simp only [deleteMessagesLoop, readResponse, sendRequest, hp, List.cons_append, hr,
        Bool.not_true, Bool.false_eq_true, if_false]
      rw [ih _ good bad rest rfl (by simpa using hl) (fun x hx => hpos x (by simp [hx])) hbad]
      simp

/-- C9: on an open, connected folder `deleteMessages(nums)` with a non-empty
list sends `DELE nums[0]`, `DELE nums[1]`, ... in list order; when every
reply is positive it sends one `DELE` per element and returns; at the first
negative reply it throws `command_error` naming `DELE` with that raw reply
and sends nothing for the later elements. -/
theorem deleteMessages_stops_at_first_failure (w : World) (this : Nat) (fo : POP3Folder)
    (nums : List Int)
    (hfo : w.folders[this]? = some fo) (hst : fo.m_store = true) (ho : fo.m_open = true)
    (hne : nums ≠ []) :
    (∀ (replies rest : List String),
      w.pending = replies ++ rest → replies.length = nums.length →
      (∀ r ∈ replies, isSuccessResponse r = true) →
      deleteMessages w this nums =
        ⟨.ok (), { w with sent := w.sent ++ nums.map (fun n => "DELE " ++ showInt n),
                          pending := rest }⟩) ∧
    (∀ (good : List String) (bad : String) (rest : List String),
      w.pending = good ++ bad :: rest → good.length < nums.length →
      (∀ r ∈ good, isSuccessResponse r = true) → isSuccessResponse bad = false →
      deleteMessages w this nums =
        ⟨.error (.command_error "DELE" bad),
          { w with sent := w.sent ++ (nums.take (good.length + 1)).map
                             (fun n => "DELE " ++ showInt n),
                   pending := rest }⟩) := by
  have hemp : nums.isEmpty = false := by
    cases nums with
    | nil => exact absurd rfl hne
    | cons a l => rfl
  have heq : deleteMessages w this nums = deleteMessagesLoop nums w := by
    simp [deleteMessages, hemp, hfo, hst, ho]
  rw [heq]
  exact ⟨deleteMessagesLoop_all_positive nums w, deleteMessagesLoop_first_negative nums w⟩

/-- In the example session `deleteMessages([3, 7, 9])` with `DELE 7` answered
negatively sends exactly `DELE 3` and `DELE 7`. -/
theorem deleteMessages_stops_at_first_failure_witness :
    deleteMessages { exampleWorld with pending := ["+OK", "-ERR no such message", "+OK"] } 0
        [3, 7, 9] =
      ⟨.error (.command_error "DELE" "-ERR no such message"),
        { exampleWorld with sent := ["STAT", "DELE 3", "DELE 7"], pending := ["+OK"] }⟩ :=
  (deleteMessages_stops_at_first_failure
    { exampleWorld with pending := ["+OK", "-ERR no such message", "+OK"] } 0 exampleFolder
    [3, 7, 9] (by decide) (by decide) (by decide) (by decide)).2
    ["+OK"] "-ERR no such message" ["+OK"] (by decide) (by decide) (by decide) (by decide)

/-- C10: the loop of `deleteMessages(from, to)` runs while `i < to`, so no
`DELE` is sent for the upper bound: in the example session, with every reply
positive, `deleteMessages(3, 5)` sends `DELE 3` and `DELE 4` only, and
`deleteMessages(1, 1)` sends nothing. -/
theorem deleteMessages_range_skips_upper_bound :
    deleteMessagesRange { exampleWorld with pending := ["+OK", "+OK", "+OK"] } 0 3 5 =
      ⟨.ok (), { exampleWorld with sent := ["STAT", "DELE 3", "DELE 4"], pending := ["+OK"] }⟩ ∧
    deleteMessagesRange { exampleWorld with pending := ["+OK"] } 0 1 1 =
      ⟨.ok (), { exampleWorld with pending := ["+OK"] }⟩ := by
  constructor <;> rfl
theorem onFolderClosed_object (W : World) (it h : Nat) :
    getMessageObject (onFolderClosed W it) h =
      if h = it then (getMessageObject W h).map (fun m => { m with m_folder := none })
      else getMessageObject W h := by
  unfold onFolderClosed
  cases hit : getMessageObject W it with
  | none =>
    simp only
    by_cases hh : h = it
    · subst hh; simp [hit]
    · simp [hh]
  | some m =>
    simp only
    rw [getMessageObject_setMessage W it m _ hit]
    by_cases hh : h = it
    · subst hh; simp [hit]
    · simp [hh]

theorem onFolderClosed_frame (W : World) (it : Nat) :
    (onFolderClosed W it).folders = W.folders ∧ (onFolderClosed W it).sent = W.sent ∧
    (onFolderClosed W it).pending = W.pending ∧ (onFolderClosed W it).m_folders = W.m_folders := by
  unfold onFolderClosed
  cases getMessageObject W it <;> simp [setMessage]

theorem closeAll_frame (keys : List (Nat × Int)) :
    ∀ W : World,
      (keys.foldl (fun acc it => onFolderClosed acc it.1) W).folders = W.folders ∧
      (keys.foldl (fun acc it => onFolderClosed acc it.1) W).sent = W.sent ∧
      (keys.foldl (fun acc it => onFolderClosed acc it.1) W).pending = W.pending ∧
      (keys.foldl (fun acc it => onFolderClosed acc it.1) W).m_folders = W.m_folders := by
  induction keys with
  | nil => intro W; simp
  | cons k keys ih =>
    intro W
    rw [List.foldl_cons]
    have h1 := ih (onFolderClosed W k.1)
    have h2 := onFolderClosed_frame W k.1
    exact ⟨h1.1.trans h2.1, h1.2.1.trans h2.2.1, h1.2.2.1.trans h2.2.2.1,
      h1.2.2.2.trans h2.2.2.2⟩

theorem closeAll_object (keys : List (Nat × Int)) :
    ∀ (W : World) (h : Nat),
      getMessageObject (keys.foldl (fun acc it => onFolderClosed acc it.1) W) h =
        if h ∈ keys.map Prod.fst then
          (getMessageObject W h).map (fun m => { m with m_folder := none })
        else getMessageObject W h := by
  induction keys with
  | nil => intro W h; simp
  | cons k keys ih =>
    intro W h
    rw [List.foldl_cons, ih, onFolderClosed_object]
    by_cases hk : h = k.1
    · subst hk
      by_cases hm : k.1 ∈ keys.map Prod.fst
      · simp only [hm, if_true, List.map_cons, List.mem_cons, true_or]
        cases getMessageObject W k.1 <;> rfl
      · simp [hm]
    · by_cases hm : h ∈ keys.map Prod.fst
      · simp [hm, hk]
      · simp [hm, hk]

theorem onClose_eq (W : World) (this : Nat) (fo : POP3Folder) (hfo : W.folders[this]? = some fo) :
    onClose W this =
      setFolder (fo.m_messages.foldl (fun acc it => onFolderClosed acc it.1) W) this
        { fo with m_messages := [] } := by
  unfold onClose
  simp only [hfo]
  have hf := (closeAll_frame fo.m_messages W).1
  have : (fo.m_messages.foldl (fun acc it => onFolderClosed acc it.1) W).folders[this]? = some fo := by
    rw [hf]; exact hfo
  simp only [this]

theorem onClose_contract (W : World) (this : Nat) (fo : POP3Folder)
    (hfo : W.folders[this]? = some fo) :
    (onClose W this).sent = W.sent ∧
    (onClose W this).folders[this]? = some { fo with m_messages := [] } ∧
    (∀ h, getMessageObject (onClose W this) h =
      if h ∈ fo.m_messages.map Prod.fst then
        (getMessageObject W h).map (fun m => { m with m_folder := none })
      else getMessageObject W h) := by
  have hlt := getElem?_lt hfo
  rw [onClose_eq W this fo hfo]
  have hfr := closeAll_frame fo.m_messages W
  have hob := closeAll_object fo.m_messages W
  generalize fo.m_messages.foldl (fun acc it => onFolderClosed acc it.1) W = W1 at hfr hob
  refine ⟨?_, ?_, ?_⟩
  · simp [setFolder, hfr.2.1]
  · simp [setFolder, hfr.1, List.getElem?_set, hlt]
  · intro h
    exact hob h

/-- C11: on an open, connected folder `close(expunge)` sends exactly one
request `RSET` when `expunge` is false and none when it is true, and then,
whatever the reply: the folder is not open, its mode is -1, its map of
messages is empty, and every message object that was in the map still exists
with its owner pointer cleared (all other message objects are untouched).  On
a folder that is not open `close` throws `illegal_state` and sends nothing. -/
theorem close_contract (w : World) (this : Nat) (fo : POP3Folder) (expunge : Bool)
    (hfo : w.folders[this]? = some fo) (hst : fo.m_store = true) :
    (fo.m_open = true → (expunge = false → w.pending ≠ []) →
      (close w this expunge).result = .ok () ∧
      (close w this expunge).world.sent = w.sent ++ (if expunge then [] else ["RSET"]) ∧
      (close w this expunge).world.folders[this]?
        = some { fo with m_open := false, m_mode := -1, m_messages := [] } ∧
      (∀ h, getMessageObject (close w this expunge).world h =
        if h ∈ fo.m_messages.map Prod.fst then
          (getMessageObject w h).map (fun m => { m with m_folder := none })
        else getMessageObject w h)) ∧
    (fo.m_open = false →
      close w this expunge = ⟨.error (.illegal_state "Folder not open"), w⟩) := by
  have hlt := getElem?_lt hfo
  constructor
  · intro ho hpend
    cases expunge with
    | true =>
      have hc : close w this true =
          ⟨.ok (), onClose (setFolder w this { fo with m_open := false, m_mode := -1 }) this⟩ := by
        simp [close, hfo, hst, ho]
      have hfo1 : (setFolder w this { fo with m_open := false, m_mode := -1 }).folders[this]?
          = some { fo with m_open := false, m_mode := -1 } := by
        simp [setFolder, List.getElem?_set, hlt]
      have hon := onClose_contract _ this _ hfo1
      rw [hc]
      refine ⟨rfl, ?_, hon.2.1, hon.2.2⟩
      rw [hon.1]
      simp [setFolder]
    | false =>
      obtain ⟨r, rest, hp⟩ : ∃ r rest, w.pending = r :: rest := by
        cases hpd : w.pending with
        | nil => exact absurd hpd (hpend rfl)
        | cons r rest => exact ⟨r, rest, rfl⟩
      have hc : close w this false =
          ⟨.ok (), onClose (setFolder { w with sent := w.sent ++ ["RSET"], pending := rest } this
            { fo with m_open := false, m_mode := -1 }) this⟩ := by
        simp [close, hfo, hst, ho, readResponse, sendRequest, hp]
      have hfo1 : (setFolder { w with sent := w.sent ++ ["RSET"], pending := rest } this
          { fo with m_open := false, m_mode := -1 }).folders[this]?
          = some { fo with m_open := false, m_mode := -1 } := by
        simp [setFolder, List.getElem?_set, hlt]
      have hon := onClose_contract _ this _ hfo1
      rw [hc]
      refine ⟨rfl, ?_, hon.2.1, hon.2.2⟩
      rw [hon.1]
      simp [setFolder]
  · intro ho
    simp [close, hfo, hst, ho]

/-- In the example session closing without expunge sends `RSET`, closes the
folder and clears the owner of message object 1; a second `close` fails. -/
theorem close_contract_witness :
    (close { exampleMessageWorld with pending := ["-ERR"] } 0 false).world.sent
      = ["STAT", "RSET"] ∧
    getMessageObject (close { exampleMessageWorld with pending := ["-ERR"] } 0 false).world 1
      = some { initialMessage 0 2 with m_folder := none } ∧
    close (exampleClosedWorld []) 0 true
      = ⟨.error (.illegal_state "Folder not open"), exampleClosedWorld []⟩ :=
  ⟨((close_contract { exampleMessageWorld with pending := ["-ERR"] } 0
        { exampleFolder with m_messages := [(0, 1), (1, 2), (2, 3)] } false
        (by decide) (by decide)).1 (by decide) (by decide)).2.1,
   ((close_contract { exampleMessageWorld with pending := ["-ERR"] } 0
        { exampleFolder with m_messages := [(0, 1), (1, 2), (2, 3)] } false
        (by decide) (by decide)).1 (by decide) (by decide)).2.2.2 1,
   (close_contract (exampleClosedWorld []) 0 exampleClosedFolder true
        (by decide) (by decide)).2 (by decide)⟩
theorem fetch_keeps_owner (w : World) (this folder options : Nat) (h : Nat) :
    (getMessageObject (POP3Message.fetch w this folder options).world h).map
        POP3Message.m_folder
      = (getMessageObject w h).map POP3Message.m_folder := by
  unfold POP3Message.fetch
  cases hm : getMessageObject w this with
  | none => rfl
  | some m =>
    simp only
    split_ifs
    · rfl
    · rfl
    · rfl
    · cases hf : w.folders[folder]? with
      | none => rfl
      | some fo =>
        simp only
        split_ifs
        · rfl
        · unfold readResponse sendRequest
          simp only
          cases hp : w.pending with
          | nil => rfl
          | cons r rest =>
            simp only
            have hm' : getMessageObject
                { w with sent := w.sent ++ ["TOP " ++ showInt m.m_num ++ " 0"], pending := rest }
                this = some m := hm
            rw [getMessageObject_setMessage _ this m _ hm']
            by_cases hh : h = this
            · subst hh
              simp only [if_true, Option.map_some']
              have : getMessageObject w h = some m := hm
              rw [this]
              rfl
            · simp only [hh, if_false]
              rfl

theorem fetch_closed_handle (w : World) (h : Nat) (m : POP3Message)
    (hm : getMessageObject w h = some m) (hown : m.m_folder = none) (folder options : Nat) :
    POP3Message.fetch w h folder options = ⟨.error .folder_not_found, w⟩ := by
  unfold POP3Message.fetch
  simp [hm, hown]

theorem fetchMessagesLoop_append (this options : Nat) (pre rest : List Nat) :
    ∀ w : World,
      fetchMessagesLoop this options (pre ++ rest) w =
        match fetchMessagesLoop this options pre w with
        | ⟨.error e, w1⟩ => ⟨.error e, w1⟩
        | ⟨.ok _, w1⟩ => fetchMessagesLoop this options rest w1 := by
  induction pre with
  | nil => intro w; rfl
  | cons it pre ih =>
    intro w
    rw [List.cons_append, fetchMessagesLoop, fetchMessagesLoop]
    cases hr : POP3Message.fetch w it this options with
    | mk result world =>
      cases result with
      | error e => rfl
      | ok u => exact ih world

theorem fetchMessagesLoop_keeps_owner (this options : Nat) (msg : List Nat) :
    ∀ (w : World) (h : Nat),
      (getMessageObject (fetchMessagesLoop this options msg w).world h).map POP3Message.m_folder
        = (getMessageObject w h).map POP3Message.m_folder := by
  induction msg with
  | nil => intro w h; rfl
  | cons it rest ih =>
    intro w h
    rw [fetchMessagesLoop]
    have hf := fetch_keeps_owner w it this options h
    cases hr : POP3Message.fetch w it this options with
    | mk result world =>
      rw [hr] at hf
      cases result with
      | error e => exact hf
      | ok u =>
        simp only
        rw [ih, ← hf]

theorem fetchMessagesLoop_closed_handle (w : World) (h : Nat) (m : POP3Message)
    (hm : getMessageObject w h = some m) (hown : m.m_folder = none)
    (this options : Nat) (pre post : List Nat) :
    ∃ e, fetchMessagesLoop this options (pre ++ h :: post) w
      = ⟨.error e, (fetchMessagesLoop this options pre w).world⟩ := by
  rw [fetchMessagesLoop_append]
  have hk := fetchMessagesLoop_keeps_owner this options pre w h
  cases hr : fetchMessagesLoop this options pre w with
  | mk result w1 =>
    rw [hr] at hk
    cases result with
    | error e => exact ⟨e, rfl⟩
    | ok u =>
      simp only
      rw [hm] at hk
      simp only [Option.map_some'] at hk
      cases h1 : getMessageObject w1 h with
      | none => rw [h1] at hk; cases hk
      | some m1 =>
        rw [h1] at hk
        simp only [Option.map_some', Option.some.injEq] at hk
        refine ⟨.folder_not_found, ?_⟩
        rw [fetchMessagesLoop, fetch_closed_handle w1 h m1 h1 (by rw [hk, hown])]

/-- C12: a message object whose owner pointer has been cleared (its folder
was closed, whether or not it was opened again) cannot be used any more:
`extract` throws `illegal_state` for all arguments, `fetch` through any
folder throws `folder_not_found`, `fetchMessage` and `fetchMessages` throw,
none of them sending a request for it (a `fetchMessages` list stops at the
object, having only worked on the objects before it), and opening a folder
does not restore the owner pointer. -/
theorem closed_handle_unusable (w : World) (h : Nat) (m : POP3Message)
    (hm : getMessageObject w h = some m) (hown : m.m_folder = none) :
    (∀ start length peek,
      POP3Message.extract w h start length peek
        = ⟨.error (.illegal_state "Folder closed"), w⟩) ∧
    (∀ folder options, POP3Message.fetch w h folder options = ⟨.error .folder_not_found, w⟩) ∧
    (∀ this options, ∃ e, fetchMessage w this h options = ⟨.error e, w⟩) ∧
    (∀ this options post, ∃ e, fetchMessages w this (h :: post) options = ⟨.error e, w⟩) ∧
    (∀ this options pre post, ∃ e,
      (fetchMessages w this (pre ++ h :: post) options).result = .error e ∧
      ((fetchMessages w this (pre ++ h :: post) options).world = w ∨
       (fetchMessages w this (pre ++ h :: post) options).world
          = (fetchMessagesLoop this options pre w).world)) ∧
    (∀ this mode failIfModeIsNotAvailable,
      getMessageObject (open_ w this mode failIfModeIsNotAvailable).world h = some m) := by
  have hgen : ∀ this options pre post, ∃ e,
      fetchMessages w this (pre ++ h :: post) options = ⟨.error e, w⟩ ∨
      fetchMessages w this (pre ++ h :: post) options
        = ⟨.error e, (fetchMessagesLoop this options pre w).world⟩ := by
    intro this options pre post
    unfold fetchMessages
    cases hf : w.folders[this]? with
    | none => exact ⟨_, Or.inl rfl⟩
    | some fo =>
      simp only
      split_ifs
      · exact ⟨_, Or.inl rfl⟩
      · exact ⟨_, Or.inl rfl⟩
      all_goals
        obtain ⟨e, he⟩ := fetchMessagesLoop_closed_handle w h m hm hown this options pre post
        rw [he]
        exact ⟨e, Or.inr rfl⟩
  refine ⟨?_, ?_, ?_, ?_, ?_, ?_⟩
  · intro start length peek
    simp [POP3Message.extract, hm, hown]
  · exact fetch_closed_handle w h m hm hown
  · intro this options
    unfold fetchMessage
    cases hf : w.folders[this]? with
    | none => exact ⟨_, rfl⟩
    | some fo =>
      simp only
      split_ifs
      · exact ⟨_, rfl⟩
      · exact ⟨_, rfl⟩
      all_goals
        rw [fetch_closed_handle w h m hm hown]
        exact ⟨_, rfl⟩
  · intro this options post
    obtain ⟨e, he⟩ := hgen this options [] post
    rcases he with he | he
    · exact ⟨e, he⟩
    · exact ⟨e, he⟩
  · intro this options pre post
    obtain ⟨e, he⟩ := hgen this options pre post
    rcases he with he | he
    · exact ⟨e, by rw [he], Or.inl (by rw [he])⟩
    · exact ⟨e, by rw [he], Or.inr (by rw [he])⟩
  · intro this mode fail
    have hmsg : (open_ w this mode fail).world.messages = w.messages := by
      unfold open_
      cases hf : w.folders[this]? with
      | none => rfl
      | some fo =>
        simp only
        split_ifs <;> try rfl
        unfold readResponse sendRequest
        simp only
        cases w.pending with
        | nil => rfl
        | cons r rest =>
          simp only
          split_ifs <;> rfl
    unfold getMessageObject at hm ⊢
    rw [hmsg]
    exact hm

/-- In the example session, after the INBOX has been closed and opened again,
`extract` on the old message object 1 throws `illegal_state` and `fetch`
through the reopened folder throws `folder_not_found`, nothing being sent. -/
theorem closed_handle_unusable_witness :
    POP3Message.extract exampleReopenedWorld 1 0 (-1) false
      = ⟨.error (.illegal_state "Folder closed"), exampleReopenedWorld⟩ ∧
    POP3Message.fetch exampleReopenedWorld 1 0 FETCH_ENVELOPE
      = ⟨.error .folder_not_found, exampleReopenedWorld⟩ :=
  ⟨(closed_handle_unusable exampleReopenedWorld 1 { initialMessage 0 2 with m_folder := none }
      (by decide) (by decide)).1 0 (-1) false,
   (closed_handle_unusable exampleReopenedWorld 1 { initialMessage 0 2 with m_folder := none }
      (by decide) (by decide)).2.1 0 FETCH_ENVELOPE⟩
/-- C13: after a folder has received `onStoreDisconnected`, each of `open`,
`close`, `exists`, `getMessage`, `getMessages` (range and list),
`getMessageCount`, `getFolder`, `getFolders`, `fetchMessages`,
`fetchMessage`, `deleteMessage` and `status` on it, and `extract` on each of
its live messages, throws `illegal_state` for all arguments and leaves the
whole world (so the requests sent, the open flag, the mode, the cached count
and the map of messages) as it was; the notification itself only clears the
store pointer. -/
theorem store_disconnected_contract (w : World) (this : Nat) (fo : POP3Folder)
    (hfo : w.folders[this]? = some fo) :
    (onStoreDisconnected w this).folders[this]? = some { fo with m_store := false } ∧
    (onStoreDisconnected w this).sent = w.sent ∧
    (∀ mode failIfModeIsNotAvailable,
      open_ (onStoreDisconnected w this) this mode failIfModeIsNotAvailable
        = ⟨.error (.illegal_state "Store disconnected"), onStoreDisconnected w this⟩) ∧
    (∀ expunge, close (onStoreDisconnected w this) this expunge
        = ⟨.error (.illegal_state "Store disconnected"), onStoreDisconnected w this⟩) ∧
    (exists_ (onStoreDisconnected w this) this
        = ⟨.error (.illegal_state "Store disconnected"), onStoreDisconnected w this⟩) ∧
    (∀ num, getMessage (onStoreDisconnected w this) this num
        = ⟨.error (.illegal_state "Store disconnected"), onStoreDisconnected w this⟩) ∧
    (∀ from_ to_, getMessagesRange (onStoreDisconnected w this) this from_ to_
        = ⟨.error (.illegal_state "Store disconnected"), onStoreDisconnected w this⟩) ∧
    (∀ nums, getMessages (onStoreDisconnected w this) this nums
        = ⟨.error (.illegal_state "Store disconnected"), onStoreDisconnected w this⟩) ∧
    (getMessageCount (onStoreDisconnected w this) this
        = ⟨.error (.illegal_state "Store disconnected"), onStoreDisconnected w this⟩) ∧
    (∀ name count0, getFolder (onStoreDisconnected w this) this name count0
        = ⟨.error (.illegal_state "Store disconnected"), onStoreDisconnected w this⟩) ∧
    (∀ recursive count0, getFolders (onStoreDisconnected w this) this recursive count0
        = ⟨.error (.illegal_state "Store disconnected"), onStoreDisconnected w this⟩) ∧
    (∀ msg options, fetchMessages (onStoreDisconnected w this) this msg options
        = ⟨.error (.illegal_state "Store disconnected"), onStoreDisconnected w this⟩) ∧
    (∀ msg options, fetchMessage (onStoreDisconnected w this) this msg options
        = ⟨.error (.illegal_state "Store disconnected"), onStoreDisconnected w this⟩) ∧
    (∀ num, deleteMessage (onStoreDisconnected w this) this num
        = ⟨.error (.illegal_state "Store disconnected"), onStoreDisconnected w this⟩) ∧
    (status (onStoreDisconnected w this) this
        = ⟨.error (.illegal_state "Store disconnected"), onStoreDisconnected w this⟩) ∧
    (∀ h m start length peek, getMessageObject (onStoreDisconnected w this) h = some m →
      m.m_folder = some this →
      POP3Message.extract (onStoreDisconnected w this) h start length peek
        = ⟨.error (.illegal_state "Store disconnected"), onStoreDisconnected w this⟩) := by
  have hlt := getElem?_lt hfo
  have hfo1 : (onStoreDisconnected w this).folders[this]? = some { fo with m_store := false } := by
    simp [onStoreDisconnected, hfo, setFolder, List.getElem?_set, hlt]
  have hsent : (onStoreDisconnected w this).sent = w.sent := by
    simp [onStoreDisconnected, hfo, setFolder]
  generalize onStoreDisconnected w this = W at hfo1 hsent
  refine ⟨hfo1, hsent, ?_, ?_, ?_, ?_, ?_, ?_, ?_, ?_, ?_, ?_, ?_, ?_, ?_, ?_⟩
  · intro mode f; simp [open_, hfo1]
  · intro e; simp [close, hfo1]
  · simp [exists_, hfo1]
  · intro n; simp [getMessage, hfo1]
  · intro a b; simp [getMessagesRange, hfo1]
  · intro nums; simp [getMessages, hfo1]
  · simp [getMessageCount, hfo1]
  · intro n c; simp [getFolder, hfo1]
  · intro r c; simp [getFolders, hfo1]
  · intro msg o; simp [fetchMessages, hfo1]
  · intro msg o; simp [fetchMessage, hfo1]
  · intro n; simp [deleteMessage, hfo1]
  · simp [status, hfo1]
  · intro h m s l p hm hown
    simp [POP3Message.extract, hm, hown, hfo1]

/-- In the example session, once the store has gone, `status` and
`getMessage` on the INBOX and `extract` on message object 1 all throw
`illegal_state` and send nothing. -/
theorem store_disconnected_contract_witness :
    (status (onStoreDisconnected exampleMessageWorld 0) 0
      = ⟨.error (.illegal_state "Store disconnected"),
          onStoreDisconnected exampleMessageWorld 0⟩) ∧
    (getMessage (onStoreDisconnected exampleMessageWorld 0) 0 1
      = ⟨.error (.illegal_state "Store disconnected"),
          onStoreDisconnected exampleMessageWorld 0⟩) ∧
    (POP3Message.extract (onStoreDisconnected exampleMessageWorld 0) 1 0 (-1) false
      = ⟨.error (.illegal_state "Store disconnected"),
          onStoreDisconnected exampleMessageWorld 0⟩) :=
  ⟨(store_disconnected_contract exampleMessageWorld 0
      { exampleFolder with m_messages := [(0, 1), (1, 2), (2, 3)] }
      (by decide)).2.2.2.2.2.2.2.2.2.2.2.2.2.2.1,
   (store_disconnected_contract exampleMessageWorld 0
      { exampleFolder with m_messages := [(0, 1), (1, 2), (2, 3)] }
      (by decide)).2.2.2.2.2.1 1,
   (store_disconnected_contract exampleMessageWorld 0
      { exampleFolder with m_messages := [(0, 1), (1, 2), (2, 3)] }
      (by decide)).2.2.2.2.2.2.2.2.2.2.2.2.2.2.2 1 (initialMessage 0 2) 0 (-1) false
      (by decide) (by decide)⟩
theorem lor_eq_zero (a b : Nat) : a ||| b = 0 ↔ a = 0 ∧ b = 0 := by
  constructor
  · intro h
    have hbit : ∀ i, (a.testBit i || b.testBit i) = false := by
      intro i
      rw [← Nat.testBit_or, h]
      simp
    constructor
    · apply Nat.eq_of_testBit_eq
      intro i
      have := hbit i
      simp only [Bool.or_eq_false_iff] at this
      simp [this.1]
    · apply Nat.eq_of_testBit_eq
      intro i
      have := hbit i
      simp only [Bool.or_eq_false_iff] at this
      simp [this.2]
  · rintro ⟨rfl, rfl⟩
    rfl

theorem requires_header_iff (options : Nat) :
    options &&& POP3Message.optionsRequiringHeader = 0 ↔
      (options &&& FETCH_ENVELOPE = 0 ∧ options &&& FETCH_CONTENT_INFO = 0 ∧
        options &&& FETCH_FULL_HEADER = 0 ∧ options &&& FETCH_IMPORTANCE = 0) := by
  unfold POP3Message.optionsRequiringHeader
  rw [Nat.and_or_distrib_left, Nat.and_or_distrib_left, Nat.and_or_distrib_left,
    lor_eq_zero, lor_eq_zero, lor_eq_zero]
  tauto

/-- C14: for a message, the folder that is its recorded owner (connected) and
options that request neither structure nor flags, `POP3Message::fetch` sends
exactly one request, `TOP <number> 0`, when the options contain at least one
of envelope, content-info, full-header or importance, and stores the header
read from the reply; when they contain none of these it sends nothing and
leaves the world, the message included, as it was. -/
theorem fetch_contract (w : World) (h : Nat) (m : POP3Message) (folder : Nat) (fo : POP3Folder)
    (options : Nat)
    (hm : getMessageObject w h = some m) (hown : m.m_folder = some folder)
    (hfo : w.folders[folder]? = some fo) (hst : fo.m_store = true)
    (hsup : options &&& FETCH_STRUCTURE = 0 ∧ options &&& FETCH_FLAGS = 0) :
    ((options &&& FETCH_ENVELOPE ≠ 0 ∨ options &&& FETCH_CONTENT_INFO ≠ 0 ∨
        options &&& FETCH_FULL_HEADER ≠ 0 ∨ options &&& FETCH_IMPORTANCE ≠ 0) →
      ∀ reply rest, w.pending = reply :: rest →
        POP3Message.fetch w h folder options =
          ⟨.ok (), setMessage
            { w with sent := w.sent ++ ["TOP " ++ showInt m.m_num ++ " 0"], pending := rest }
            h (some { m with m_header := some reply })⟩) ∧
    ((options &&& FETCH_ENVELOPE = 0 ∧ options &&& FETCH_CONTENT_INFO = 0 ∧
        options &&& FETCH_FULL_HEADER = 0 ∧ options &&& FETCH_IMPORTANCE = 0) →
      POP3Message.fetch w h folder options = ⟨.ok (), w⟩) := by
  have hs : options &&& (FETCH_STRUCTURE ||| FETCH_FLAGS) = 0 := by
    rw [Nat.and_or_distrib_left, lor_eq_zero]
    exact hsup
  constructor
  · intro hreq reply rest hp
    have hne : ¬ (options &&& POP3Message.optionsRequiringHeader = 0) := by
      rw [requires_header_iff]
      tauto
    unfold POP3Message.fetch
    simp only [hm, hown, hs, hne, hfo, hst, readResponse, sendRequest, hp]
    simp
  · intro hnone
    have he : options &&& POP3Message.optionsRequiringHeader = 0 :=
      (requires_header_iff options).2 hnone
    unfold POP3Message.fetch
    simp only [hm, hown, hs, he]
    simp

/-- In the example session fetching the envelope of message 2 sends `TOP 2 0`,
fetching only the size or only the uid sends nothing. -/
theorem fetch_contract_witness :
    (POP3Message.fetch { exampleMessageWorld with pending := ["+OK\nSubject: x\n"] } 1 0
        FETCH_ENVELOPE).world.sent = ["STAT", "TOP 2 0"] ∧
    POP3Message.fetch exampleMessageWorld 1 0 FETCH_SIZE = ⟨.ok (), exampleMessageWorld⟩ ∧
    POP3Message.fetch exampleMessageWorld 1 0 FETCH_UID = ⟨.ok (), exampleMessageWorld⟩ :=
  ⟨congrArg (fun o => o.world.sent)
      ((fetch_contract { exampleMessageWorld with pending := ["+OK\nSubject: x\n"] } 1
        (initialMessage 0 2) 0 { exampleFolder with m_messages := [(0, 1), (1, 2), (2, 3)] }
        FETCH_ENVELOPE (by decide) (by decide) (by decide) (by decide) (by decide)).1
        (by decide) "+OK\nSubject: x\n" [] (by decide)),
   (fetch_contract exampleMessageWorld 1 (initialMessage 0 2) 0
        { exampleFolder with m_messages := [(0, 1), (1, 2), (2, 3)] }
        FETCH_SIZE (by decide) (by decide) (by decide) (by decide) (by decide)).2 (by decide),
   (fetch_contract exampleMessageWorld 1 (initialMessage 0 2) 0
        { exampleFolder with m_messages := [(0, 1), (1, 2), (2, 3)] }
        FETCH_UID (by decide) (by decide) (by decide) (by decide) (by decide)).2 (by decide)⟩
theorem dropWhile_append_all {α : Type} (p : α → Bool) (a b : List α)
    (h : ∀ c ∈ a, p c = true) : (a ++ b).dropWhile p = b.dropWhile p := by
  induction a with
  | nil => rfl
  | cons x a ih =>
    rw [List.cons_append, List.dropWhile_cons, if_pos (h x (by simp))]
    exact ih (fun c hc => h c (List.mem_cons_of_mem _ hc))

theorem dropWhile_stop {α : Type} (p : α → Bool) (b : List α)
    (h : ∀ c, b.head? = some c → p c = false) : b.dropWhile p = b := by
  cases b with
  | nil => rfl
  | cons x b => rw [List.dropWhile_cons, h x rfl]; simp

theorem dropWhile_all {α : Type} (p : α → Bool) (a : List α)
    (h : ∀ c ∈ a, p c = true) : a.dropWhile p = [] := by
  have := dropWhile_append_all p a [] h
  simpa using this

theorem uidlNumber_stop (l : List Char) (acc : Int)
    (h : ∀ c, l.head? = some c → isdigit c = false) : uidlNumber l acc = (acc, l) := by
  have := uidlNumber_digits [] l h acc (by simp)
  simpa using this

theorem uidlNumber_rest_nonblank (l : List Char) :
    ∀ acc : Int, (∀ c ∈ l, isBlank c = false) →
      ∀ c ∈ (uidlNumber l acc).2, isBlank c = false := by
  induction l with
  | nil => intro acc _ c hc; simp [uidlNumber] at hc
  | cons x l ih =>
    intro acc h c hc
    rw [uidlNumber] at hc
    split at hc
    · exact ih _ (fun y hy => h y (List.mem_cons_of_mem _ hy)) c hc
    · exact h c hc

theorem uidlNumber_rest_append (l tail : List Char) (htail : ∀ c, tail.head? = some c → isdigit c = false) :
    ∀ acc : Int, (uidlNumber (l ++ tail) acc).2 = (uidlNumber l acc).2 ++ tail := by
  induction l with
  | nil =>
    intro acc
    rw [List.nil_append, uidlNumber_stop tail acc htail]
    simp [uidlNumber]
  | cons x l ih =>
    intro acc
    rw [List.cons_append, uidlNumber, uidlNumber]
    split
    · exact ih _
    · rfl

/-- C15: the listing-line parser maps a line made of optional blanks, a
non-empty run of digits with value `n` fitting an `int`, optional non-blank
characters, a non-empty run of blanks and a non-empty rest that does not
start with a blank to the pair `(n, rest)`, the rest taken verbatim;  a line
that has nothing after the blanks following its first token, a blank line
and the terminator line `.` give no pair, and a line that gives no pair adds
nothing to the map. -/
theorem uidlLine_contract :
    (∀ blanks ds junk ws rest : List Char,
      (∀ c ∈ blanks, isBlank c = true) →
      ds ≠ [] → (∀ c ∈ ds, isdigit c = true) → (digitsValue ds : Int) ≤ INT_MAX →
      (∀ c ∈ junk, isBlank c = false) → (∀ c, junk.head? = some c → isdigit c = false) →
      ws ≠ [] → (∀ c ∈ ws, isBlank c = true) →
      rest ≠ [] → (∀ c, rest.head? = some c → isBlank c = false) →
      uidlLine (blanks ++ (ds ++ (junk ++ (ws ++ rest))))
        = some ((digitsValue ds : Int), String.mk rest) ∧
      uidlIds [blanks ++ (ds ++ (junk ++ (ws ++ rest)))] []
        = [((digitsValue ds : Int), String.mk rest)]) ∧
    (∀ blanks token ws : List Char,
      (∀ c ∈ blanks, isBlank c = true) → (∀ c ∈ token, isBlank c = false) →
      (∀ c ∈ ws, isBlank c = true) →
      uidlLine (blanks ++ (token ++ ws)) = none) ∧
    uidlLine [] = none ∧
    uidlLine ['.'] = none ∧
    (∀ line ids, uidlLine line = none → uidlIds [line] ids = ids) := by
  refine ⟨?_, ?_, by decide, by decide, ?_⟩
  · intro blanks ds junk ws rest hb hds hdig hfit hjunk hjh hws hwb hrest hrh
    have hline : uidlLine (blanks ++ (ds ++ (junk ++ (ws ++ rest))))
        = some ((digitsValue ds : Int), String.mk rest) := by
      obtain ⟨d, ds', rfl⟩ : ∃ d ds', ds = d :: ds' := by
        cases ds with
        | nil => exact absurd rfl hds
        | cons d ds' => exact ⟨d, ds', rfl⟩
      obtain ⟨s, ws', rfl⟩ : ∃ s ws', ws = s :: ws' := by
        cases ws with
        | nil => exact absurd rfl hws
        | cons s ws' => exact ⟨s, ws', rfl⟩
      obtain ⟨r, rest', rfl⟩ : ∃ r rest', rest = r :: rest' := by
        cases rest with
        | nil => exact absurd rfl hrest
        | cons r rest' => exact ⟨r, rest', rfl⟩
      have hd : isBlank d = false := isBlank_not_digit d (hdig d (by simp))
      have hsb : isBlank s = true := hwb s (by simp)
      have htail : ∀ c, (junk ++ (s :: ws' ++ r :: rest')).head? = some c → isdigit c = false := by
        intro c hc
        cases junk with
        | nil =>
          simp only [List.nil_append, List.cons_append, List.head?_cons, Option.some.injEq] at hc
          subst hc
          cases hx : isdigit s with
          | false => rfl
          | true =>
            have := isBlank_not_digit s hx
            rw [hsb] at this
            cases this
        | cons j junk' =>
          simp only [List.cons_append, List.head?_cons, Option.some.injEq] at hc
          subst hc
          exact hjh _ rfl
      have hnum := uidlNumber_digits (d :: ds') (junk ++ (s :: ws' ++ r :: rest')) htail 0 hdig
      rw [wrapped_value _ hfit] at hnum
      unfold uidlLine
      simp only [dropWhile_append_all isBlank blanks _ hb]
      rw [dropWhile_stop isBlank (d :: ds' ++ (junk ++ (s :: ws' ++ r :: rest')))
        (by intro c hc
            simp only [List.cons_append, List.head?_cons, Option.some.injEq] at hc
            subst hc
            exact hd)]
      simp only [List.cons_append, List.isEmpty_cons, Bool.false_eq_true, if_false]
      simp only [List.cons_append] at hnum
      simp only [hnum]
      rw [dropWhile_append_all (fun c => !isBlank c) junk _ (by
        intro c hc
        simp [hjunk c hc])]
      rw [dropWhile_stop (fun c => !isBlank c) (s :: (ws' ++ r :: rest')) (by
        intro c hc
        simp only [List.head?_cons, Option.some.injEq] at hc
        subst hc
        simp [hsb])]
      have hws' : (s :: (ws' ++ r :: rest')) = (s :: ws') ++ (r :: rest') := rfl
      rw [hws', dropWhile_append_all isBlank (s :: ws') _ hwb,
        dropWhile_stop isBlank (r :: rest') hrh]
      simp
    refine ⟨hline, ?_⟩
    simp [uidlIds, hline, map.insert, map.find]
  · intro blanks token ws hb ht hw
    unfold uidlLine
    simp only [dropWhile_append_all isBlank blanks _ hb]
    cases token with
    | nil =>
      simp [dropWhile_all isBlank ws hw]
    | cons t token' =>
      have htb : isBlank t = false := ht t (by simp)
      rw [dropWhile_stop isBlank (t :: token' ++ ws) (by
        intro c hc
        simp only [List.cons_append, List.head?_cons, Option.some.injEq] at hc
        subst hc
        exact htb)]
      simp only [List.cons_append, List.isEmpty_cons, Bool.false_eq_true, if_false]
      have hhead : ∀ c, ws.head? = some c → isdigit c = false := by
        intro c hc
        have hcm : c ∈ ws := by
          cases ws with
          | nil => simp at hc
          | cons x ws' =>
            simp only [List.head?_cons, Option.some.injEq] at hc
            subst hc
            simp
        cases hx : isdigit c with
        | false => rfl
        | true =>
          have := isBlank_not_digit c hx
          rw [hw c hcm] at this
          cases this
      have happ := uidlNumber_rest_append (t :: token') ws hhead 0
      simp only [List.cons_append] at happ
      rw [happ]
      have hnb := uidlNumber_rest_nonblank (t :: token') 0 ht
      rw [dropWhile_append_all (fun c => !isBlank c) _ ws (by
        intro c hc
        simp [hnb c hc])]
      have hws2 : List.dropWhile (fun c => !isBlank c) ws = ws := by
        apply dropWhile_stop
        intro c hc
        have hcm : c ∈ ws := by
          cases ws with
          | nil => simp at hc
          | cons x ws' =>
            simp only [List.head?_cons, Option.some.injEq] at hc
            subst hc
            simp
        simp [hw c hcm]
      rw [hws2, dropWhile_all isBlank ws hw]
      simp
  · intro line ids h
    simp [uidlIds, h]

/-- The line ` 12 abc def` followed by a carriage return gives the pair
`(12, "abc def\r")`; the line `12 ` gives none. -/
theorem uidlLine_contract_witness :
    uidlLine " 12 abc def\r".data = some (12, "abc def\r") ∧
    uidlLine "12 ".data = none :=
  ⟨(uidlLine_contract.1 [' '] ['1', '2'] [] [' '] "abc def\r".data
      (by decide) (by decide) (by decide) (by decide) (by decide) (by simp)
      (by decide) (by decide) (by decide)
      (by intro c hc; cases hc; decide)).1,
   uidlLine_contract.2.1 [] ['1', '2'] [' '] (by decide) (by decide) (by decide)⟩
/-- C16 as stated fails: in the example session `getFolder("foo")` on the root
folder, whose result path `foo` is neither empty nor `INBOX`, does not throw
`folder_not_found` but returns a new folder object. -/
theorem getFolder_unknown_path_counterexample :
    path.child exampleRootFolder.m_path ⟨"foo"⟩ ≠ [] ∧
    path.child exampleRootFolder.m_path ⟨"foo"⟩ ≠ [⟨"INBOX"⟩] ∧
    exampleAliasWorld.folders[2]? = some exampleRootFolder ∧
    (getFolder exampleAliasWorld 2 ⟨"foo"⟩ 0).result = .ok 3 ∧
    (getFolder exampleAliasWorld 2 ⟨"foo"⟩ 0).result ≠ .error .folder_not_found := by
  refine ⟨by decide, by decide, by decide, rfl, ?_⟩
  intro h
  cases h

theorem getLastD_append_single {α : Type} (p : List α) (a d : α) :
    (p ++ [a]).getLastD d = a := by
  induction p generalizing d with
  | nil => rfl
  | cons x p ih =>
    cases p with
    | nil => rfl
    | cons y p => simp [List.getLastD]

/-- C16, amended: on a connected folder with path `p`, `getFolder(name)` never
throws `folder_not_found`; it sends nothing and returns a new folder object
with path `p / name`, closed, with mode -1 and an empty map of messages,
registered with the store; when `p / name` is not `INBOX` it is `open` on
that object that throws `folder_not_found`, and `exists` on it is false. -/
theorem getFolder_contract (w : World) (this : Nat) (fo : POP3Folder) (name : component)
    (count0 : Int) (hfo : w.folders[this]? = some fo) (hst : fo.m_store = true) :
    (getFolder w this name count0).result = .ok w.folders.length ∧
    (getFolder w this name count0).world.sent = w.sent ∧
    (getFolder w this name count0).world.m_folders = w.m_folders ++ [w.folders.length] ∧
    (getFolder w this name count0).world.folders = w.folders ++
      [{ m_store := true, m_path := fo.m_path ++ [name], m_name := name, m_mode := -1,
         m_open := false, m_messageCount := count0, m_messages := [], m_events := [] }] ∧
    (fo.m_path ++ [name] ≠ [⟨"INBOX"⟩] →
      (∀ mode failIfModeIsNotAvailable,
        open_ (getFolder w this name count0).world w.folders.length mode failIfModeIsNotAvailable
          = ⟨.error .folder_not_found, (getFolder w this name count0).world⟩) ∧
      exists_ (getFolder w this name count0).world w.folders.length
        = ⟨.ok false, (getFolder w this name count0).world⟩) := by
  have hw : getFolder w this name count0 =
      ⟨.ok w.folders.length,
        { w with
          folders := w.folders ++
            [{ m_store := true, m_path := fo.m_path ++ [name], m_name := name, m_mode := -1,
               m_open := false, m_messageCount := count0, m_messages := [], m_events := [] }],
          m_folders := w.m_folders ++ [w.folders.length] }⟩ := by
    simp [getFolder, hfo, hst, newPOP3Folder, registerFolder, path.child, path.last,
      getLastD_append_single]
  rw [hw]
  refine ⟨rfl, rfl, rfl, rfl, ?_⟩
  intro hne
  have hin : isINBOX (fo.m_path ++ [name]) = false := by
    cases h : isINBOX (fo.m_path ++ [name]) with
    | false => rfl
    | true => exact absurd ((isINBOX_iff _).1 h) hne
  have hemp : (fo.m_path ++ [name]).isEmpty = false := by
    cases fo.m_path <;> rfl
  constructor
  · intro mode f
    simp [open_, hin, hemp]
  · simp [exists_, hin, hemp]

/-- In the example session `getFolder("foo")` on the root folder gives folder
object 3, and opening that object throws `folder_not_found`. -/
theorem getFolder_contract_witness :
    (getFolder exampleAliasWorld 2 ⟨"foo"⟩ 0).result = .ok 3 ∧
    open_ (getFolder exampleAliasWorld 2 ⟨"foo"⟩ 0).world 3 MODE_READ_ONLY false
      = ⟨.error .folder_not_found, (getFolder exampleAliasWorld 2 ⟨"foo"⟩ 0).world⟩ :=
  ⟨(getFolder_contract exampleAliasWorld 2 exampleRootFolder ⟨"foo"⟩ 0
      (by decide) (by decide)).1,
   ((getFolder_contract exampleAliasWorld 2 exampleRootFolder ⟨"foo"⟩ 0
      (by decide) (by decide)).2.2.2.2 (by decide)).1 MODE_READ_ONLY false⟩

/-- C17 as stated fails: `type()` on the closed INBOX of the example session
does not return "contains messages" but throws `illegal_state`. -/
theorem type_closed_counterexample :
    exampleClosedFolder.m_path = [⟨"INBOX"⟩] ∧
    (exampleClosedWorld []).folders[0]? = some exampleClosedFolder ∧
    (type (exampleClosedWorld []) 0).result = .error (.illegal_state "Folder not open") ∧
    (type (exampleClosedWorld []) 0).result ≠ .ok TYPE_CONTAINS_MESSAGES := by
  refine ⟨rfl, by decide, rfl, ?_⟩
  intro h
  cases h

/-- C17, amended: on an open folder `type()` is decided by the path shape
alone: "contains sub-mailboxes" for the empty path, "contains messages" for
the single component `INBOX`, `folder_not_found` for every other path; on a
folder that is not open it throws `illegal_state`, whatever the path.  The
world is left as it was. -/
theorem type_contract (w : World) (this : Nat) (fo : POP3Folder)
    (hfo : w.folders[this]? = some fo) :
    (fo.m_open = true → fo.m_path = [] → type w this = ⟨.ok TYPE_CONTAINS_FOLDERS, w⟩) ∧
    (fo.m_open = true → fo.m_path = [⟨"INBOX"⟩] →
      type w this = ⟨.ok TYPE_CONTAINS_MESSAGES, w⟩) ∧
    (fo.m_open = true → fo.m_path ≠ [] → fo.m_path ≠ [⟨"INBOX"⟩] →
      type w this = ⟨.error .folder_not_found, w⟩) ∧
    (fo.m_open = false → type w this = ⟨.error (.illegal_state "Folder not open"), w⟩) := by
  refine ⟨?_, ?_, ?_, ?_⟩
  · intro ho hp
    simp [type, hfo, ho, hp]
  · intro ho hp
    have hin : isINBOX fo.m_path = true := (isINBOX_iff _).2 hp
    have hemp : fo.m_path.isEmpty = false := by rw [hp]; rfl
    simp [type, hfo, ho, hin, hemp]
  · intro ho hne hni
    have hin : isINBOX fo.m_path = false := by
      cases h : isINBOX fo.m_path with
      | false => rfl
      | true => exact absurd ((isINBOX_iff _).1 h) hni
    have hemp : fo.m_path.isEmpty = false := by
      cases h : fo.m_path with
      | nil => exact absurd h hne
      | cons c r => rfl
    simp [type, hfo, ho, hin, hemp]
  · intro ho
    simp [type, hfo, ho]

/-- In the example session the open INBOX contains messages, and the closed
one gives `illegal_state`. -/
theorem type_contract_witness :
    type exampleWorld 0 = ⟨.ok TYPE_CONTAINS_MESSAGES, exampleWorld⟩ ∧
    type (exampleClosedWorld []) 0
      = ⟨.error (.illegal_state "Folder not open"), exampleClosedWorld []⟩ :=
  ⟨(type_contract exampleWorld 0 exampleFolder (by decide)).2.1 (by decide) (by decide),
   (type_contract (exampleClosedWorld []) 0 exampleClosedFolder (by decide)).2.2.2 (by decide)⟩
theorem intsFrom_length (n : Nat) : ∀ i : Int, (intsFrom i n).length = n := by
  induction n with
  | zero => intro i; rfl
  | succ n ih => intro i; simp [intsFrom, ih]

theorem intsFrom_getElem? (n : Nat) :
    ∀ (i : Int) (k : Nat), k < n → (intsFrom i n)[k]? = some (i + k) := by
  induction n with
  | zero => intro i k hk; omega
  | succ n ih =>
    intro i k hk
    cases k with
    | zero => simp [intsFrom]
    | succ k =>
      simp only [intsFrom, List.getElem?_cons_succ]
      rw [ih (i + 1) k (by omega)]
      push_cast
      congr 1
      omega

theorem getMessagesRangeLoop_eq (this : Nat) (to_ : Int) (fuel : Nat) :
    ∀ (i : Int) (v : List Nat) (w : World) (fo : POP3Folder),
      w.folders[this]? = some fo →
      (∀ e ∈ fo.m_messages, e.1 < w.messages.length) →
      i + fuel = to_ + 1 →
      getMessagesRangeLoop this to_ fuel i v w =
        (v ++ List.range' w.messages.length fuel, allocated w this fo (intsFrom i fuel)) := by
  induction fuel with
  | zero =>
    intro i v w fo hfo _ _
    simp [getMessagesRangeLoop, intsFrom, allocated_nil w this fo hfo]
  | succ fuel ih =>
    intro i v w fo hfo hreg hi
    have hle : i ≤ to_ := by omega
    rw [getMessagesRangeLoop]
    simp only [hle, if_true, newPOP3Message_eq w this fo i hfo hreg]
    have hfo1 := allocated_folder w this fo [i] hfo
    simp only [List.length_singleton, List.range'_one, List.zip_cons_cons,
      List.zip_nil_right] at hfo1
    rw [ih (i + 1) _ (allocated w this fo [i]) _ hfo1]
    · rw [allocated_allocated]
      simp [allocated, List.range'_succ, intsFrom]
    · intro e he
      simp at he
      simp [allocated]
      rcases he with he | he
      · have := hreg e he
        omega
      · subst he
        simp
    · push_cast at hi ⊢
      omega

theorem allocated_handle (w : World) (this : Nat) (fo : POP3Folder) (nums : List Int)
    (k : Nat) (n : Int) (hreg : ∀ e ∈ fo.m_messages, e.1 < w.messages.length)
    (hk : nums[k]? = some n) :
    getMessageObject w (w.messages.length + k) = none ∧
    getMessageObject (allocated w this fo nums) (w.messages.length + k)
      = some (initialMessage this n) ∧
    map.find (fo.m_messages ++ (List.range' w.messages.length nums.length).zip nums)
      (w.messages.length + k) = some n := by
  refine ⟨?_, ?_, ?_⟩
  · have : w.messages[w.messages.length + k]? = none := List.getElem?_eq_none (by omega)
    simp [getMessageObject, this]
  · simp [getMessageObject, allocated, List.getElem?_append_right, hk]
  · rw [map.find_append_absent _ _ _ (fun e he => by have := hreg e he; omega),
      map.find_zip_range, hk]

/-- C18: on an open, connected folder with cached count `c`,
`getMessages(from, to)` succeeds exactly when `1 <= from <= to <= c`; it then
returns `to - from + 1` new message objects with the numbers `from`,
`from + 1`, ..., `to` in this order, each registered with the folder; in
every other case it throws `message_not_found` and creates nothing.  On a
folder that is not open it throws `illegal_state`. -/
theorem getMessagesRange_contract (w : World) (this : Nat) (fo : POP3Folder) (from_ to_ : Int)
    (hfo : w.folders[this]? = some fo) (hst : fo.m_store = true)
    (hreg : ∀ e ∈ fo.m_messages, e.1 < w.messages.length) :
    (fo.m_open = true → 1 ≤ from_ → from_ ≤ to_ → to_ ≤ fo.m_messageCount →
      (getMessagesRange w this from_ to_).result
        = .ok (List.range' w.messages.length (to_ + 1 - from_).toNat) ∧
      ((List.range' w.messages.length (to_ + 1 - from_).toNat).length : Int) = to_ - from_ + 1 ∧
      (getMessagesRange w this from_ to_).world.sent = w.sent ∧
      ∀ k : Nat, (k : Int) < to_ - from_ + 1 →
        (List.range' w.messages.length (to_ + 1 - from_).toNat)[k]?
          = some (w.messages.length + k) ∧
        getMessageObject w (w.messages.length + k) = none ∧
        getMessageObject (getMessagesRange w this from_ to_).world (w.messages.length + k)
          = some (initialMessage this (from_ + k)) ∧
        ∃ fo', (getMessagesRange w this from_ to_).world.folders[this]? = some fo' ∧
          map.find fo'.m_messages (w.messages.length + k) = some (from_ + k)) ∧
    (fo.m_open = true → ¬ (1 ≤ from_ ∧ from_ ≤ to_ ∧ to_ ≤ fo.m_messageCount) →
      getMessagesRange w this from_ to_ = ⟨.error .message_not_found, w⟩) ∧
    (fo.m_open = false →
      getMessagesRange w this from_ to_ = ⟨.error (.illegal_state "Folder not open"), w⟩) := by
  refine ⟨?_, ?_, ?_⟩
  · intro ho h1 h2 h3
    have hc : ¬ (to_ < from_ ∨ from_ < 1 ∨ to_ < 1 ∨ from_ > fo.m_messageCount
        ∨ to_ > fo.m_messageCount) := by omega
    have hloop := getMessagesRangeLoop_eq this to_ (to_ + 1 - from_).toNat from_ [] w fo hfo hreg
      (by omega)
    have hw : getMessagesRange w this from_ to_ =
        ⟨.ok (List.range' w.messages.length (to_ + 1 - from_).toNat),
          allocated w this fo (intsFrom from_ (to_ + 1 - from_).toNat)⟩ := by
      unfold getMessagesRange
      simp only [hfo]
      rw [if_neg (by simp [hst]), if_neg (by simp [ho]), if_neg hc, hloop]
      simp
    rw [hw]
    refine ⟨rfl, ?_, rfl, ?_⟩
    · simp only [List.length_range']
      omega
    · intro k hk
      have hkn : k < (to_ + 1 - from_).toNat := by omega
      have hget := intsFrom_getElem? (to_ + 1 - from_).toNat from_ k hkn
      have hh := allocated_handle w this fo (intsFrom from_ (to_ + 1 - from_).toNat) k
        (from_ + k) hreg hget
      refine ⟨?_, hh.1, hh.2.1, _, allocated_folder w this fo _ hfo, hh.2.2⟩
      simp [List.getElem?_range', hkn]
  · intro ho hbad
    have hc : (to_ < from_ ∨ from_ < 1 ∨ to_ < 1 ∨ from_ > fo.m_messageCount
        ∨ to_ > fo.m_messageCount) := by omega
    unfold getMessagesRange
    simp only [hfo]
    rw [if_neg (by simp [hst]), if_neg (by simp [ho]), if_pos hc]
  · intro ho
    simp [getMessagesRange, hfo, hst, ho]

/-- In the example session `getMessages(2, 4)` returns three objects and
`getMessages(3, 5)` throws `message_not_found`. -/
theorem getMessagesRange_contract_witness :
    (getMessagesRange exampleWorld 0 2 4).result = .ok [0, 1, 2] ∧
    getMessagesRange exampleWorld 0 3 5 = ⟨.error .message_not_found, exampleWorld⟩ :=
  ⟨((getMessagesRange_contract exampleWorld 0 exampleFolder 2 4 (by decide) (by decide)
      (by decide)).1 (by decide) (by decide) (by decide) (by decide)).1,
   (getMessagesRange_contract exampleWorld 0 exampleFolder 3 5 (by decide) (by decide)
      (by decide)).2.1 (by decide) (by decide)⟩
/-- C19: the size hint `extract` hands to the streaming read is the value
stored for the message in the folder's map, and `registerMessage` stores the
message number there.  In the example session a whole-message `extract` of
message 2 sends `RETR 2` and passes the hint 2, the message number; this
stays so when the size of the message is known to be 1500. -/
theorem extract_hint_is_message_number :
    (POP3Message.extract { exampleMessageWorld with pending := ["+OK\nbody"] } 1 0 (-1)
        false).world.sent = ["STAT", "RETR 2"] ∧
    (POP3Message.extract { exampleMessageWorld with pending := ["+OK\nbody"] } 1 0 (-1)
        false).world.hints = [2] ∧
    (POP3Message.extract
        { exampleMessageWorld with
          messages := [some (initialMessage 0 1), some { initialMessage 0 2 with m_size := 1500 },
                       some (initialMessage 0 3)],
          pending := ["+OK\nbody"] } 1 0 (-1) false).world.hints = [2] ∧
    (registerMessage
        { exampleWorld with messages := [some { initialMessage 0 2 with m_size := 1500 }] }
        0 0).folders[0]?.map POP3Folder.m_messages = some [(0, 2)] := by
  decide

theorem deleteMessage_messages (w : World) (this : Nat) (num : Int) :
    (deleteMessage w this num).world.messages = w.messages := by
  unfold deleteMessage
  cases w.folders[this]? with
  | none => rfl
  | some fo =>
    simp only
    split_ifs <;> try rfl
    all_goals
      unfold readResponse sendRequest
      simp only
      cases w.pending with
      | nil => rfl
      | cons r rest =>
        simp only
        split_ifs <;> rfl

theorem deleteMessagesLoop_messages (nums : List Int) :
    ∀ w : World, (deleteMessagesLoop nums w).world.messages = w.messages := by
  induction nums with
  | nil => intro w; rfl
  | cons n nums ih =>
    intro w
    rw [deleteMessagesLoop]
    unfold readResponse sendRequest
    simp only
    cases w.pending with
    | nil => rfl
    | cons r rest =>
      simp only
      split_ifs
      · rfl
      · rw [ih]

theorem deleteMessages_messages (w : World) (this : Nat) (nums : List Int) :
    (deleteMessages w this nums).world.messages = w.messages := by
  unfold deleteMessages
  split_ifs
  · rfl
  · cases w.folders[this]? with
    | none => rfl
    | some fo =>
      simp only
      split_ifs <;> try rfl
      all_goals exact deleteMessagesLoop_messages nums w

/-- C20: no member function assigns `m_deleted`: `deleteMessage` and
`deleteMessages` leave every message object as it was, for all arguments and
replies.  In the example session `deleteMessage(2)` answered `+OK` succeeds
and the flags of the object for message 2 are still `FLAG_RECENT` alone, not
`FLAG_RECENT | FLAG_DELETED`. -/
theorem delete_never_sets_deleted_flag :
    (∀ (w : World) (this : Nat) (num : Int),
      (deleteMessage w this num).world.messages = w.messages) ∧
    (∀ (w : World) (this : Nat) (nums : List Int),
      (deleteMessages w this nums).world.messages = w.messages) ∧
    (deleteMessage { exampleMessageWorld with pending := ["+OK"] } 0 2).result = .ok () ∧
    (deleteMessage { exampleMessageWorld with pending := ["+OK"] } 0 2).world.sent
      = ["STAT", "DELE 2"] ∧
    (deleteMessage { exampleMessageWorld with pending := ["+OK"] } 0 2).world.pending = [] ∧
    (getMessageObject
        (deleteMessage { exampleMessageWorld with pending := ["+OK"] } 0 2).world 1).map
      POP3Message.getFlags = some FLAG_RECENT ∧
    FLAG_RECENT ≠ FLAG_RECENT ||| FLAG_DELETED := by
  refine ⟨deleteMessage_messages, deleteMessages_messages, rfl, by decide, by decide,
    by decide, by decide⟩
/-- C21: for a connected folder with the empty (root) path `open` sends no
request; it throws `operation_not_supported`, leaving the world unchanged,
exactly when the mode is not read-only and `failIfModeIsNotAvailable` is
true; otherwise the folder becomes open with the requested mode and cached
count 0. -/
theorem open_root (w : World) (this : Nat) (fo : POP3Folder) (mode : Int)
    (failIfModeIsNotAvailable : Bool)
    (hfo : w.folders[this]? = some fo) (hst : fo.m_store = true) (hpath : fo.m_path = []) :
    (open_ w this mode failIfModeIsNotAvailable).world.sent = w.sent ∧
    ((mode ≠ MODE_READ_ONLY ∧ failIfModeIsNotAvailable = true) →
      open_ w this mode failIfModeIsNotAvailable = ⟨.error .operation_not_supported, w⟩) ∧
    (¬ (mode ≠ MODE_READ_ONLY ∧ failIfModeIsNotAvailable = true) →
      open_ w this mode failIfModeIsNotAvailable =
        ⟨.ok (), setFolder w this
          { fo with m_open := true, m_mode := mode, m_messageCount := 0 }⟩ ∧
      (open_ w this mode failIfModeIsNotAvailable).world.folders[this]?
        = some { fo with m_open := true, m_mode := mode, m_messageCount := 0 }) := by
  have hlt := getElem?_lt hfo
  have hemp : fo.m_path.isEmpty = true := by rw [hpath]; rfl
  have hbad : (mode ≠ MODE_READ_ONLY ∧ failIfModeIsNotAvailable = true) →
      open_ w this mode failIfModeIsNotAvailable = ⟨.error .operation_not_supported, w⟩ := by
    intro h
    unfold open_
    simp only [hfo, hemp, if_true]
    rw [if_neg (by simp [hst]), if_pos h]
  have hgood : ¬ (mode ≠ MODE_READ_ONLY ∧ failIfModeIsNotAvailable = true) →
      open_ w this mode failIfModeIsNotAvailable =
        ⟨.ok (), setFolder w this
          { fo with m_open := true, m_mode := mode, m_messageCount := 0 }⟩ := by
    intro h
    unfold open_
    simp only [hfo, hemp, if_true]
    rw [if_neg (by simp [hst]), if_neg h]
  refine ⟨?_, hbad, ?_⟩
  · by_cases h : mode ≠ MODE_READ_ONLY ∧ failIfModeIsNotAvailable = true
    · rw [hbad h]
    · rw [hgood h]; rfl
  · intro h
    refine ⟨hgood h, ?_⟩
    rw [hgood h]
    simp [setFolder, List.getElem?_set, hlt]

/-- In the example session the root folder opens read-only with count 0, opens
read-write when the mode is not insisted on, and refuses read-write when it
is. -/
theorem open_root_witness :
    (open_ exampleAliasWorld 2 MODE_READ_ONLY true).world.folders[2]?
      = some { exampleRootFolder with
                m_open := true, m_mode := MODE_READ_ONLY, m_messageCount := 0 } ∧
    (open_ exampleAliasWorld 2 MODE_READ_WRITE false).world.folders[2]?
      = some { exampleRootFolder with
                m_open := true, m_mode := MODE_READ_WRITE, m_messageCount := 0 } ∧
    open_ exampleAliasWorld 2 MODE_READ_WRITE true
      = ⟨.error .operation_not_supported, exampleAliasWorld⟩ :=
  ⟨((open_root exampleAliasWorld 2 exampleRootFolder MODE_READ_ONLY true
      (by decide) (by decide) (by decide)).2.2 (by decide)).2,
   ((open_root exampleAliasWorld 2 exampleRootFolder MODE_READ_WRITE false
      (by decide) (by decide) (by decide)).2.2 (by decide)).2,
   (open_root exampleAliasWorld 2 exampleRootFolder MODE_READ_WRITE true
      (by decide) (by decide) (by decide)).2.1 (by decide)⟩

/-- C22: `status` has no case for the root folder: on an open root it sends
`STAT` and stores the count of the reply.  In the example session the root
is opened (count 0), `status` answered `+OK 5 100` makes its cached count 5,
`getMessageCount` returns 5 and `getMessage(3)` on the root hands out a
message object. -/
theorem status_fills_root :
    ((open_ exampleAliasWorld 2 MODE_READ_ONLY false).world.folders[2]?).map
        (fun f => (f.m_path, f.m_open, f.m_messageCount)) = some ([], true, 0) ∧
    (status { (open_ exampleAliasWorld 2 MODE_READ_ONLY false).world with
              pending := ["+OK 5 100"] } 2).result = .ok (5, 5) ∧
    ((status { (open_ exampleAliasWorld 2 MODE_READ_ONLY false).world with
               pending := ["+OK 5 100"] } 2).world.folders[2]?).map
        (fun f => (f.m_path, f.m_open, f.m_messageCount)) = some ([], true, 5) ∧
    (getMessageCount
        (status { (open_ exampleAliasWorld 2 MODE_READ_ONLY false).world with
                  pending := ["+OK 5 100"] } 2).world 2).result = .ok 5 ∧
    (getMessage
        (status { (open_ exampleAliasWorld 2 MODE_READ_ONLY false).world with
                  pending := ["+OK 5 100"] } 2).world 2 3).result = .ok 0 :=
  ⟨by decide, rfl, by decide, rfl, rfl⟩
/-- C23: on a connected folder, open or not, `getFolders(recursive)` sends no
request; on the root it returns exactly one new folder object, whose path is
the single component `INBOX`; on every other folder it returns the empty
list and changes nothing; the result does not depend on `recursive`. -/
theorem getFolders_contract (w : World) (this : Nat) (fo : POP3Folder) (recursive : Bool)
    (count0 : Int) (hfo : w.folders[this]? = some fo) (hst : fo.m_store = true) :
    (getFolders w this recursive count0).world.sent = w.sent ∧
    (fo.m_path = [] →
      (getFolders w this recursive count0).result = .ok [w.folders.length] ∧
      (getFolders w this recursive count0).world.folders = w.folders ++
        [{ m_store := true, m_path := [⟨"INBOX"⟩], m_name := ⟨"INBOX"⟩, m_mode := -1,
           m_open := false, m_messageCount := count0, m_messages := [], m_events := [] }]) ∧
    (fo.m_path ≠ [] → getFolders w this recursive count0 = ⟨.ok [], w⟩) ∧
    getFolders w this true count0 = getFolders w this false count0 := by
  refine ⟨?_, ?_, ?_, rfl⟩
  · unfold getFolders
    simp only [hfo]
    rw [if_neg (by simp [hst])]
    split_ifs <;> rfl
  · intro hp
    have hemp : fo.m_path.isEmpty = true := by rw [hp]; rfl
    unfold getFolders
    simp only [hfo, hemp, if_true]
    rw [if_neg (by simp [hst])]
    exact ⟨rfl, rfl⟩
  · intro hp
    have hemp : fo.m_path.isEmpty = false := by
      cases h : fo.m_path with
      | nil => exact absurd h hp
      | cons c r => rfl
    unfold getFolders
    simp only [hfo, hemp]
    rw [if_neg (by simp [hst])]
    simp

/-- In the example session the root folder lists one new folder object, the
INBOX lists none. -/
theorem getFolders_contract_witness :
    (getFolders exampleAliasWorld 2 true 0).result = .ok [3] ∧
    getFolders exampleAliasWorld 0 true 0 = ⟨.ok [], exampleAliasWorld⟩ :=
  ⟨((getFolders_contract exampleAliasWorld 2 exampleRootFolder true 0 (by decide) (by decide)).2.1
      (by decide)).1,
   (getFolders_contract exampleAliasWorld 0 exampleFolder true 0 (by decide) (by decide)).2.2.1
      (by decide)⟩

/-- C24: `fetchMessage` with the UID option sends the bare command `UIDL`,
without the message number, although its own comment shows `UIDL 2`.  In
the example session, for the object of message 2, the request sent is `UIDL`;
the reply line is then parsed as if it were `+OK <n> <uid>`, so a reply
`+OK 3 messages` to the bare command sets the uid to `messages`. -/
theorem fetchMessage_sends_bare_uidl :
    (fetchMessage { exampleMessageWorld with pending := ["+OK 2 QhdPYR:00WBw1Ph7x7"] } 0 1
        FETCH_UID).world.sent = ["STAT", "UIDL"] ∧
    (fetchMessage { exampleMessageWorld with pending := ["+OK 2 QhdPYR:00WBw1Ph7x7"] } 0 1
        FETCH_UID).world.sent ≠ ["STAT", "UIDL 2"] ∧
    (getMessageObject
        (fetchMessage { exampleMessageWorld with pending := ["+OK 3 messages"] } 0 1
          FETCH_UID).world 1).map POP3Message.m_uid = some "messages" ∧
    (getMessageObject
        (fetchMessage { exampleMessageWorld with pending := ["-ERR no such message"] } 0 1
          FETCH_UID).world 1).map POP3Message.m_uid = some "" ∧
    (fetchMessage { exampleMessageWorld with pending := ["-ERR no such message"] } 0 1
        FETCH_UID).result = .ok () :=
  ⟨by decide, by decide, by decide, by decide, rfl⟩

/-- C25 as stated fails: in the example session `deleteMessages(3, -1)`, where
the end lies before the start, does not throw `invalid_argument` but
returns normally. -/
theorem deleteMessages_range_sentinel_counterexample :
    ((-1 : Int) < 3) ∧
    (deleteMessagesRange exampleWorld 0 3 (-1)).result = .ok () ∧
    (deleteMessagesRange exampleWorld 0 3 (-1)).result ≠ .error .invalid_argument := by
  refine ⟨by decide, rfl, ?_⟩
  intro h
  cases h

/-- C25, amended: `deleteMessages(from, to)` throws `invalid_argument`, sends
nothing and changes nothing, whatever the state of the folder, when
`from < 1`, or when `to < from` and `to` is not -1; a range with `to = -1`
and `from >= 1` is not rejected as an invalid argument. -/
theorem deleteMessages_range_guard (w : World) (this : Nat) (from_ to_ : Int) :
    ((from_ < 1 ∨ (to_ < from_ ∧ to_ ≠ -1)) →
      deleteMessagesRange w this from_ to_ = ⟨.error .invalid_argument, w⟩) ∧
    (1 ≤ from_ → to_ = -1 →
      (deleteMessagesRange w this from_ to_).result ≠ .error .invalid_argument) := by
  constructor
  · intro h
    unfold deleteMessagesRange
    rw [if_pos h]
  · intro h1 h2
    have hg : ¬ (from_ < 1 ∨ (to_ < from_ ∧ to_ ≠ -1)) := by omega
    have hfuel : (to_ - from_).toNat = 0 := by omega
    unfold deleteMessagesRange
    rw [if_neg hg]
    cases w.folders[this]? with
    | none => simp
    | some fo =>
      simp only [hfuel, deleteMessagesRangeLoop]
      split_ifs <;> simp

/-- The ranges (0, 5) and (4, 2) are rejected in the closed example session
as well, the range (3, -1) is not rejected as an invalid argument. -/
theorem deleteMessages_range_guard_witness :
    deleteMessagesRange (exampleClosedWorld []) 0 0 5
      = ⟨.error .invalid_argument, exampleClosedWorld []⟩ ∧
    deleteMessagesRange (exampleClosedWorld []) 0 4 2
      = ⟨.error .invalid_argument, exampleClosedWorld []⟩ ∧
    (deleteMessagesRange exampleWorld 0 3 (-1)).result ≠ .error .invalid_argument :=
  ⟨(deleteMessages_range_guard (exampleClosedWorld []) 0 0 5).1 (by decide),
   (deleteMessages_range_guard (exampleClosedWorld []) 0 4 2).1 (by decide),
   (deleteMessages_range_guard exampleWorld 0 3 (-1)).2 (by decide) (by decide)⟩

/-- C27: when `status` on an open, connected folder receives a positive reply
whose count `c` does not exceed the cached count, the output values are
`count = c` and `unseen = c`, the cached count of this folder becomes `c`,
and every other folder object, those with the same path included, is left
as it was; no event is delivered to any folder. -/
theorem status_without_growth (w : World) (this : Nat) (fo : POP3Folder)
    (reply : String) (rest : List String)
    (hfo : w.folders[this]? = some fo) (hst : fo.m_store = true) (ho : fo.m_open = true)
    (hpend : w.pending = reply :: rest) (hok : isSuccessResponse reply = true)
    (hle : (extractInt (stripResponseCode reply)).1 ≤ fo.m_messageCount) :
    (status w this).result
      = .ok ((extractInt (stripResponseCode reply)).1, (extractInt (stripResponseCode reply)).1) ∧
    (status w this).world.folders[this]?
      = some { fo with m_messageCount := (extractInt (stripResponseCode reply)).1 } ∧
    (∀ g, g ≠ this → (status w this).world.folders[g]? = w.folders[g]?) ∧
    (∀ (g : Nat) (fg : POP3Folder), (status w this).world.folders[g]? = some fg →
      ∃ fg0 : POP3Folder, w.folders[g]? = some fg0 ∧ fg.m_events = fg0.m_events) ∧
    (status w this).world.sent = w.sent ++ ["STAT"] := by
  have hlt := getElem?_lt hfo
  have hng : ¬ ((extractInt (stripResponseCode reply)).1 > fo.m_messageCount) := by omega
  by_cases heq : fo.m_messageCount = (extractInt (stripResponseCode reply)).1
  · have hw : status w this =
        ⟨.ok ((extractInt (stripResponseCode reply)).1,
              (extractInt (stripResponseCode reply)).1),
          { w with sent := w.sent ++ ["STAT"], pending := rest }⟩ := by
      unfold status
      simp only [hfo, readResponse, sendRequest, hpend]
      rw [if_neg (by simp [hst]), if_neg (by simp [ho]), if_neg (by simp [hok])]
      simp only [ne_eq, heq, not_true_eq_false, if_false]
    rw [hw]
    refine ⟨rfl, ?_, fun g _ => rfl, ?_, rfl⟩
    · simp only
      rw [hfo, ← heq]
    · intro g fg hg
      exact ⟨fg, hg, rfl⟩
  · have hw : status w this =
        ⟨.ok ((extractInt (stripResponseCode reply)).1,
              (extractInt (stripResponseCode reply)).1),
          setFolder { w with sent := w.sent ++ ["STAT"], pending := rest } this
            { fo with m_messageCount := (extractInt (stripResponseCode reply)).1 }⟩ := by
      unfold status
      simp only [hfo, readResponse, sendRequest, hpend]
      rw [if_neg (by simp [hst]), if_neg (by simp [ho]), if_neg (by simp [hok])]
      simp only [ne_eq, heq, not_false_eq_true, if_true]
      rw [if_neg hng]
    rw [hw]
    refine ⟨rfl, ?_, ?_, ?_, rfl⟩
    · simp [setFolder, List.getElem?_set, hlt]
    · intro g hg
      simp only [setFolder]
      rw [List.getElem?_set_ne (Ne.symm hg)]
    · intro g fg hg
      by_cases hgt : g = this
      · subst hgt
        simp only [setFolder, List.getElem?_set, hlt, if_true] at hg
        cases hg
        exact ⟨fo, hfo, rfl⟩
      · simp only [setFolder] at hg
        rw [List.getElem?_set_ne (Ne.symm hgt)] at hg
        exact ⟨fg, hg, rfl⟩

/-- In the example session with two folder objects for the INBOX (cached counts
4 and 3), `status` answered `+OK 2 100` gives the outputs (2, 2), sets the
count of the first to 2 and leaves the second at 3. -/
theorem status_without_growth_witness :
    (status { exampleAliasWorld with pending := ["+OK 2 100"] } 0).result = .ok (2, 2) ∧
    (status { exampleAliasWorld with pending := ["+OK 2 100"] } 0).world.folders[0]?
      = some { exampleFolder with m_messageCount := 2 } ∧
    (status { exampleAliasWorld with pending := ["+OK 2 100"] } 0).world.folders[1]?
      = some { exampleFolder with m_messageCount := 3 } :=
  ⟨(status_without_growth { exampleAliasWorld with pending := ["+OK 2 100"] } 0 exampleFolder
      "+OK 2 100" [] (by decide) (by decide) (by decide) (by decide) (by decide) (by decide)).1,
   (status_without_growth { exampleAliasWorld with pending := ["+OK 2 100"] } 0 exampleFolder
      "+OK 2 100" [] (by decide) (by decide) (by decide) (by decide) (by decide) (by decide)).2.1,
   (status_without_growth { exampleAliasWorld with pending := ["+OK 2 100"] } 0 exampleFolder
      "+OK 2 100" [] (by decide) (by decide) (by decide) (by decide) (by decide)
      (by decide)).2.2.1 1 (by decide)⟩
theorem registryConsistent_congr (w w' : World) (hf : w'.folders = w.folders)
    (hm : w'.messages = w.messages) (h : RegistryConsistent w) : RegistryConsistent w' := by
  intro f fo hfo
  rw [hf] at hfo
  have := h f fo hfo
  unfold getMessageObject at this ⊢
  rw [hm]
  exact this

theorem getMessageObject_lt (w : World) (h : Nat) (m : POP3Message)
    (hm : getMessageObject w h = some m) : h < w.messages.length := by
  unfold getMessageObject at hm
  cases hx : w.messages[h]? with
  | none => rw [hx] at hm; cases hm
  | some y => exact getElem?_lt hx

theorem registryConsistent_keys_lt (w : World) (hw : RegistryConsistent w) (f : Nat)
    (fo : POP3Folder) (hfo : w.folders[f]? = some fo) :
    ∀ e ∈ fo.m_messages, e.1 < w.messages.length := by
  intro e he
  obtain ⟨m, hm, _⟩ := ((hw f fo hfo).2.2 e.1 e.2).1 he
  exact getMessageObject_lt w e.1 m hm

theorem allocated_one_object (w : World) (f : Nat) (fo : POP3Folder) (num : Int) (h : Nat) :
    getMessageObject (allocated w f fo [num]) h =
      if h = w.messages.length then some (initialMessage f num) else getMessageObject w h := by
  unfold getMessageObject allocated
  simp only [List.map_cons, List.map_nil]
  by_cases hh : h = w.messages.length
  · subst hh
    simp
  · simp only [hh, if_false]
    by_cases hlt : h < w.messages.length
    · rw [List.getElem?_append_left hlt]
    · have h1 : (w.messages ++ [some (initialMessage f num)])[h]? = none :=
        List.getElem?_eq_none (by simp; omega)
      have h2 : w.messages[h]? = none := List.getElem?_eq_none (by omega)
      rw [h1, h2]

theorem allocated_one_folder (w : World) (f : Nat) (fo : POP3Folder) (num : Int)
    (hfo : w.folders[f]? = some fo) (g : Nat) :
    (allocated w f fo [num]).folders[g]? =
      if g = f then
        some { fo with m_messages := fo.m_messages ++ [(w.messages.length, num)] }
      else w.folders[g]? := by
  have hlt := getElem?_lt hfo
  by_cases hg : g = f
  · subst hg
    simp [allocated, List.getElem?_set, hlt]
  · simp only [hg, if_false, allocated]
    rw [List.getElem?_set_ne (Ne.symm hg)]

theorem registryConsistent_allocated (w : World) (hw : RegistryConsistent w) (f : Nat)
    (fo : POP3Folder) (num : Int) (hfo : w.folders[f]? = some fo) (ho : fo.m_open = true) :
    RegistryConsistent (allocated w f fo [num]) := by
  have hkeys := registryConsistent_keys_lt w hw f fo hfo
  intro g fg hfg
  rw [allocated_one_folder w f fo num hfo] at hfg
  by_cases hg : g = f
  · subst hg
    simp only [if_true, Option.some.injEq] at hfg
    subst hfg
    have hold := hw g fo hfo
    refine ⟨?_, ?_, ?_⟩
    · simp only [List.map_append, List.map_cons, List.map_nil]
      rw [List.nodup_append]
      refine ⟨hold.1, by simp, ?_⟩
      intro a ha hb
      simp only [List.mem_singleton] at hb
      subst hb
      obtain ⟨e, he, heq⟩ := List.mem_map.mp ha
      have := hkeys e he
      omega
    · intro hc
      simp only at hc
      rw [ho] at hc
      cases hc
    · intro h n
      rw [allocated_one_object]
      simp only [List.mem_append, List.mem_singleton, Prod.mk.injEq]
      by_cases hh : h = w.messages.length
      · subst hh
        simp only [if_true, true_and]
        constructor
        · rintro (hin | rfl)
          · have := hkeys _ hin
            simp at this
          · exact ⟨_, rfl, rfl, rfl⟩
        · rintro ⟨m, hm, -, hn⟩
          cases hm
          exact Or.inr hn.symm
      · simp only [hh, if_false, false_and, or_false]
        exact hold.2.2 h n
  · simp only [hg, if_false] at hfg
    have hold := hw g fg hfg
    refine ⟨hold.1, hold.2.1, ?_⟩
    intro h n
    rw [allocated_one_object]
    by_cases hh : h = w.messages.length
    · subst hh
      simp only [if_true]
      constructor
      · intro hin
        have := registryConsistent_keys_lt w hw g fg hfg _ hin
        simp at this
      · rintro ⟨m, hm, how, -⟩
        cases hm
        simp only [initialMessage, Option.some.injEq] at how
        exact absurd how.symm hg
    · simp only [hh, if_false]
      exact hold.2.2 h n
theorem deletePOP3Message_object (w : World) (msg h : Nat) :
    getMessageObject (deletePOP3Message w msg) h =
      if h = msg then none else getMessageObject w h := by
  unfold deletePOP3Message
  cases hm : getMessageObject w msg with
  | none =>
    simp only
    by_cases hh : h = msg
    · subst hh; simp [hm]
    · simp [hh]
  | some m =>
    simp only
    have hmsgs : ∀ W : World, W.messages = w.messages →
        getMessageObject (setMessage W msg none) h =
          if h = msg then none else getMessageObject w h := by
      intro W hW
      have hW' : getMessageObject W msg = some m := by
        unfold getMessageObject at hm ⊢
        rw [hW]; exact hm
      rw [getMessageObject_setMessage W msg m none hW']
      by_cases hh : h = msg
      · simp [hh]
      · simp only [hh, if_false]
        unfold getMessageObject
        rw [hW]
    cases hf : m.m_folder with
    | none => exact hmsgs w rfl
    | some f =>
      simp only
      apply hmsgs
      unfold unregisterMessage
      cases w.folders[f]? <;> rfl

theorem deletePOP3Message_folder (w : World) (msg g : Nat) :
    (deletePOP3Message w msg).folders[g]? =
      match getMessageObject w msg with
      | some m =>
        if m.m_folder = some g then
          (w.folders[g]?).map (fun fo => { fo with m_messages := map.erase fo.m_messages msg })
        else w.folders[g]?
      | none => w.folders[g]? := by
  unfold deletePOP3Message
  cases hm : getMessageObject w msg with
  | none => rfl
  | some m =>
    simp only
    cases hf : m.m_folder with
    | none => simp [setMessage]
    | some f =>
      simp only [setMessage, unregisterMessage]
      cases hfo : w.folders[f]? with
      | none =>
        simp only
        by_cases hg : f = g
        · subst hg
          simp [hfo]
        · simp [hg]
      | some fo =>
        have hlt := getElem?_lt hfo
        simp only [setFolder]
        by_cases hg : f = g
        · subst hg
          simp [hfo, List.getElem?_set, hlt]
        · simp only [Option.some.injEq, hg, if_false]
          rw [List.getElem?_set_ne hg]

theorem erase_keys_nodup (reg : List (Nat × Int)) (msg : Nat)
    (h : (reg.map Prod.fst).Nodup) : ((map.erase reg msg).map Prod.fst).Nodup := by
  unfold map.erase
  exact h.sublist ((List.filter_sublist reg).map Prod.fst)

theorem mem_erase (reg : List (Nat × Int)) (msg h : Nat) (n : Int) :
    (h, n) ∈ map.erase reg msg ↔ (h, n) ∈ reg ∧ h ≠ msg := by
  unfold map.erase
  simp [List.mem_filter]

theorem registryConsistent_delete (w : World) (hw : RegistryConsistent w) (msg : Nat) :
    RegistryConsistent (deletePOP3Message w msg) := by
  intro g fg hfg
  rw [deletePOP3Message_folder] at hfg
  cases hm : getMessageObject w msg with
  | none =>
    rw [hm] at hfg
    simp only at hfg
    have hold := hw g fg hfg
    refine ⟨hold.1, hold.2.1, ?_⟩
    intro h n
    rw [deletePOP3Message_object]
    by_cases hh : h = msg
    · subst hh
      simp only [if_true]
      rw [hold.2.2 h n, hm]
    · simp only [hh, if_false]
      exact hold.2.2 h n
  | some m =>
    rw [hm] at hfg
    simp only at hfg
    by_cases hown : m.m_folder = some g
    · rw [if_pos hown] at hfg
      cases hfo : w.folders[g]? with
      | none => rw [hfo] at hfg; cases hfg
      | some fo =>
        rw [hfo] at hfg
        simp only [Option.map_some', Option.some.injEq] at hfg
        subst hfg
        have hold := hw g fo hfo
        refine ⟨erase_keys_nodup _ _ hold.1, ?_, ?_⟩
        · intro hc
          simp only at hc ⊢
          rw [hold.2.1 hc]
          rfl
        · intro h n
          simp only
          rw [deletePOP3Message_object, mem_erase, hold.2.2 h n]
          by_cases hh : h = msg
          · simp [hh]
          · simp [hh]
    · rw [if_neg hown] at hfg
      have hold := hw g fg hfg
      refine ⟨hold.1, hold.2.1, ?_⟩
      intro h n
      rw [deletePOP3Message_object, hold.2.2 h n]
      by_cases hh : h = msg
      · subst hh
        simp only [if_true, hm]
        constructor
        · rintro ⟨m', hm', how, -⟩
          cases hm'
          exact absurd how hown
        · rintro ⟨m', hm', -⟩
          cases hm'
      · simp only [hh, if_false]

theorem registryConsistent_deleteAll (v : List Nat) :
    ∀ w : World, RegistryConsistent w → RegistryConsistent (v.foldl deletePOP3Message w) := by
  induction v with
  | nil => intro w h; exact h
  | cons a v ih =>
    intro w h
    exact ih _ (registryConsistent_delete w h a)
theorem registryConsistent_getMessagesLoop (this : Nat) (nums : List Int) :
    ∀ (v : List Nat) (w : World), RegistryConsistent w →
      (∀ fo, w.folders[this]? = some fo → fo.m_open = true) →
      RegistryConsistent (getMessagesLoop this nums v w).2.2 := by
  induction nums with
  | nil => intro v w hw _; exact hw
  | cons num rest ih =>
    intro v w hw hopen
    rw [getMessagesLoop]
    cases hfo : w.folders[this]? with
    | none => exact hw
    | some fo =>
      simp only
      split_ifs
      · exact hw
      · have hkeys := registryConsistent_keys_lt w hw this fo hfo
        rw [newPOP3Message_eq w this fo num hfo hkeys]
        apply ih
        · exact registryConsistent_allocated w hw this fo num hfo (hopen fo hfo)
        · intro fo' hfo'
          rw [allocated_one_folder w this fo num hfo, if_pos rfl] at hfo'
          cases hfo'
          exact hopen fo hfo

theorem registryConsistent_getMessagesRangeLoop (this : Nat) (to_ : Int) (fuel : Nat) :
    ∀ (i : Int) (v : List Nat) (w : World), RegistryConsistent w →
      (∀ fo, w.folders[this]? = some fo → fo.m_open = true) →
      (∃ fo, w.folders[this]? = some fo) →
      RegistryConsistent (getMessagesRangeLoop this to_ fuel i v w).2 := by
  induction fuel with
  | zero => intro i v w hw _ _; exact hw
  | succ fuel ih =>
    intro i v w hw hopen hex
    rw [getMessagesRangeLoop]
    split_ifs
    · obtain ⟨fo, hfo⟩ := hex
      have hkeys := registryConsistent_keys_lt w hw this fo hfo
      rw [newPOP3Message_eq w this fo i hfo hkeys]
      apply ih
      · exact registryConsistent_allocated w hw this fo i hfo (hopen fo hfo)
      · intro fo' hfo'
        rw [allocated_one_folder w this fo i hfo, if_pos rfl] at hfo'
        cases hfo'
        exact hopen fo hfo
      · exact ⟨_, by rw [allocated_one_folder w this fo i hfo, if_pos rfl]⟩
    · exact hw

theorem onClose_other_folder (W : World) (this g : Nat) (hg : g ≠ this) :
    (onClose W this).folders[g]? = W.folders[g]? := by
  cases hfo : W.folders[this]? with
  | none => simp [onClose, hfo]
  | some fo =>
    rw [onClose_eq W this fo hfo]
    simp only [setFolder]
    rw [List.getElem?_set_ne (Ne.symm hg), (closeAll_frame fo.m_messages W).1]

theorem registryConsistent_closed (w W0 : World) (hw : RegistryConsistent w) (this : Nat)
    (fo : POP3Folder) (hfo : w.folders[this]? = some fo)
    (hf0 : W0.folders = w.folders) (hm0 : W0.messages = w.messages) :
    RegistryConsistent
      (onClose (setFolder W0 this { fo with m_open := false, m_mode := -1 }) this) := by
  have hlt : this < W0.folders.length := by rw [hf0]; exact getElem?_lt hfo
  have hfo1 : (setFolder W0 this { fo with m_open := false, m_mode := -1 }).folders[this]?
      = some { fo with m_open := false, m_mode := -1 } := by
    simp [setFolder, List.getElem?_set, hlt]
  have hon := onClose_contract _ this _ hfo1
  have hobj : ∀ h, getMessageObject
      (setFolder W0 this { fo with m_open := false, m_mode := -1 }) h = getMessageObject w h := by
    intro h
    unfold getMessageObject setFolder
    simp only
    rw [hm0]
  have hthis := hw this fo hfo
  intro g fg hfg
  by_cases hg : g = this
  · subst hg
    rw [hon.2.1] at hfg
    cases hfg
    refine ⟨by simp, fun _ => rfl, ?_⟩
    intro h n
    simp only [List.not_mem_nil, false_iff, not_exists, not_and]
    intro m hm how
    rw [hon.2.2 h, hobj] at hm
    simp only at hm
    by_cases hk : h ∈ fo.m_messages.map Prod.fst
    · rw [if_pos hk] at hm
      cases hx : getMessageObject w h with
      | none => rw [hx] at hm; cases hm
      | some m0 =>
        rw [hx] at hm
        simp only [Option.map_some', Option.some.injEq] at hm
        subst hm
        cases how
    · rw [if_neg hk] at hm
      have := (hthis.2.2 h m.m_num).2 ⟨m, hm, how, rfl⟩
      exact absurd (List.mem_map.mpr ⟨(h, m.m_num), this, rfl⟩) hk
  · rw [onClose_other_folder _ this g hg] at hfg
    simp only [setFolder] at hfg
    rw [List.getElem?_set_ne (Ne.symm hg), hf0] at hfg
    have hold := hw g fg hfg
    refine ⟨hold.1, hold.2.1, ?_⟩
    intro h n
    rw [hon.2.2 h, hobj, hold.2.2 h n]
    simp only
    by_cases hk : h ∈ fo.m_messages.map Prod.fst
    · rw [if_pos hk]
      obtain ⟨e, he, hek⟩ := List.mem_map.mp hk
      obtain ⟨m0, hm0', how0, -⟩ := (hthis.2.2 e.1 e.2).1 he
      rw [hek] at hm0'
      rw [hm0']
      simp only [Option.map_some', Option.some.injEq]
      constructor
      · rintro ⟨m', hm', how', -⟩
        subst hm'
        rw [how0] at how'
        cases how'
        exact absurd rfl hg
      · rintro ⟨m', hm', how', -⟩
        subst hm'
        cases how'
    · rw [if_neg hk]

theorem registryConsistent_step (w w' : World) (hw : RegistryConsistent w)
    (hs : RegistryStep w w') : RegistryConsistent w' := by
  cases hs with
  | getMessage this num =>
    unfold getMessage
    cases hfo : w.folders[this]? with
    | none => exact hw
    | some fo =>
      simp only
      by_cases ho : fo.m_open = true
      · split_ifs
        · exact hw
        · exact hw
        · exact hw
        · have hkeys := registryConsistent_keys_lt w hw this fo hfo
          rw [newPOP3Message_eq w this fo num hfo hkeys]
          exact registryConsistent_allocated w hw this fo num hfo ho
      · have ho' : fo.m_open = false := by
          cases h : fo.m_open with
          | false => rfl
          | true => exact absurd h ho
        simp only [ho']
        split_ifs <;> first | exact hw | (exfalso; simp_all)
  | getMessages this nums =>
    unfold getMessages
    cases hfo : w.folders[this]? with
    | none => exact hw
    | some fo =>
      simp only
      by_cases ho : fo.m_open = true
      · split_ifs
        · exact hw
        · exact hw
        · have hl := registryConsistent_getMessagesLoop this nums [] w hw (by
            intro fo' hfo'
            rw [hfo] at hfo'
            cases hfo'
            exact ho)
          rcases hr : getMessagesLoop this nums [] w with ⟨res, v, w1⟩
          rw [hr] at hl
          cases res with
          | ok u => exact hl
          | error e => exact registryConsistent_deleteAll v w1 hl
      · have ho' : fo.m_open = false := by
          cases h : fo.m_open with
          | false => rfl
          | true => exact absurd h ho
        simp only [ho']
        split_ifs <;> first | exact hw | (exfalso; simp_all)
  | getMessagesRange this from_ to_ =>
    unfold getMessagesRange
    cases hfo : w.folders[this]? with
    | none => exact hw
    | some fo =>
      simp only
      by_cases ho : fo.m_open = true
      · split_ifs
        · exact hw
        · exact hw
        · exact hw
        · exact registryConsistent_getMessagesRangeLoop this to_ _ from_ [] w hw (by
            intro fo' hfo'
            rw [hfo] at hfo'
            cases hfo'
            exact ho) ⟨fo, hfo⟩
      · have ho' : fo.m_open = false := by
          cases h : fo.m_open with
          | false => rfl
          | true => exact absurd h ho
        simp only [ho']
        split_ifs <;> first | exact hw | (exfalso; simp_all)
  | destroy msg => exact registryConsistent_delete w hw msg
  | close this expunge =>
    unfold close
    cases hfo : w.folders[this]? with
    | none => exact hw
    | some fo =>
      simp only
      split_ifs
      · exact hw
      · exact hw
      · unfold readResponse sendRequest
        simp only
        cases hp : w.pending with
        | nil => exact registryConsistent_congr w _ rfl rfl hw
        | cons r rest =>
          exact registryConsistent_closed w _ hw this fo hfo rfl rfl
      · exact registryConsistent_closed w w hw this fo hfo rfl rfl
theorem registryConsistent_reachable (w0 w : World) (h0 : RegistryConsistent w0)
    (hr : Relation.ReflTransGen RegistryStep w0 w) : RegistryConsistent w := by
  induction hr with
  | refl => exact h0
  | tail _ hs ih => exact registryConsistent_step _ _ ih hs

theorem exampleWorld_consistent : RegistryConsistent exampleWorld := by
  intro f fo hfo
  cases f with
  | zero =>
    simp only [exampleWorld, List.getElem?_cons_zero, Option.some.injEq] at hfo
    subst hfo
    refine ⟨?_, fun _ => rfl, ?_⟩
    · simp [exampleFolder]
    · intro h n
      simp [exampleFolder, getMessageObject, exampleWorld]
  | succ f => simp [exampleWorld] at hfo

/-- C26: consistency of the maps of messages is kept by every sequence of
message creations (`getMessage`, both forms of `getMessages`), message
deletions and folder closes: in every state so reached, `(h, n)` is an entry
of the map of folder `f` if and only if `h` is a live message object whose
owner pointer is `f` and whose number is `n`.  Consequently a folder that is
not open has an empty map, deleting a message object whose owner pointer
has been cleared changes no folder, and every entry of a map refers to a
live message object that still points to the folder. -/
theorem registry_consistency (w0 w : World) (h0 : RegistryConsistent w0)
    (hr : Relation.ReflTransGen RegistryStep w0 w) :
    (∀ (f : Nat) (fo : POP3Folder), w.folders[f]? = some fo →
      ∀ (h : Nat) (n : Int), (h, n) ∈ fo.m_messages ↔
        ∃ m : POP3Message,
          getMessageObject w h = some m ∧ m.m_folder = some f ∧ m.m_num = n) ∧
    (∀ (f : Nat) (fo : POP3Folder), w.folders[f]? = some fo → fo.m_open = false →
      fo.m_messages = []) ∧
    (∀ (h : Nat) (m : POP3Message), getMessageObject w h = some m → m.m_folder = none →
      (deletePOP3Message w h).folders = w.folders) ∧
    (∀ (f : Nat) (fo : POP3Folder) (h : Nat) (n : Int), w.folders[f]? = some fo →
      (h, n) ∈ fo.m_messages →
      getMessageObject w h ≠ none ∧
      (getMessageObject w h).map POP3Message.m_folder ≠ some none) := by
  have hw := registryConsistent_reachable w0 w h0 hr
  refine ⟨fun f fo hfo => (hw f fo hfo).2.2, fun f fo hfo => (hw f fo hfo).2.1, ?_, ?_⟩
  · intro h m hm how
    simp [deletePOP3Message, hm, how, setMessage]
  · intro f fo h n hfo hin
    obtain ⟨m, hm, how, -⟩ := ((hw f fo hfo).2.2 h n).1 hin
    rw [hm]
    simp [how]

/-- In the example session, after `getMessage(3)` the map of the INBOX holds
exactly the new object with number 3, and after the folder has then been
closed its map is empty. -/
theorem registry_consistency_witness :
    (∀ (h : Nat) (n : Int), (h, n) ∈ [((0 : Nat), (3 : Int))] ↔
      ∃ m : POP3Message,
        getMessageObject (getMessage exampleWorld 0 3).world h = some m ∧
        m.m_folder = some 0 ∧ m.m_num = n) ∧
    ((close (getMessage exampleWorld 0 3).world 0 true).world.folders[0]?).map
        POP3Folder.m_messages = some [] :=
  ⟨(registry_consistency exampleWorld (getMessage exampleWorld 0 3).world
      exampleWorld_consistent
      (Relation.ReflTransGen.single (RegistryStep.getMessage exampleWorld 0 3))).1 0
      { exampleFolder with m_messages := [(0, 3)] } (by decide),
   congrArg (Option.map POP3Folder.m_messages)
    (show (close (getMessage exampleWorld 0 3).world 0 true).world.folders[0]?
        = some { exampleFolder with m_open := false, m_mode := -1 } from by decide) |>.trans
    (congrArg some
      ((registry_consistency exampleWorld (close (getMessage exampleWorld 0 3).world 0 true).world
        exampleWorld_consistent
        (Relation.ReflTransGen.tail
          (Relation.ReflTransGen.single (RegistryStep.getMessage exampleWorld 0 3))
          (RegistryStep.close (getMessage exampleWorld 0 3).world 0 true))).2.1 0
        { exampleFolder with m_open := false, m_mode := -1 } (by decide) (by decide)))⟩
theorem lookup_mem {α β : Type} [BEq α] [LawfulBEq α] (l : List (α × β)) (a : α) (b : β)
    (h : l.lookup a = some b) : (a, b) ∈ l := by
  induction l with
  | nil => simp [List.lookup] at h
  | cons p l ih =>
    obtain ⟨x, y⟩ := p
    by_cases hx : a = x
    · subst hx
      simp [List.lookup] at h
      simp [h]
    · have : (a == x) = false := by simpa using hx
      simp only [List.lookup, this] at h
      exact List.mem_cons_of_mem _ (ih h)

theorem lowerTable_spec :
    ∀ p ∈ lowerTable, tolower p.2 = p.2 ∧ p.2 ≠ '/' ∧ p.1 ≠ '/' := by
  decide

theorem tolower_idem (c : Char) : tolower (tolower c) = tolower c := by
  unfold tolower
  cases h : lowerTable.lookup c with
  | none => simp [h]
  | some l =>
    have := (lowerTable_spec (c, l) (lookup_mem _ _ _ h)).1
    simpa [tolower] using this

theorem tolower_slash (c : Char) : tolower c = '/' ↔ c = '/' := by
  constructor
  · intro hc
    unfold tolower at hc
    cases h : lowerTable.lookup c with
    | none => simpa [h] using hc
    | some l =>
      have := (lowerTable_spec (c, l) (lookup_mem _ _ _ h)).2.1
      simp [h] at hc
      exact absurd hc this
  · intro hc
    subst hc
    decide

theorem toLower_idem (s : String) : toLower (toLower s) = toLower s := by
  unfold toLower
  simp only [List.map_map]
  congr 1
  apply List.map_congr_left
  intro c _
  exact tolower_idem c

theorem toLower_no_slash (s : String) (h : '/' ∉ s.data) : '/' ∉ (toLower s).data := by
  unfold toLower
  simp only [List.mem_map, not_exists, not_and]
  intro c hc hl
  rw [tolower_slash] at hl
  subst hl
  exact h hc

theorem toLower_mk_data (s : String) : toLower (String.mk (toLower s).data) = toLower s := by
  have : String.mk (toLower s).data = toLower s := rfl
  rw [this, toLower_idem]

theorem generate_value_data (t s : String) :
    (toLower t ++ "/" ++ toLower s).data = (toLower t).data ++ '/' :: (toLower s).data := by
  simp [String.data_append]

/-- C28: for a media type whose type contains no `/` and a line position at
which the text fits, `generate` writes `toLower(type) + "/" +
toLower(subType)` and reports the position advanced by its length; parsing
that text over its whole extent gives the type `toLower(type)` and the
sub-type `toLower(subType)`, whatever the object held before, and reports
the end as new position; generating the parsed value writes the same text
again. -/
theorem mediaType_round_trip (m m0 : mediaType) (NEW_LINE_SEQUENCE : String)
    (NEW_LINE_SEQUENCE_LENGTH maxLineLength curLinePos : Nat)
    (hslash : '/' ∉ m.m_type.data)
    (hfit : curLinePos + (toLower m.m_type ++ "/" ++ toLower m.m_subType).length
      ≤ maxLineLength) :
    m.generate NEW_LINE_SEQUENCE NEW_LINE_SEQUENCE_LENGTH maxLineLength curLinePos
      = (toLower m.m_type ++ "/" ++ toLower m.m_subType,
         curLinePos + (toLower m.m_type ++ "/" ++ toLower m.m_subType).length) ∧
    m0.parse (toLower m.m_type ++ "/" ++ toLower m.m_subType) 0
        (toLower m.m_type ++ "/" ++ toLower m.m_subType).length
      = ({ m_type := toLower m.m_type, m_subType := toLower m.m_subType },
         (toLower m.m_type ++ "/" ++ toLower m.m_subType).length) ∧
    (m0.parse (toLower m.m_type ++ "/" ++ toLower m.m_subType) 0
        (toLower m.m_type ++ "/" ++ toLower m.m_subType).length).1.generate
        NEW_LINE_SEQUENCE NEW_LINE_SEQUENCE_LENGTH maxLineLength curLinePos
      = m.generate NEW_LINE_SEQUENCE NEW_LINE_SEQUENCE_LENGTH maxLineLength curLinePos := by
  have hgen : m.generate NEW_LINE_SEQUENCE NEW_LINE_SEQUENCE_LENGTH maxLineLength curLinePos
      = (toLower m.m_type ++ "/" ++ toLower m.m_subType,
         curLinePos + (toLower m.m_type ++ "/" ++ toLower m.m_subType).length) := by
    unfold mediaType.generate
    simp only
    rw [if_neg (by omega)]
  have hdata := generate_value_data m.m_type m.m_subType
  have hT := toLower_no_slash m.m_type hslash
  have htw : ((toLower m.m_type).data ++ '/' :: (toLower m.m_subType).data).takeWhile
      (fun c => c != '/') = (toLower m.m_type).data := by
    apply takeWhile_append_stop
    · intro c hc
      have : c ≠ '/' := fun e => hT (e ▸ hc)
      simpa using this
    · intro c hc
      simp only [List.head?_cons, Option.some.injEq] at hc
      subst hc
      simp
  have hparse : m0.parse (toLower m.m_type ++ "/" ++ toLower m.m_subType) 0
        (toLower m.m_type ++ "/" ++ toLower m.m_subType).length
      = ({ m_type := toLower m.m_type, m_subType := toLower m.m_subType },
         (toLower m.m_type ++ "/" ++ toLower m.m_subType).length) := by
    unfold mediaType.parse
    have hlen : (toLower m.m_type ++ "/" ++ toLower m.m_subType).length
        = ((toLower m.m_type).data ++ '/' :: (toLower m.m_subType).data).length := by
      rw [← hdata]; rfl
    simp only [hdata, List.drop_zero, Nat.sub_zero, hlen, List.take_length, htw]
    rw [if_pos (by simp)]
    simp only [toLower_mk_data, List.drop_left', List.drop_succ_cons, List.drop_zero]
    have hdrop : ∀ (a b : List Char) (n : Nat), n = a.length →
        List.drop (n + 1) (a ++ '/' :: b) = b := by
      intro a b n hn
      subst hn
      induction a with
      | nil => rfl
      | cons x a ih => simp
    rw [hdrop _ _ _ rfl, toLower_mk_data]
  refine ⟨hgen, hparse, ?_⟩
  rw [hparse, hgen]
  unfold mediaType.generate
  simp only [toLower_idem]
  rw [if_neg (by omega)]

/-- The media type `TeXt/HTML` is written as `text/html`, which parses to
`text` and `html`. -/
theorem mediaType_round_trip_witness :
    (mediaType.generate ⟨"TeXt", "HTML"⟩ "\r\n " 1 78 10) = ("text/html", 19) ∧
    (mediaType.parse ⟨"application", "octet-stream"⟩ "text/html" 0 9)
      = (⟨"text", "html"⟩, 9) :=
  ⟨(mediaType_round_trip ⟨"TeXt", "HTML"⟩ ⟨"application", "octet-stream"⟩ "\r\n " 1 78 10
      (by decide) (by decide)).1,
   (mediaType_round_trip ⟨"TeXt", "HTML"⟩ ⟨"application", "octet-stream"⟩ "\r\n " 1 78 10
      (by decide) (by decide)).2.1⟩
end vmime
